import Mathlib

/-! # Cluster-control core of the metanode (`metanode/cluster.go`)

A shallow embedding of the volume-lifecycle and migration handlers of the
cluster server.  The replicated key-value store is an explicit `World` value
threaded through every handler; everything the handlers cannot control (random
draws, consensus faults, peer replies, Go map iteration order) is an explicit
oracle, so each handler is a total, executable function.
-/

namespace Metanode

/-! ## Machine integers -/

/-- Two's-complement wrap-around of a Go `int32` result. -/
def wrap32 (x : Int) : Int := (x + 2147483648) % 4294967296 - 2147483648

/-- Modelled from the spec: the block size constant `BlkSizeG = 5` (GiB) of the
configuration; its declaration is outside `cluster.go`. -/
def BlkSizeG : Int := 5

/-! ## Messages -/

/-- Message `mp.Datanode`: one disk of a storage server. -/
structure Datanode where
  Ip : String
  Port : Int
  MountPoint : String
  Capacity : Int
  Used : Int
  Free : Int
  Status : Int
  Tier : String
deriving DecidableEq

/-- Message `mp.Block`: one 5 GiB replica. -/
structure Block where
  BlkID : Nat
  Ip : String
  Port : Int
  Path : String
  Status : Int
  BGID : Nat
  VolID : String
deriving DecidableEq

/-- Message `mp.BGP`: a block group. -/
structure BGP where
  Blocks : List Block
deriving DecidableEq

/-- Message `mp.Volume`. -/
structure Volume where
  UUID : String
  Name : String
  Tier : String
  TotalSize : Int
  AllocatedSize : Int
  RGID : Nat
deriving DecidableEq

/-! ## Key rendering (`fmt.Sprintf` with `%d`) -/

/-- Decimal digits of `n`, least significant first; `fuel` bounds the number of digits. -/
def revDigits : Nat → Nat → List Nat
  | 0, _ => []
  | fuel + 1, n => if n < 10 then [n] else (n % 10) :: revDigits fuel (n / 10)

/-- The character of a decimal digit. -/
def digitChar (d : Nat) : Char := Char.ofNat (48 + d)

/-- Rendering of an unsigned integer by `%d`. -/
def fmtNat (n : Nat) : String := String.mk ((revDigits (n + 1) n).reverse.map digitChar)

/-- Rendering of a signed integer by `%d`. -/
def fmtInt : Int → String
  | Int.ofNat n => fmtNat n
  | Int.negSucc n => "-" ++ fmtNat (n + 1)

/-- Key of a data node: `ip + fmt.Sprintf(":%d", port)`. -/
def dnKey (ip : String) (port : Int) : String := ip ++ ":" ++ fmtInt port

/-- Key of a block: `ip + fmt.Sprintf(":%d", port) + fmt.Sprintf("-%d", blkID)`. -/
def blkKey (ip : String) (port : Int) (blkID : Nat) : String :=
  ip ++ ":" ++ fmtInt port ++ "-" ++ fmtNat blkID

/-- Key of a block group: `volID + fmt.Sprintf("-%d", bgID)`. -/
def bgKey (volID : String) (bgID : Nat) : String := volID ++ "-" ++ fmtNat bgID

/-! ## The replicated key-value store -/

/-- One keyspace: an association list from keys to decoded values. -/
abbrev KV (V : Type) := List (String × V)

/-- Lexical order on keys, by character code. -/
def lexLt : List Char → List Char → Bool
  | [], [] => false
  | [], _ :: _ => true
  | _ :: _, [] => false
  | a :: as, b :: bs =>
    if a.toNat < b.toNat then true
    else if b.toNat < a.toNat then false
    else lexLt as bs

/-- Modelled from the spec: the committed value under a key of a keyspace of the
replicated KV façade (`Get`), which is not part of `cluster.go`. -/
def kvGet {V : Type} (k : String) : KV V → Option V
  | [] => none
  | (k', v) :: r => if k' = k then some v else kvGet k r

/-- Modelled from the spec: a committed `Del` of the KV façade. -/
def kvDel {V : Type} (k : String) (m : KV V) : KV V := m.filter (fun e => e.1 ≠ k)

/-- Insertion of a binding at its place in lexical order. -/
def kvIns {V : Type} (k : String) (v : V) : KV V → KV V
  | [] => [(k, v)]
  | (k', v') :: r =>
    if lexLt k.data k'.data then (k, v) :: (k', v') :: r
    else (k', v') :: kvIns k v r

/-- Modelled from the spec: a committed `Set` of the KV façade; the binding of `k`
is replaced. -/
def kvSet {V : Type} (k : String) (v : V) (m : KV V) : KV V := kvIns k v (kvDel k m)

/-- Modelled from the spec: `GetRange` of the KV façade, "all entries whose key
begins with the given string", in store order. -/
def kvRange {V : Type} (p : String) (m : KV V) : KV V :=
  m.filter (fun e => p.data.isPrefixOf e.1.data)

/-- The cluster group: the four keyspaces, the three ID counters, and the
positions reached in the oracles (`tick` counts KV operations, `draws` are the
outputs of the random generator still to come). -/
structure World where
  dn : KV Datanode
  vol : KV Volume
  bgp : KV BGP
  blk : KV Block
  rgid : Nat
  bgid : Nat
  blkid : Nat
  tick : Nat
  draws : List Nat

/-- Reply of one peer cluster server to the `CreateNameSpace` fan-out. -/
inductive Peer where
  | dialErr
  | callErr
  | ack (ret : Int)
deriving DecidableEq

/-- Everything outside the control of a handler. -/
structure Env where
  /-- result of `utils.GenUUID` (`none`: it returned an error) -/
  uuid : Option String
  /-- return code of `ns.GetNameSpace("Cluster")` -/
  nsRet : Int
  /-- whether the KV operation with the given sequence number fails -/
  fault : Nat → Bool
  /-- choices fixing the iteration order of a Go map -/
  order : List Nat
  /-- return code of the local `ns.CreateNameSpace` -/
  nsCreateRet : Int
  /-- replies of the peers other than this server -/
  peers : List Peer
  /-- return code of the copy `beginMigrateBlk` -/
  copyRet : Int

/-- How a handler ends. -/
inductive Exit where
  /-- `return &ack, nil` -/
  | ret
  /-- `return &ack, err` -/
  | err
  /-- run-time panic (index out of range) -/
  | panic
  /-- the rejection sampling has not finished on the draws available -/
  | hang
deriving DecidableEq

/-- Why an allocation loop is left early. -/
inductive Abort where
  /-- `ack.Ret = -1; return &ack, nil` -/
  | precond
  /-- `return &ack, err` -/
  | kvErr
  | panic
  | hang
deriving DecidableEq

/-- The exit of a handler that leaves an allocation loop early. -/
def Abort.exit : Abort → Exit
  | Abort.precond => Exit.ret
  | Abort.kvErr => Exit.err
  | Abort.panic => Exit.panic
  | Abort.hang => Exit.hang

/-- The `ack.Ret` of a handler that leaves an allocation loop early: `-1` when it
was set, the zero value otherwise. -/
def Abort.ret : Abort → Int
  | Abort.precond => -1
  | _ => 0

section Facade

/-- Modelled from the spec: the next KV operation is consumed; it commits unless
the consensus group is unavailable at that point. -/
def World.step (w : World) : World := { w with tick := w.tick + 1 }

/-- Modelled from the spec: `RaftGroup.BlockSet`; a failed mutation changes nothing. -/
def BlockSet (env : Env) (w : World) (k : String) (v : Block) : Bool × World :=
  if env.fault w.tick then (false, w.step)
  else (true, { w.step with blk := kvSet k v w.blk })

/-- Modelled from the spec: `RaftGroup.DataNodeSet`. -/
def DataNodeSet (env : Env) (w : World) (k : String) (v : Datanode) : Bool × World :=
  if env.fault w.tick then (false, w.step)
  else (true, { w.step with dn := kvSet k v w.dn })

/-- Modelled from the spec: `RaftGroup.BGPSet`. -/
def BGPSet (env : Env) (w : World) (k : String) (v : BGP) : Bool × World :=
  if env.fault w.tick then (false, w.step)
  else (true, { w.step with bgp := kvSet k v w.bgp })

/-- Modelled from the spec: `RaftGroup.VOLSet`. -/
def VOLSet (env : Env) (w : World) (k : String) (v : Volume) : Bool × World :=
  if env.fault w.tick then (false, w.step)
  else (true, { w.step with vol := kvSet k v w.vol })

/-- Modelled from the spec: `RaftGroup.BlockDel`. -/
def BlockDel (env : Env) (w : World) (k : String) : Bool × World :=
  if env.fault w.tick then (false, w.step)
  else (true, { w.step with blk := kvDel k w.blk })

/-- Modelled from the spec: `RaftGroup.BGPDel`. -/
def BGPDel (env : Env) (w : World) (k : String) : Bool × World :=
  if env.fault w.tick then (false, w.step)
  else (true, { w.step with bgp := kvDel k w.bgp })

/-- Modelled from the spec: `RaftGroup.VOLDel`. -/
def VOLDel (env : Env) (w : World) (k : String) : Bool × World :=
  if env.fault w.tick then (false, w.step)
  else (true, { w.step with vol := kvDel k w.vol })

/-- Modelled from the spec: `RaftGroup.VOLGet` followed by `Unmarshal`; a missing
key is an error. -/
def VOLGet (env : Env) (w : World) (k : String) : Option Volume × World :=
  if env.fault w.tick then (none, w.step) else (kvGet k w.vol, w.step)

/-- Modelled from the spec: `RaftGroup.BGPGet` followed by `Unmarshal`. -/
def BGPGet (env : Env) (w : World) (k : String) : Option BGP × World :=
  if env.fault w.tick then (none, w.step) else (kvGet k w.bgp, w.step)

/-- Modelled from the spec: `RaftGroup.DatanodeGet` followed by `Unmarshal`. -/
def DatanodeGet (env : Env) (w : World) (k : String) : Option Datanode × World :=
  if env.fault w.tick then (none, w.step) else (kvGet k w.dn, w.step)

/-- Modelled from the spec: `RaftGroup.BGPGetRange`. -/
def BGPGetRange (env : Env) (w : World) (p : String) : Option (KV BGP) × World :=
  if env.fault w.tick then (none, w.step) else (some (kvRange p w.bgp), w.step)

/-- Modelled from the spec: `RaftGroup.BlockGetRange`. -/
def BlockGetRange (env : Env) (w : World) (p : String) : Option (KV Block) × World :=
  if env.fault w.tick then (none, w.step) else (some (kvRange p w.blk), w.step)

/-- Modelled from the spec: `nameSpace.GetAllDatanode`, a range scan of the DN
keyspace returning every record. -/
def GetAllDatanode (env : Env) (w : World) : Option (List Datanode) × World :=
  if env.fault w.tick then (none, w.step) else (some (w.dn.map Prod.snd), w.step)

/-- Modelled from the spec: `nameSpace.AllocateRGID`, a strictly increasing counter. -/
def AllocateRGID (env : Env) (w : World) : Option Nat × World :=
  if env.fault w.tick then (none, w.step)
  else (some (w.rgid + 1), { w.step with rgid := w.rgid + 1 })

/-- Modelled from the spec: `nameSpace.AllocateBGID`. -/
def AllocateBGID (env : Env) (w : World) : Option Nat × World :=
  if env.fault w.tick then (none, w.step)
  else (some (w.bgid + 1), { w.step with bgid := w.bgid + 1 })

/-- Modelled from the spec: `nameSpace.AllocateBlockID`. -/
def AllocateBlockID (env : Env) (w : World) : Option Nat × World :=
  if env.fault w.tick then (none, w.step)
  else (some (w.blkid + 1), { w.step with blkid := w.blkid + 1 })

end Facade

/-! ## `generateRandomNumber` -/

/-- The loop `for len(nums) < count` of `generateRandomNumber`: each draw `d`
stands for one `r.Intn(end - start)`, a number below `span = end - start`.
`none`: the draws were used up before `count` distinct numbers were found. -/
def genLoop (start span count : Nat) : List Nat → List Nat → Option (List Nat × List Nat)
  | nums, [] => if nums.length < count then none else some (nums, [])
  | nums, d :: ds =>
    if nums.length < count then
      let num := d % span + start
      if num ∈ nums then genLoop start span count nums ds
      else genLoop start span count (nums ++ [num]) ds
    else some (nums, d :: ds)

/-- Function `generateRandomNumber(start, end, count)`; the result `[]` is Go's
`nil`.  The call sites pass `0`, a length and `1` or `3`, hence naturals. -/
def generateRandomNumber (draws : List Nat) (start stop count : Nat) :
    Option (List Nat × List Nat) :=
  if stop < start ∨ stop - start < count then some ([], draws)
  else genLoop start (stop - start) count [] draws

/-! ## Placement (shared text of `CreateVol` and `ExpandVolRS`) -/

/-- The Go map `inuseNodes : map[string][]*mp.Datanode`, keys in order of first insertion. -/
abbrev Inuse := List (String × List Datanode)

/-- Statement `inuseNodes[k] = append(inuseNodes[k], v)` with `k := v.Ip`. -/
def inuseAdd : Inuse → Datanode → Inuse
  | [], v => [(v.Ip, [v])]
  | (k, g) :: r, v => if k = v.Ip then (k, g ++ [v]) :: r else (k, g) :: inuseAdd r v

/-- Expression `inuseNodes[k]`; a missing key gives the nil slice. -/
def inuseGet (m : Inuse) (k : String) : List Datanode := (kvGet k m).getD []

/-- Assignment through the pointer `inuseNodes[k][j]`. -/
def inuseSet (m : Inuse) (k : String) (j : Nat) (v : Datanode) : Inuse :=
  m.map (fun e => if e.1 = k then (e.1, e.2.set j v) else e)

/-- The loop `for _, v := range vv` that skips the nodes `skip` holds for and
groups the others by IP. -/
def groupNodes (skip : Datanode → Bool) (vv : List Datanode) : Inuse :=
  (vv.filter (fun v => !skip v)).foldl inuseAdd []

/-- An iteration order of a Go map with keys `ks`: the oracle picks the next key
among those left. -/
def pickOrder : List Nat → List String → List String
  | _, [] => []
  | [], k :: ks => k :: ks
  | c :: cs, k :: ks =>
    let x := (k :: ks).getD (c % (ks.length + 1)) k
    x :: pickOrder cs ((k :: ks).erase x)

/-- The loop `for k, _ := range inuseNodes { allip = append(allip, k) }`. -/
def allIps (env : Env) (m : Inuse) : List String := pickOrder env.order (m.map Prod.fst)

/-- The skip condition of `CreateVol` and `ExpandVolRS`:
`v.Status != 0 || v.Free < 30 || v.Tier != tier`. -/
def skipCreate (tier : String) (v : Datanode) : Bool :=
  decide (v.Status ≠ 0) || decide (v.Free < 30) || decide (v.Tier ≠ tier)

/-- The skip condition of `BeginMigrate`:
`v.Status != 0 || v.Free < 10 || v.Tier != tier || v.Ip == blks[0].Ip`. -/
def skipMigrate (tier : String) (ip0 : String) (v : Datanode) : Bool :=
  decide (v.Status ≠ 0) || decide (v.Free < 10) || decide (v.Tier ≠ tier) || decide (v.Ip = ip0)

/-- Local state of the allocation loops: the store and the in-memory node records. -/
structure Alloc where
  w : World
  nodes : Inuse

/-- Result of a piece of a loop body: go on with a value, or leave the handler. -/
inductive Flow (α : Type) where
  | go (a : α) (s : Alloc)
  | stop (r : Abort) (w : World)

/-- Body of `for n := 0; n < 3; n++` for the index `i = idxs[n]`: pick a disk of
the IP `allip[i]`, allocate a block on it, write the BLK and debit the node. -/
def placeBlock (env : Env) (volID : String) (bgID : Nat) (allip : List String)
    (i : Nat) (s : Alloc) : Flow Block :=
  match allip[i]? with
  | none => Flow.stop Abort.panic s.w
  | some ipkey =>
    let grp := inuseGet s.nodes ipkey
    match generateRandomNumber s.w.draws 0 grp.length 1 with
    | none => Flow.stop Abort.hang { s.w with draws := [] }
    | some ([], ds) => Flow.stop Abort.precond { s.w with draws := ds }
    | some (j :: _, ds) =>
      match AllocateBlockID env { s.w with draws := ds } with
      | (none, w1) => Flow.stop Abort.kvErr w1
      | (some blockID, w1) =>
        match grp[j]? with
        | none => Flow.stop Abort.panic w1
        | some node =>
          let block : Block :=
            { BlkID := blockID, Ip := node.Ip, Port := node.Port, Path := node.MountPoint,
              Status := node.Status, BGID := bgID, VolID := volID }
          match BlockSet env w1 (blkKey block.Ip block.Port block.BlkID) block with
          | (false, w2) => Flow.stop Abort.kvErr w2
          | (true, w2) =>
            -- Free is at least 0 + 5 here (30 at the filter, 5 per earlier group): no overflow
            let node1 := { node with Free := node.Free - 5 }
            Flow.go block
              { w := (DataNodeSet env w2 (ipkey ++ ":" ++ fmtInt block.Port) node1).2,
                nodes := inuseSet s.nodes ipkey j node1 }

/-- The loop `for n := 0; n < 3; n++` over the three indices `idxs`. -/
def placeBlocks (env : Env) (volID : String) (bgID : Nat) (allip : List String) :
    List Nat → List Block → Alloc → Flow (List Block)
  | [], acc, s => Flow.go acc s
  | i :: is, acc, s =>
    match placeBlock env volID bgID allip i s with
    | Flow.stop r w => Flow.stop r w
    | Flow.go b s1 => placeBlocks env volID bgID allip is (acc ++ [b]) s1

/-- Body of `for i := int32(0); i < blkgrpnum; i++`: one block group. -/
def placeGroup (env : Env) (volID : String) (allip : List String) (s : Alloc) : Flow BGP :=
  match AllocateBGID env s.w with
  | (none, w1) => Flow.stop Abort.kvErr w1
  | (some bgID, w1) =>
    match generateRandomNumber w1.draws 0 allip.length 3 with
    | none => Flow.stop Abort.hang { w1 with draws := [] }
    | some (idxs, ds) =>
      if idxs.length ≠ 3 then Flow.stop Abort.precond { w1 with draws := ds }
      else
        match placeBlocks env volID bgID allip idxs [] { w := { w1 with draws := ds }, nodes := s.nodes } with
        | Flow.stop r w => Flow.stop r w
        | Flow.go blocks s1 =>
          match BGPSet env s1.w (bgKey volID bgID) { Blocks := blocks } with
          | (false, w2) => Flow.stop Abort.kvErr w2
          | (true, w2) => Flow.go { Blocks := blocks } { s1 with w := w2 }

/-- The loop `for i := int32(0); i < blkgrpnum; i++` run `n` times; the block
groups written so far are collected as `ExpandVolRS` does in `bgps`. -/
def placeGroups (env : Env) (volID : String) (allip : List String) :
    Nat → List BGP → Alloc → Flow (List BGP)
  | 0, acc, s => Flow.go acc s
  | n + 1, acc, s =>
    match placeGroup env volID allip s with
    | Flow.stop r w => Flow.stop r w
    | Flow.go bg s1 => placeGroups env volID allip n (acc ++ [bg]) s1

/-- The number of block groups `blkgrpnum` for a size, capped at 6, and the size
rounded up to whole blocks (before the cap). -/
def blkGrpNum (size : Int) : Int × Int :=
  let r : Int × Int :=
    if size.tmod BlkSizeG = 0 then (size.tdiv BlkSizeG, size)
    else (size.tdiv BlkSizeG + 1, wrap32 ((size.tdiv BlkSizeG + 1) * BlkSizeG))
  (if r.1 > 6 then 6 else r.1, r.2)

/-! ## `CreateVol` -/

/-- Message `mp.CreateVolReq`. -/
structure CreateVolReq where
  VolName : String
  SpaceQuota : Int
  Tier : String
deriving DecidableEq

/-- Message `mp.CreateVolAck`. -/
structure CreateVolAck where
  Ret : Int
  UUID : String
  RaftGroupID : Nat
deriving DecidableEq

/-- The loop over `raftopt.AddrDatabase` telling the peers to create the namespace. -/
def tellPeers (ack : CreateVolAck) : List Peer → Exit × CreateVolAck
  | [] => (Exit.ret, ack)
  | Peer.dialErr :: _ => (Exit.err, ack)
  | Peer.callErr :: _ => (Exit.err, ack)
  | Peer.ack r :: ps => if r ≠ 0 then (Exit.ret, { ack with Ret := -1 }) else tellPeers ack ps

/-- Handler `MetaNodeServer.CreateVol`. -/
def CreateVol (env : Env) (w : World) (req : CreateVolReq) : Exit × CreateVolAck × World :=
  let ack : CreateVolAck := { Ret := 0, UUID := "", RaftGroupID := 0 }
  match env.uuid with
  | none => (Exit.err, ack, w)
  | some voluuid =>
    let blkgrpnum := (blkGrpNum req.SpaceQuota).1
    let quota := (blkGrpNum req.SpaceQuota).2
    if env.nsRet ≠ 0 then (Exit.ret, { ack with Ret := env.nsRet }, w)
    else
      match AllocateRGID env w with
      | (none, w1) => (Exit.err, ack, w1)
      | (some rgID, w1) =>
        match GetAllDatanode env w1 with
        | (none, w2) => (Exit.err, ack, w2)
        | (some vv, w2) =>
          let inuseNodes := groupNodes (skipCreate req.Tier) vv
          let allip := allIps env inuseNodes
          if allip.length < 3 then (Exit.ret, { ack with Ret := -1 }, w2)
          else
            match placeGroups env voluuid allip blkgrpnum.toNat [] { w := w2, nodes := inuseNodes } with
            | Flow.stop a w3 => (a.exit, { ack with Ret := a.ret }, w3)
            | Flow.go _ s =>
              let vol : Volume :=
                { UUID := voluuid, Name := req.VolName, Tier := req.Tier, TotalSize := quota,
                  -- blkgrpnum is at most 6 and at least -429496729: no overflow
                  AllocatedSize := blkgrpnum * 5, RGID := rgID }
              let w4 := (VOLSet env s.w voluuid vol).2
              let ack1 : CreateVolAck := { Ret := 0, UUID := voluuid, RaftGroupID := rgID }
              if env.nsCreateRet ≠ 0 then (Exit.ret, { ack1 with Ret := -1 }, w4)
              else
                let r := tellPeers ack1 env.peers
                (r.1, r.2, w4)

/-! ## `ExpandVolTS`, `ExpandVolRS` -/

/-- Handler `MetaNodeServer.ExpandVolTS`; the result is the exit and `ack.Ret`. -/
def ExpandVolTS (env : Env) (w : World) (volID : String) (expandQuota : Int) :
    Exit × Int × World :=
  if env.nsRet ≠ 0 then (Exit.ret, env.nsRet, w)
  else
    match VOLGet env w volID with
    | (none, w1) => (Exit.err, 0, w1)
    | (some volume, w1) =>
      let quota :=
        if expandQuota.tmod BlkSizeG ≠ 0 then wrap32 ((expandQuota.tdiv BlkSizeG + 1) * BlkSizeG)
        else expandQuota
      let volume1 := { volume with TotalSize := wrap32 (volume.TotalSize + quota) }
      match VOLSet env w1 volID volume1 with
      | (false, w2) => (Exit.err, 0, w2)
      | (true, w2) => (Exit.ret, 0, w2)

/-- Message `mp.ExpandVolRSAck`. -/
structure ExpandVolRSAck where
  Ret : Int
  BGPS : List BGP
deriving DecidableEq

/-- Handler `MetaNodeServer.ExpandVolRS`. -/
def ExpandVolRS (env : Env) (w : World) (volID : String) : Exit × ExpandVolRSAck × World :=
  let ack : ExpandVolRSAck := { Ret := 0, BGPS := [] }
  if env.nsRet ≠ 0 then (Exit.ret, { ack with Ret := env.nsRet }, w)
  else
    match VOLGet env w volID with
    | (none, w1) => (Exit.err, ack, w1)
    | (some volume, w1) =>
      let needExpandSize := wrap32 (volume.TotalSize - volume.AllocatedSize)
      if needExpandSize ≤ 0 then (Exit.ret, ack, w1)
      else
        let blkgrpnum := (blkGrpNum needExpandSize).1
        match GetAllDatanode env w1 with
        | (none, w2) => (Exit.err, ack, w2)
        | (some vv, w2) =>
          let inuseNodes := groupNodes (skipCreate volume.Tier) vv
          let allip := allIps env inuseNodes
          if allip.length < 3 then (Exit.ret, { ack with Ret := -1 }, w2)
          else
            match placeGroups env volID allip blkgrpnum.toNat [] { w := w2, nodes := inuseNodes } with
            | Flow.stop a w3 => (a.exit, { ack with Ret := a.ret }, w3)
            | Flow.go bgps s =>
              let volume1 :=
                { volume with AllocatedSize := wrap32 (volume.AllocatedSize + blkgrpnum * 5) }
              (Exit.ret, { Ret := 1, BGPS := bgps }, (VOLSet env s.w volID volume1).2)

/-! ## Teardown: `DelVolRSForExpand`, `DeleteVol` -/

/-- Body of `for _, vv := range v.Blocks` of the two teardown handlers: delete the
BLK key of `vv` and refund 5 GiB to its data node.  The result is whether the
block counts in `delBlkBadNum`. -/
def dropBlock (env : Env) (w : World) (vv : Block) : Bool × World :=
  match BlockDel env w (blkKey vv.Ip vv.Port vv.BlkID) with
  | (false, w1) => (true, w1)
  | (true, w1) =>
    match DatanodeGet env w1 (dnKey vv.Ip vv.Port) with
    | (none, w2) => (true, w2)
    | (some tmpDatanode, w2) =>
      let tmp1 := { tmpDatanode with Free := wrap32 (tmpDatanode.Free + 5) }
      match DataNodeSet env w2 (dnKey vv.Ip vv.Port) tmp1 with
      | (false, w3) => (true, w3)
      | (true, w3) => (false, w3)

/-- The loop `for _, vv := range v.Blocks`; the result is `delBlkBadNum`. -/
def dropBlocks (env : Env) : List Block → Nat → World → Nat × World
  | [], bad, w => (bad, w)
  | vv :: rest, bad, w =>
    match dropBlock env w vv with
    | (true, w1) => dropBlocks env rest (bad + 1) w1
    | (false, w1) => dropBlocks env rest bad w1

/-- Body of the loop over block groups of the two teardown handlers: drop the
blocks, then delete the BGP under `uuid-Blocks[0].BGID`.  `none`: the index
`Blocks[0]` is out of range.  The Boolean is whether the group counts in
`delBGBadNum`. -/
def dropGroup (env : Env) (uuid : String) (w : World) (bg : BGP) : Option Bool × World :=
  match dropBlocks env bg.Blocks 0 w with
  | (bad, w1) =>
    match bg.Blocks with
    | [] => (none, w1)
    | b0 :: _ =>
      match BGPDel env w1 (bgKey uuid b0.BGID) with
      | (ok, w2) => (some (!ok || decide (bad ≠ 0)), w2)

/-- The loop over block groups; the result is `delBGBadNum`, `none` after a panic. -/
def dropGroups (env : Env) (uuid : String) : List BGP → Nat → World → Option Nat × World
  | [], bad, w => (some bad, w)
  | bg :: rest, bad, w =>
    match dropGroup env uuid w bg with
    | (none, w1) => (none, w1)
    | (some true, w1) => dropGroups env uuid rest (bad + 1) w1
    | (some false, w1) => dropGroups env uuid rest bad w1

/-- Handler `MetaNodeServer.DelVolRSForExpand`; the result is the exit and `ack.Ret`. -/
def DelVolRSForExpand (env : Env) (w : World) (uuid : String) (bgps : List BGP) :
    Exit × Int × World :=
  if env.nsRet ≠ 0 then (Exit.ret, env.nsRet, w)
  else
    match dropGroups env uuid bgps 0 w with
    | (none, w1) => (Exit.panic, 0, w1)
    | (some bad, w1) => if bad ≠ 0 then (Exit.ret, -1, w1) else (Exit.ret, 0, w1)

/-- Handler `MetaNodeServer.DeleteVol`; the result is the exit and `ack.Ret`. -/
def DeleteVol (env : Env) (w : World) (uuid : String) : Exit × Int × World :=
  if env.nsRet ≠ 0 then (Exit.ret, env.nsRet, w)
  else
    match VOLDel env w uuid with
    | (false, w1) => (Exit.err, 0, w1)
    | (true, w1) =>
      match BGPGetRange env w1 uuid with
      | (none, w2) => (Exit.err, 0, w2)
      | (some value, w2) =>
        match dropGroups env uuid (value.map Prod.snd) 0 w2 with
        | (none, w3) => (Exit.panic, 0, w3)
        | (some bad, w3) => if bad ≠ 0 then (Exit.ret, -1, w3) else (Exit.ret, 0, w3)

/-! ## Migration: `BeginMigrate` -/

/-- The loop `for _, v := range blks` at the end of `BeginMigrate`: the first
healthy surviving replica is the copy source; the result is `okflag == 1`. -/
def copyAndCommit (env : Env) (bgKey0 : String) (old : Block) (blks : List Block)
    (newBlk : Block) : List Block → World → Bool × World
  | [], w => (false, w)
  | v :: rest, w =>
    if v.Status ≠ 0 then copyAndCommit env bgKey0 old blks newBlk rest w
    else if env.copyRet = 0 then
      match BGPSet env w bgKey0 { Blocks := blks ++ [newBlk] } with
      | (ok1, w1) =>
        match BlockDel env w1 (blkKey old.Ip old.Port old.BlkID) with
        | (ok2, w2) => (ok1 && ok2, w2)
    else (false, w)

/-- Outcome of the choice of the node of the new block in `BeginMigrate`. -/
inductive Choice where
  /-- a rejection sampling has not finished on the draws available -/
  | hang
  /-- `return -1` after a `generateRandomNumber` that gave no index -/
  | giveUp (ds : List Nat)
  /-- index out of range -/
  | panic (ds : List Nat)
  /-- the node `inuseNodes[ipkey][j]` -/
  | node (ipkey : String) (j : Nat) (node : Datanode) (ds : List Nat)

/-- The choice of the node of the new block in `BeginMigrate`: one index into
`allip`, then one index into the disks of that IP. -/
def chooseNode (allip : List String) (inuseNodes : Inuse) (draws : List Nat) : Choice :=
  match generateRandomNumber draws 0 allip.length 1 with
  | none => Choice.hang
  | some ([i], ds) =>
    match allip[i]? with
    | none => Choice.panic ds
    | some ipkey =>
      match generateRandomNumber ds 0 (inuseGet inuseNodes ipkey).length 1 with
      | none => Choice.hang
      | some ([], ds1) => Choice.giveUp ds1
      | some (j :: _, ds1) =>
        match (inuseGet inuseNodes ipkey)[j]? with
        | none => Choice.panic ds1
        | some node => Choice.node ipkey j node ds1
  | some (_, ds) => Choice.giveUp ds

/-- Method `MetaNodeServer.BeginMigrate(in, tier)`; the result is the exit and the
returned code. -/
def BeginMigrate (env : Env) (w : World) (blk : Block) (tier : String) : Exit × Int × World :=
  if env.nsRet ≠ 0 then (Exit.ret, -1, w)
  else
    match BGPGet env w (bgKey blk.VolID blk.BGID) with
    | (none, w1) => (Exit.ret, -1, w1)
    | (some tbg, w1) =>
      let blks := tbg.Blocks.filter (fun vv => vv.BlkID ≠ blk.BlkID)
      match blks with
      | [b0, _] =>
        match GetAllDatanode env w1 with
        | (none, w2) => (Exit.ret, -1, w2)
        | (some datanodes, w2) =>
          let inuseNodes := groupNodes (skipMigrate tier b0.Ip) datanodes
          let allip := allIps env inuseNodes
          if allip.length < 1 then (Exit.ret, -1, w2)
          else
            match chooseNode allip inuseNodes w2.draws with
            | Choice.hang => (Exit.hang, -1, { w2 with draws := [] })
            | Choice.giveUp ds => (Exit.ret, -1, { w2 with draws := ds })
            | Choice.panic ds => (Exit.panic, -1, { w2 with draws := ds })
            | Choice.node ipkey _ node ds1 =>
              match AllocateBlockID env { w2 with draws := ds1 } with
              | (blockID, w3) =>
                let newBlk : Block :=
                  { BlkID := blockID.getD 0, Ip := node.Ip, Port := node.Port,
                    Path := node.MountPoint, Status := node.Status, BGID := blk.BGID,
                    VolID := blk.VolID }
                match BlockSet env w3 (blkKey newBlk.Ip newBlk.Port newBlk.BlkID) newBlk with
                | (false, w4) => (Exit.ret, -1, w4)
                | (true, w4) =>
                  -- Free is at least 10 here: no overflow
                  let node1 := { node with Free := node.Free - 5 }
                  let w5 := (DataNodeSet env w4 (ipkey ++ ":" ++ fmtInt newBlk.Port) node1).2
                  match copyAndCommit env (bgKey blk.VolID blk.BGID) blk blks newBlk blks w5 with
                  | (true, w6) => (Exit.ret, 0, w6)
                  | (false, w6) => (Exit.ret, -1, w6)
      | _ => (Exit.ret, -1, w1)

/-- The store a piece of a loop leaves behind. -/
def Flow.world {α : Type} : Flow α → World
  | Flow.go _ s => s.w
  | Flow.stop _ w => w

/-- The groups of `inuseNodes`: pairwise distinct keys, no empty group, and every
node of a group sits under its own IP and satisfies `P`. -/
def InuseOK (P : Datanode → Prop) (m : Inuse) : Prop :=
  (m.map Prod.fst).Nodup ∧ ∀ e ∈ m, e.2 ≠ [] ∧ ∀ d ∈ e.2, d.Ip = e.1 ∧ P d

/-- A block group of exactly three blocks on pairwise distinct IPs. -/
def ThreeDistinctIps (bg : BGP) : Prop :=
  bg.Blocks.length = 3 ∧ (bg.Blocks.map Block.Ip).Nodup

/-- The distinct IPs of the stored data nodes with `status == 0`, `free >= 30`
and the given tier. -/
def eligibleIps (w : World) (tier : String) : List String :=
  (((w.dn.map Prod.snd).filter
    (fun v => decide (v.Status = 0 ∧ 30 ≤ v.Free ∧ v.Tier = tier))).map Datanode.Ip).dedup

/-! ## Concrete clusters (the scenarios of the specification) -/

/-- A healthy data node with 100 GiB of capacity on port 1. -/
def node1 (ip : String) (free : Int) (tier : String) : Datanode :=
  { Ip := ip, Port := 1, MountPoint := "/data", Capacity := 100, Used := 0, Free := free,
    Status := 0, Tier := tier }

/-- A store holding only the given data nodes, with the given draws to come. -/
def cluster (dn : KV Datanode) (draws : List Nat) : World :=
  { dn := dn, vol := [], bgp := [], blk := [], rgid := 0, bgid := 0, blkid := 0, tick := 0,
    draws := draws }

/-- Scenario 1: `a:1`, `b:1`, `c:1`, each with 100 GiB free, tier "hdd". -/
def nodesABC : KV Datanode :=
  [("a:1", node1 "a" 100 "hdd"), ("b:1", node1 "b" 100 "hdd"), ("c:1", node1 "c" 100 "hdd")]

/-- Scenario 2: only `a:1` and `b:1`. -/
def nodesAB : KV Datanode :=
  [("a:1", node1 "a" 100 "hdd"), ("b:1", node1 "b" 100 "hdd")]

/-- An environment in which nothing fails; the UUID generated is "v1" and there is
no peer. -/
def envOk : Env :=
  { uuid := some "v1", nsRet := 0, fault := fun _ => false, order := [], nsCreateRet := 0,
    peers := [], copyRet := 0 }

/-- The in-memory map is fit for placement over `allip`: its groups are in order
and every IP of `allip` is one of its keys. -/
def Ready (allip : List String) (m : Inuse) : Prop :=
  InuseOK (fun _ => True) m ∧ ∀ k ∈ allip, k ∈ m.map Prod.fst

/-- The BGP keyspace after the block groups `bgs` were set, in this order, under
the keys of the volume with the consecutive IDs `id`, `id + 1`, ... -/
def writeGroups (volID : String) : Nat → List BGP → KV BGP → KV BGP
  | _, [], m => m
  | id, bg :: rest, m => writeGroups volID (id + 1) rest (kvSet (bgKey volID id) bg m)

/-- Draws on which the allocation of `n` block groups finishes: the indices 0, 1,
2 for the IPs, then the first disk of each. -/
def easyDraws : Nat → List Nat
  | 0 => []
  | n + 1 => 0 :: 1 :: 2 :: 0 :: 0 :: 0 :: easyDraws n

/-- The state in which the loop over the three indices starts: the BGID is
allocated and the draws `ds` are left. -/
def groupStart (s : Alloc) (ds : List Nat) : Alloc :=
  { w := { s.w with draws := ds, tick := s.w.tick + 1, bgid := s.w.bgid + 1 },
    nodes := s.nodes }

/-- The number with the decimal digits `ds`, least significant first. -/
def ofRevDigits : List Nat → Nat
  | [] => 0
  | d :: ds => d + 10 * ofRevDigits ds

/-- The digit of a decimal character. -/
def charDigit (c : Char) : Nat := c.toNat - 48

/-- The record of the volume "v1" of the scenarios, with the given sizes. -/
def volV1 (total alloc : Int) : Volume :=
  { UUID := "v1", Name := "v1", Tier := "hdd", TotalSize := total, AllocatedSize := alloc,
    RGID := 1 }

/-- Scenario 1 after `CreateVol(name = "v1", quota = 10, tier = "hdd")`. -/
def scenario1 : World :=
  (CreateVol envOk (cluster nodesABC (easyDraws 2)) ⟨"v1", 10, "hdd"⟩).2.2

/-- Scenario 4 after `ExpandVolTS(v1, 10)`, with draws for two more block groups. -/
def scenario4 : World :=
  { (ExpandVolTS envOk scenario1 "v1" 10).2.2 with draws := easyDraws 2 }

/-- Scenario 4 after the first `ExpandVolRS(v1)`. -/
def scenario4Expanded : World := (ExpandVolRS envOk scenario4 "v1").2.2

/-- Every stored data node has `free >= 0`. -/
def FreeNonneg (dn : KV Datanode) : Prop := ∀ e ∈ dn, 0 ≤ e.2.Free

/-- Every in-memory node has at least `low` GiB free, and 5 GiB more when its IP
is still to come among the indices `is` of the block group under construction. -/
def FreeAbove (allip : List String) (low : Int) (is : List Nat) (m : Inuse) : Prop :=
  ∀ e ∈ m, ∀ d ∈ e.2, low ≤ d.Free ∧
    (some e.1 ∈ is.map (fun i => allip[i]?) → low + 5 ≤ d.Free)

/-- The surviving replicas of `BeginMigrate`: the blocks of the group other than `blk`. -/
def survivors (tbg : BGP) (blk : Block) : List Block :=
  tbg.Blocks.filter (fun vv => vv.BlkID ≠ blk.BlkID)

/-- The block with the given ID on port 1 of `ip`, in block group `bgID` of "v1". -/
def blockV1 (blkID : Nat) (ip : String) (bgID : Nat) : Block :=
  { BlkID := blkID, Ip := ip, Port := 1, Path := "/data", Status := 0, BGID := bgID,
    VolID := "v1" }

/-- Scenario 6: scenario 1 with a fourth data node `d:1`, 100 GiB free, tier "hdd". -/
def scenario6 (draws : List Nat) : World :=
  { scenario1 with dn := kvSet "d:1" (node1 "d" 100 "hdd") scenario1.dn, draws := draws }

/-- The first block group of "v1" in scenario 1, with the given status on the
replicas on `b:1` and `c:1`. -/
def groupV1 (statusB statusC : Int) : BGP :=
  { Blocks := [blockV1 1 "a" 1, { blockV1 2 "b" 1 with Status := statusB },
               { blockV1 3 "c" 1 with Status := statusC }] }

/-- Scenario 6 with the given status on the replicas on `b:1` and `c:1` of the
first block group. -/
def scenario6Degraded (statusB statusC : Int) (draws : List Nat) : World :=
  { scenario6 draws with bgp := kvSet "v1-1" (groupV1 statusB statusC) (scenario6 draws).bgp }

/-- Two UUIDs neither of which begins with the other. -/
def Apart (u v : String) : Prop := ¬ u.data <+: v.data ∧ ¬ v.data <+: u.data

/-- The states reached from an empty store with registered data nodes by
successful `CreateVol`, `ExpandVolTS` and `ExpandVolRS` calls in which no KV
operation fails, with non-negative quotas that stay within `int32` and fresh
UUIDs; between two calls the random generator may be at any point. -/
inductive Reach : World → Prop
  | init (dn : KV Datanode) (draws : List Nat) : Reach (cluster dn draws)
  | draws (w : World) (ds : List Nat) : Reach w → Reach { w with draws := ds }
  | createVol (env : Env) (w : World) (req : CreateVolReq) (u : String) :
      Reach w → env.uuid = some u → (∀ e ∈ w.vol, Apart u e.1) →
      0 ≤ req.SpaceQuota → req.SpaceQuota + 8 < 2147483648 →
      (∀ n, env.fault n = false) →
      (CreateVol env w req).1 = Exit.ret → (CreateVol env w req).2.1.Ret = 0 →
      Reach (CreateVol env w req).2.2
  | expandVolTS (env : Env) (w : World) (volID : String) (quota : Int) :
      Reach w → 0 ≤ quota →
      (∀ V, kvGet volID w.vol = some V → V.TotalSize + quota + 8 < 2147483648) →
      (∀ n, env.fault n = false) →
      (ExpandVolTS env w volID quota).1 = Exit.ret → (ExpandVolTS env w volID quota).2.1 = 0 →
      Reach (ExpandVolTS env w volID quota).2.2
  | expandVolRS (env : Env) (w : World) (volID : String) :
      Reach w → (∀ n, env.fault n = false) →
      (ExpandVolRS env w volID).1 = Exit.ret →
      ((ExpandVolRS env w volID).2.1.Ret = 0 ∨ (ExpandVolRS env w volID).2.1.Ret = 1) →
      Reach (ExpandVolRS env w volID).2.2

/-- The invariant of the reachable states: the sizes of every stored volume are in
range, its `allocatedSize` is five times the number of BGP keys that begin with
its UUID, the stored UUIDs are pairwise apart, and every BGP key is the key of a
stored volume with an ID already allocated. -/
def Inv (w : World) : Prop :=
  (∀ u V, kvGet u w.vol = some V →
    V.AllocatedSize ≤ V.TotalSize + 4 ∧ V.TotalSize + 4 < 2147483648 ∧
      V.AllocatedSize = 5 * ((kvRange u w.bgp).length : Int)) ∧
  (∀ u v, kvGet u w.vol ≠ none → kvGet v w.vol ≠ none → u.data <+: v.data → u = v) ∧
  (∀ e ∈ w.bgp, ∃ v id, kvGet v w.vol ≠ none ∧ e.1 = bgKey v id ∧ id ≤ w.bgid)

/-- Scenario 4 after the first `ExpandVolRS(v1)` and the rollback
`DelVolRSForExpand` of the block groups it returned. -/
def scenario4RolledBack : World :=
  (DelVolRSForExpand envOk scenario4Expanded "v1" (ExpandVolRS envOk scenario4 "v1").2.1.BGPS).2.2

/-- The BLK keys of the blocks `P`. -/
def blkKeys (P : List Block) : List String := P.map (fun b => blkKey b.Ip b.Port b.BlkID)

/-- The number of blocks of `P` on the data node with key `k`. -/
def onNode (k : String) (P : List Block) : Nat :=
  P.countP (fun b => decide (dnKey b.Ip b.Port = k))

/-- The DN keyspace `dn` is `dn0` with 5 GiB debited for every block of `P`, none
of the debits having gone below zero, on nodes whose `free` is an `int32`. -/
def DnRel (dn0 dn : KV Datanode) (P : List Block) : Prop :=
  ∀ k, (onNode k P = 0 → kvGet k dn = kvGet k dn0) ∧
    (0 < onNode k P → ∃ d0, kvGet k dn0 = some d0 ∧
      kvGet k dn = some { d0 with Free := d0.Free - 5 * (onNode k P : Int) } ∧
      5 * (onNode k P : Int) ≤ d0.Free ∧ d0.Free < 2147483648)

/-- The in-memory records are the stored ones, and no group lists a record twice. -/
def MemOK (dn : KV Datanode) (m : Inuse) : Prop :=
  ∀ e ∈ m, e.2.Nodup ∧ ∀ d ∈ e.2, kvGet (dnKey d.Ip d.Port) dn = some d

/-- The block groups `bgs` with the keys of the volume for the consecutive IDs
`id`, `id + 1`, ... -/
def keyed (volID : String) : Nat → List BGP → KV BGP
  | _, [] => []
  | id, bg :: rest => (bgKey volID id, bg) :: keyed volID (id + 1) rest

/-- The BLK and DN keyspaces of `w` are those of the store `(blk0, dn0)` with the
blocks `P` pending: their keys set, their nodes debited. -/
def Pending (blk0 : KV Block) (dn0 : KV Datanode) (w : World) (P : List Block) : Prop :=
  w.blk.filter (fun e => decide (e.1 ∉ blkKeys P)) = blk0 ∧ DnRel dn0 w.dn P

/-! ## The drain of a data node: `Migrate` -/

/-- The loop `for i, v := range result` of the goroutine of `Migrate`: every block
of the range is handed to `BeginMigrate`; the blocks handed so far are collected
with the returned codes.  A panic or a hang inside `BeginMigrate` ends the loop. -/
def drainLoop (env : Env) (tier : String) :
    List Block → List (Block × Int) → World → Exit × List (Block × Int) × World
  | [], acc, w => (Exit.ret, acc, w)
  | tBlk :: rest, acc, w =>
    match BeginMigrate env w tBlk tier with
    | (Exit.ret, ret, w1) => drainLoop env tier rest (acc ++ [(tBlk, ret)]) w1
    | (e, ret, w1) => (e, acc ++ [(tBlk, ret)], w1)

/-- The goroutine started by handler `MetaNodeServer.Migrate` (the handler itself
answers `Ret = 0` at once): the blocks handed to `BeginMigrate`, in order, each
with the returned code, and the store afterwards. -/
def Migrate (env : Env) (w : World) (dnIP : String) (dnPort : Int) :
    Exit × List (Block × Int) × World :=
  if env.nsRet ≠ 0 then (Exit.ret, [], w)
  else
    match DatanodeGet env w (dnKey dnIP dnPort) with
    | (none, w1) => (Exit.ret, [], w1)
    | (some datanode, w1) =>
      match BlockGetRange env w1 (dnKey dnIP dnPort) with
      | (none, w2) => (Exit.ret, [], w2)
      | (some result, w2) => drainLoop env datanode.Tier (result.map Prod.snd) [] w2

/-! ## Health monitor: `DetectDatanode`, `SetDatanodeMap` -/

/-- Outcome of the health probe of one data node. -/
inductive Probe where
  /-- `grpc.Dial` returned an error -/
  | dialErr
  /-- `DatanodeHealthCheck` returned an error -/
  | callErr
  /-- the reply `pDatanodeHealthCheckAck` -/
  | ack (status used : Int)
deriving DecidableEq

/-- Function `SetDatanodeMap(v)`; the result is the returned code. -/
def SetDatanodeMap (env : Env) (w : World) (v : Datanode) : Int × World :=
  if env.nsRet ≠ 0 then (-1, w)
  else
    match DataNodeSet env w (dnKey v.Ip v.Port) v with
    | (false, w1) => (-1, w1)
    | (true, w1) => (0, w1)

/-- Function `DetectDatanode(metaServer, v)`: the record `*v` and the store when
it returns. -/
def DetectDatanode (env : Env) (probe : Probe) (w : World) (v : Datanode) :
    Datanode × World :=
  match probe with
  | Probe.dialErr =>
    if v.Status = 0 then
      let v1 := { v with Status := 1 }
      (v1, (SetDatanodeMap env w v1).2)
    else (v, w)
  | Probe.callErr =>
    if v.Status = 0 then
      let v1 := { v with Status := 1 }
      (v1, (SetDatanodeMap env w v1).2)
    else (v, w)
  | Probe.ack status used =>
    if status ≠ 0 then
      if v.Status = 0 then
        let v1 := { v with Status := status, Used := used }
        (v1, (SetDatanodeMap env w v1).2)
      else (v, w)
    else
      let v1 := if v.Status ≠ 0 then { v with Status := 0 } else v
      let v2 := { v1 with Used := used }
      (v2, (SetDatanodeMap env w v2).2)

/-! ## Concrete stores for the drain and the monitor -/

/-- A healthy data node with 100 GiB of capacity on the given port. -/
def nodeAt (ip : String) (port : Int) (free : Int) : Datanode :=
  { Ip := ip, Port := port, MountPoint := "/data", Capacity := 100, Used := 0, Free := free,
    Status := 0, Tier := "hdd" }

/-- Data nodes `a:10`, `b:1`, `c:1`, each with 100 GiB free, tier "hdd". -/
def nodesA10BC : KV Datanode :=
  [("a:10", nodeAt "a" 10 100), ("b:1", nodeAt "b" 1 100), ("c:1", nodeAt "c" 1 100)]

/-- The store after `CreateVol(name = "v1", quota = 5, tier = "hdd")` on `a:10`,
`b:1`, `c:1`: one block group with a replica on each node. -/
def createdOnA10 : World :=
  (CreateVol envOk (cluster nodesA10BC (easyDraws 1)) ⟨"v1", 5, "hdd"⟩).2.2

/-- The store `createdOnA10` after the nodes `a:1` and `d:1` were registered, with
the given draws to come: `a:1` hosts no block. -/
def drainStore (draws : List Nat) : World :=
  { createdOnA10 with
    dn := kvSet "d:1" (nodeAt "d" 1 100) (kvSet "a:1" (nodeAt "a" 1 100) createdOnA10.dn),
    draws := draws }

/-- The replica of the block group `v1-1` on the node `a:10`. -/
def blockOnA10 : Block :=
  { BlkID := 1, Ip := "a", Port := 10, Path := "/data", Status := 0, BGID := 1, VolID := "v1" }

/-- The keys under which `DelVolRSForExpand` and `DeleteVol` delete the block
groups `bgps`: `uuid-Blocks[0].BGID` for every group that has a block. -/
def groupKeys (uuid : String) (bgps : List BGP) : List String :=
  bgps.filterMap (fun bg => bg.Blocks.head?.map (fun b => bgKey uuid b.BGID))

/-! # Verification -/

/-! ## The key-value store -/

theorem mem_kvIns {V : Type} (k : String) (v : V) (m : KV V) (e : String × V) :
    e ∈ kvIns k v m ↔ e = (k, v) ∨ e ∈ m := by
  induction m with
  | nil => simp [kvIns]
  | cons hd tl ih =>
    obtain ⟨k1, v1⟩ := hd
    unfold kvIns
    split
    · simp
    · simp only [List.mem_cons, ih]
      tauto

theorem mem_kvDel {V : Type} (k : String) (m : KV V) (e : String × V) :
    e ∈ kvDel k m ↔ e ∈ m ∧ e.1 ≠ k := by
  simp [kvDel]

theorem mem_kvSet {V : Type} (k : String) (v : V) (m : KV V) (e : String × V) :
    e ∈ kvSet k v m ↔ e = (k, v) ∨ (e ∈ m ∧ e.1 ≠ k) := by
  simp [kvSet, mem_kvIns, mem_kvDel]

theorem kvGet_kvIns {V : Type} (k : String) (v : V) (m : KV V) (j : String)
    (hm : kvGet k m = none) :
    kvGet j (kvIns k v m) = if j = k then some v else kvGet j m := by
  induction m with
  | nil =>
    by_cases h : j = k
    · simp [kvIns, kvGet, h]
    · have h1 : ¬ k = j := fun e => h e.symm
      simp [kvIns, kvGet, h, h1]
  | cons hd tl ih =>
    obtain ⟨k1, v1⟩ := hd
    have hk1 : ¬ k1 = k := by
      intro e
      simp [kvGet, e] at hm
    have htl : kvGet k tl = none := by
      simpa [kvGet, hk1] using hm
    unfold kvIns
    by_cases hj : j = k
    · subst hj
      split
      · simp [kvGet]
      · simp [kvGet, hk1, ih htl]
    · have h1 : ¬ k = j := fun e => hj e.symm
      split
      · simp [kvGet, hj, h1]
      · simp only [kvGet, ih htl, hj, if_false]

theorem kvGet_kvDel {V : Type} (k : String) (m : KV V) (j : String) :
    kvGet j (kvDel k m) = if j = k then none else kvGet j m := by
  induction m with
  | nil => simp [kvDel, kvGet]
  | cons hd tl ih =>
    obtain ⟨k1, v1⟩ := hd
    have ih1 : kvGet j (List.filter (fun e => decide (e.1 ≠ k)) tl)
        = if j = k then none else kvGet j tl := ih
    by_cases h1 : k1 = k
    · subst h1
      by_cases hj : j = k1
      · subst hj
        simpa [kvDel, kvGet] using ih1
      · have h2 : ¬ k1 = j := fun e => hj e.symm
        simpa [kvDel, kvGet, hj, h2] using ih1
    · by_cases hj : j = k
      · subst hj
        simpa [kvDel, kvGet, h1] using ih1
      · by_cases h3 : k1 = j
        · simp [kvDel, kvGet, h1, h3, hj]
        · simpa [kvDel, kvGet, h1, h3, hj] using ih1

theorem kvGet_kvSet {V : Type} (k : String) (v : V) (m : KV V) (j : String) :
    kvGet j (kvSet k v m) = if j = k then some v else kvGet j m := by
  have h0 : kvGet k (kvDel k m) = none := by simp [kvGet_kvDel]
  rw [kvSet, kvGet_kvIns k v _ j h0, kvGet_kvDel]
  by_cases h : j = k <;> simp [h]

theorem kvGet_mem {V : Type} (k : String) (m : KV V) (v : V) (h : kvGet k m = some v) :
    (k, v) ∈ m := by
  induction m with
  | nil => simp [kvGet] at h
  | cons hd tl ih =>
    obtain ⟨k1, v1⟩ := hd
    by_cases h1 : k1 = k
    · simp [kvGet, h1] at h
      simp [h1, h]
    · simp [kvGet, h1] at h
      exact List.mem_cons_of_mem _ (ih h)

/-! ## Random indices -/

theorem genLoop_spec (start span count : Nat) (hspan : count ≤ span) :
    ∀ (draws nums res ds : List Nat), genLoop start span count nums draws = some (res, ds) →
      nums.Nodup → nums.length ≤ count → (∀ x ∈ nums, x < start + span) →
      res.Nodup ∧ res.length = count ∧ ∀ x ∈ res, x < start + span := by
  intro draws
  induction draws with
  | nil =>
    intro nums res ds h hnd hlen hlt
    unfold genLoop at h
    split at h
    · simp at h
    · simp only [Option.some.injEq, Prod.mk.injEq] at h
      obtain ⟨rfl, _⟩ := h
      exact ⟨hnd, by omega, hlt⟩
  | cons d rest ih =>
    intro nums res ds h hnd hlen hlt
    unfold genLoop at h
    split at h
    · rename_i hlt1
      have hpos : 0 < span := by omega
      have hnum : d % span + start < start + span := by
        have := Nat.mod_lt d hpos
        omega
      simp only at h
      split at h
      · exact ih nums res ds h hnd hlen hlt
      · rename_i hmem
        refine ih (nums ++ [d % span + start]) res ds h ?_ ?_ ?_
        · rw [List.nodup_append]
          refine ⟨hnd, List.nodup_singleton _, ?_⟩
          intro x hx hx1
          simp only [List.mem_singleton] at hx1
          subst hx1
          exact hmem hx
        · simp only [List.length_append, List.length_singleton]
          omega
        · intro x hx
          simp only [List.mem_append, List.mem_singleton] at hx
          rcases hx with hx | hx
          · exact hlt x hx
          · subst hx
            exact hnum
    · simp only [Option.some.injEq, Prod.mk.injEq] at h
      obtain ⟨rfl, _⟩ := h
      exact ⟨hnd, by omega, hlt⟩

/-- What `generateRandomNumber` returns: nil, or `count` pairwise distinct
numbers of the range. -/
theorem generateRandomNumber_spec (draws : List Nat) (start stop count : Nat)
    (res ds : List Nat) (h : generateRandomNumber draws start stop count = some (res, ds)) :
    res.Nodup ∧ (res = [] ∨ res.length = count) ∧ ∀ x ∈ res, x < stop := by
  unfold generateRandomNumber at h
  split at h
  · simp only [Option.some.injEq, Prod.mk.injEq] at h
    obtain ⟨rfl, _⟩ := h
    simp
  · rename_i hc
    have hc1 : start ≤ stop ∧ count ≤ stop - start := by omega
    have := genLoop_spec start (stop - start) count hc1.2 draws [] res ds h
      List.nodup_nil (by simp) (by simp)
    refine ⟨this.1, Or.inr this.2.1, ?_⟩
    intro x hx
    have := this.2.2 x hx
    omega

/-! ## Grouping the nodes by IP -/

theorem pickOrder_perm : ∀ (cs : List Nat) (ks : List String), (pickOrder cs ks).Perm ks := by
  intro cs
  induction cs with
  | nil =>
    intro ks
    cases ks <;> simp [pickOrder]
  | cons c cs ih =>
    intro ks
    cases ks with
    | nil => simp [pickOrder]
    | cons k ks =>
      simp only [pickOrder]
      have hlt : c % (ks.length + 1) < (k :: ks).length := by
        simpa using Nat.mod_lt c (Nat.succ_pos ks.length)
      have hmem : (k :: ks).getD (c % (ks.length + 1)) k ∈ k :: ks := by
        rw [List.getD_eq_getElem _ _ hlt]
        exact List.getElem_mem hlt
      exact ((ih _).cons _).trans (List.perm_cons_erase hmem).symm

theorem inuseAdd_keys (m : Inuse) (v : Datanode) :
    (inuseAdd m v).map Prod.fst =
      if v.Ip ∈ m.map Prod.fst then m.map Prod.fst else m.map Prod.fst ++ [v.Ip] := by
  induction m with
  | nil => simp [inuseAdd]
  | cons hd tl ih =>
    obtain ⟨k, g⟩ := hd
    unfold inuseAdd
    by_cases hk : k = v.Ip
    · simp [hk]
    · have hk1 : ¬ v.Ip = k := fun e => hk e.symm
      simp only [hk, if_false, List.map_cons, ih, List.mem_cons, hk1, false_or]
      split <;> simp

theorem mem_inuseAdd (m : Inuse) (v : Datanode) (e : String × List Datanode)
    (he : e ∈ inuseAdd m v) :
    e ∈ m ∨ e = (v.Ip, [v]) ∨ ∃ g, (v.Ip, g) ∈ m ∧ e = (v.Ip, g ++ [v]) := by
  induction m with
  | nil =>
    simp only [inuseAdd, List.mem_singleton] at he
    exact Or.inr (Or.inl he)
  | cons hd tl ih =>
    obtain ⟨k, g⟩ := hd
    unfold inuseAdd at he
    split at he
    · rename_i hk
      subst hk
      simp only [List.mem_cons] at he
      rcases he with he | he
      · exact Or.inr (Or.inr ⟨g, by simp, he⟩)
      · exact Or.inl (List.mem_cons_of_mem _ he)
    · simp only [List.mem_cons] at he
      rcases he with he | he
      · exact Or.inl (by simp [he])
      · rcases ih he with h | h | ⟨g1, h1, h2⟩
        · exact Or.inl (List.mem_cons_of_mem _ h)
        · exact Or.inr (Or.inl h)
        · exact Or.inr (Or.inr ⟨g1, List.mem_cons_of_mem _ h1, h2⟩)

theorem inuseAdd_ok (P : Datanode → Prop) (m : Inuse) (v : Datanode) (hm : InuseOK P m)
    (hv : P v) : InuseOK P (inuseAdd m v) := by
  refine ⟨?_, ?_⟩
  · rw [inuseAdd_keys]
    split
    · exact hm.1
    · rename_i hn
      rw [List.nodup_append]
      refine ⟨hm.1, List.nodup_singleton _, ?_⟩
      intro x hx hx1
      simp only [List.mem_singleton] at hx1
      subst hx1
      exact hn hx
  · intro e he
    rcases mem_inuseAdd m v e he with h | h | ⟨g, h1, h2⟩
    · exact hm.2 e h
    · subst h
      simp [hv]
    · subst h2
      have := hm.2 _ h1
      refine ⟨by simp, ?_⟩
      intro d hd
      simp only [List.mem_append, List.mem_singleton] at hd
      rcases hd with hd | hd
      · exact this.2 d hd
      · subst hd
        exact ⟨rfl, hv⟩

theorem foldl_inuseAdd_ok (P : Datanode → Prop) (vs : List Datanode) :
    ∀ (m : Inuse), InuseOK P m → (∀ v ∈ vs, P v) → InuseOK P (vs.foldl inuseAdd m) := by
  induction vs with
  | nil =>
    intro m hm _
    exact hm
  | cons v vs ih =>
    intro m hm hP
    simp only [List.foldl_cons]
    exact ih _ (inuseAdd_ok P m v hm (hP v (by simp))) (fun x hx => hP x (by simp [hx]))

theorem foldl_inuseAdd_keys (vs : List Datanode) :
    ∀ (m : Inuse) (k : String), k ∈ (vs.foldl inuseAdd m).map Prod.fst ↔
      k ∈ m.map Prod.fst ∨ k ∈ vs.map Datanode.Ip := by
  induction vs with
  | nil =>
    intro m k
    simp
  | cons v vs ih =>
    intro m k
    simp only [List.foldl_cons, ih, inuseAdd_keys, List.map_cons, List.mem_cons]
    split
    · rename_i hin
      constructor
      · rintro (h | h)
        · exact Or.inl h
        · exact Or.inr (Or.inr h)
      · rintro (h | h | h)
        · exact Or.inl h
        · subst h
          exact Or.inl hin
        · exact Or.inr h
    · simp only [List.mem_append, List.mem_singleton]
      tauto

/-- The map `inuseNodes` built by the filter loop. -/
theorem groupNodes_ok (skip : Datanode → Bool) (vv : List Datanode) :
    InuseOK (fun d => d ∈ vv ∧ skip d = false) (groupNodes skip vv) := by
  unfold groupNodes
  apply foldl_inuseAdd_ok
  · exact ⟨by simp, by simp⟩
  · intro v hv
    simpa using hv

theorem groupNodes_keys (skip : Datanode → Bool) (vv : List Datanode) (k : String) :
    k ∈ (groupNodes skip vv).map Prod.fst ↔ ∃ d ∈ vv, skip d = false ∧ d.Ip = k := by
  unfold groupNodes
  rw [foldl_inuseAdd_keys]
  simp [and_assoc]

theorem allIps_perm (env : Env) (m : Inuse) : (allIps env m).Perm (m.map Prod.fst) :=
  pickOrder_perm _ _

theorem allIps_nodup (env : Env) (P : Datanode → Prop) (m : Inuse) (hm : InuseOK P m) :
    (allIps env m).Nodup :=
  (allIps_perm env m).nodup_iff.mpr hm.1

/-! ## One block -/

theorem inuseSet_keys (m : Inuse) (k : String) (j : Nat) (v : Datanode) :
    (inuseSet m k j v).map Prod.fst = m.map Prod.fst := by
  unfold inuseSet
  rw [List.map_map]
  apply List.map_congr_left
  intro e _
  simp only [Function.comp]
  split <;> rfl

theorem inuseSet_ok (P : Datanode → Prop) (m : Inuse) (k : String) (j : Nat) (v : Datanode)
    (hm : InuseOK P m) (hk : v.Ip = k) (hv : P v) : InuseOK P (inuseSet m k j v) := by
  refine ⟨by rw [inuseSet_keys]; exact hm.1, ?_⟩
  intro e he
  unfold inuseSet at he
  simp only [List.mem_map] at he
  obtain ⟨e0, he0, rfl⟩ := he
  have h0 := hm.2 e0 he0
  split
  · rename_i hek
    refine ⟨?_, ?_⟩
    · intro hnil
      apply h0.1
      have := congrArg List.length hnil
      simp only [List.length_set, List.length_nil] at this
      exact List.length_eq_zero.mp this
    · intro d hd
      rcases List.mem_or_eq_of_mem_set hd with h | h
      · exact h0.2 d h
      · subst h
        exact ⟨by simp [hk, hek], hv⟩
  · exact h0

theorem inuseGet_mem (m : Inuse) (k : String) (d : Datanode) (hd : d ∈ inuseGet m k) :
    ∃ g, (k, g) ∈ m ∧ d ∈ g := by
  unfold inuseGet at hd
  cases h : kvGet k m with
  | none => simp [h] at hd
  | some g =>
    simp only [h, Option.getD_some] at hd
    exact ⟨g, kvGet_mem k m g h, hd⟩

/-- Everything `placeBlock` does when it goes on to the next index. -/
theorem placeBlock_go (env : Env) (volID : String) (bgID : Nat) (allip : List String)
    (i : Nat) (s : Alloc) (b : Block) (s1 : Alloc)
    (h : placeBlock env volID bgID allip i s = Flow.go b s1) :
    ∃ ipkey j node rest ds,
      allip[i]? = some ipkey ∧
      generateRandomNumber s.w.draws 0 (inuseGet s.nodes ipkey).length 1 = some (j :: rest, ds) ∧
      (inuseGet s.nodes ipkey)[j]? = some node ∧
      env.fault s.w.tick = false ∧ env.fault (s.w.tick + 1) = false ∧
      b = { BlkID := s.w.blkid + 1, Ip := node.Ip, Port := node.Port, Path := node.MountPoint,
            Status := node.Status, BGID := bgID, VolID := volID } ∧
      s1.nodes = inuseSet s.nodes ipkey j { node with Free := node.Free - 5 } ∧
      s1.w = (DataNodeSet env
          { s.w with draws := ds, tick := s.w.tick + 2, blkid := s.w.blkid + 1,
                     blk := kvSet (blkKey node.Ip node.Port (s.w.blkid + 1)) b s.w.blk }
          (ipkey ++ ":" ++ fmtInt node.Port) { node with Free := node.Free - 5 }).2 := by
  unfold placeBlock at h
  split at h
  · simp at h
  · rename_i ipkey hip
    simp only at h
    split at h
    · simp at h
    · simp at h
    · rename_i j rest ds hgen
      split at h
      · simp at h
      · rename_i blockID w1 halloc
        split at h
        · simp at h
        · rename_i node hnode
          split at h
          · simp at h
          · rename_i w2 hset
            simp only [AllocateBlockID] at halloc
            split at halloc
            · simp at halloc
            · rename_i hf1
              simp only [Prod.mk.injEq, Option.some.injEq] at halloc
              obtain ⟨rfl, rfl⟩ := halloc
              simp only [BlockSet, World.step] at hset
              split at hset
              · simp at hset
              · rename_i hf2
                simp only [Prod.mk.injEq, true_and] at hset
                subst hset
                simp only [Flow.go.injEq] at h
                obtain ⟨rfl, rfl⟩ := h
                refine ⟨ipkey, j, node, rest, ds, hip, hgen, hnode, by simpa using hf1,
                  by simpa [World.step] using hf2, rfl, rfl, ?_⟩
                rfl

/-- What `placeBlock` leaves behind when it leaves the handler: no keyspace has changed. -/
theorem placeBlock_stop (env : Env) (volID : String) (bgID : Nat) (allip : List String)
    (i : Nat) (s : Alloc) (r : Abort) (w : World)
    (h : placeBlock env volID bgID allip i s = Flow.stop r w) :
    w.dn = s.w.dn ∧ w.vol = s.w.vol ∧ w.bgp = s.w.bgp ∧ w.blk = s.w.blk ∧
      w.rgid = s.w.rgid ∧ w.bgid = s.w.bgid := by
  unfold placeBlock at h
  split at h
  · simp only [Flow.stop.injEq] at h
    obtain ⟨_, rfl⟩ := h
    simp
  · simp only at h
    split at h
    · simp only [Flow.stop.injEq] at h
      obtain ⟨_, rfl⟩ := h
      simp
    · simp only [Flow.stop.injEq] at h
      obtain ⟨_, rfl⟩ := h
      simp
    · split at h
      · rename_i w1 halloc
        simp only [Flow.stop.injEq] at h
        obtain ⟨_, rfl⟩ := h
        simp only [AllocateBlockID, World.step] at halloc
        split at halloc
        · simp only [Prod.mk.injEq, true_and] at halloc
          subst halloc
          simp
        · simp at halloc
      · rename_i blockID w1 halloc
        simp only [AllocateBlockID, World.step] at halloc
        split at halloc
        · simp at halloc
        · simp only [Prod.mk.injEq, Option.some.injEq] at halloc
          obtain ⟨rfl, rfl⟩ := halloc
          split at h
          · simp only [Flow.stop.injEq] at h
            obtain ⟨_, rfl⟩ := h
            simp
          · split at h
            · rename_i w2 hset
              simp only [Flow.stop.injEq] at h
              obtain ⟨_, rfl⟩ := h
              simp only [BlockSet, World.step] at hset
              split at hset
              · simp only [Prod.mk.injEq, true_and] at hset
                subst hset
                simp
              · simp at hset
            · simp at h

/-- Invariant rule for the loop over the three indices. -/
theorem placeBlocks_inv (env : Env) (volID : String) (bgID : Nat) (allip : List String)
    (I : List Nat → List Block → Alloc → Prop) (Q : Abort → World → Prop)
    (hgo : ∀ i is acc s b s1, I (i :: is) acc s →
      placeBlock env volID bgID allip i s = Flow.go b s1 → I is (acc ++ [b]) s1)
    (hstop : ∀ i is acc s r w, I (i :: is) acc s →
      placeBlock env volID bgID allip i s = Flow.stop r w → Q r w) :
    ∀ (idxs : List Nat) (acc : List Block) (s : Alloc), I idxs acc s →
      (∀ blocks s1, placeBlocks env volID bgID allip idxs acc s = Flow.go blocks s1 →
        I [] blocks s1) ∧
      (∀ r w, placeBlocks env volID bgID allip idxs acc s = Flow.stop r w → Q r w) := by
  intro idxs
  induction idxs with
  | nil =>
    intro acc s hI
    constructor
    · intro blocks s1 h
      simp only [placeBlocks, Flow.go.injEq] at h
      obtain ⟨rfl, rfl⟩ := h
      exact hI
    · intro r w h
      simp [placeBlocks] at h
  | cons i is ih =>
    intro acc s hI
    cases hp : placeBlock env volID bgID allip i s with
    | stop r0 w0 =>
      constructor
      · intro blocks s1 h
        simp [placeBlocks, hp] at h
      · intro r w h
        simp only [placeBlocks, hp, Flow.stop.injEq] at h
        obtain ⟨rfl, rfl⟩ := h
        exact hstop i is acc s r0 w0 hI hp
    | go b s0 =>
      have h0 := ih (acc ++ [b]) s0 (hgo i is acc s b s0 hI hp)
      constructor
      · intro blocks s1 h
        simp only [placeBlocks, hp] at h
        exact h0.1 blocks s1 h
      · intro r w h
        simp only [placeBlocks, hp] at h
        exact h0.2 r w h

/-- Invariant rule for the loop over the block groups. -/
theorem placeGroups_inv (env : Env) (volID : String) (allip : List String)
    (I : Nat → List BGP → Alloc → Prop) (Q : Abort → World → Prop)
    (hgo : ∀ n acc s bg s1, I (n + 1) acc s →
      placeGroup env volID allip s = Flow.go bg s1 → I n (acc ++ [bg]) s1)
    (hstop : ∀ n acc s r w, I (n + 1) acc s →
      placeGroup env volID allip s = Flow.stop r w → Q r w) :
    ∀ (n : Nat) (acc : List BGP) (s : Alloc), I n acc s →
      (∀ bgs s1, placeGroups env volID allip n acc s = Flow.go bgs s1 → I 0 bgs s1) ∧
      (∀ r w, placeGroups env volID allip n acc s = Flow.stop r w → Q r w) := by
  intro n
  induction n with
  | zero =>
    intro acc s hI
    constructor
    · intro bgs s1 h
      simp only [placeGroups, Flow.go.injEq] at h
      obtain ⟨rfl, rfl⟩ := h
      exact hI
    · intro r w h
      simp [placeGroups] at h
  | succ n ih =>
    intro acc s hI
    cases hp : placeGroup env volID allip s with
    | stop r0 w0 =>
      constructor
      · intro bgs s1 h
        simp [placeGroups, hp] at h
      · intro r w h
        simp only [placeGroups, hp, Flow.stop.injEq] at h
        obtain ⟨rfl, rfl⟩ := h
        exact hstop n acc s r0 w0 hI hp
    | go bg s0 =>
      have h0 := ih (acc ++ [bg]) s0 (hgo n acc s bg s0 hI hp)
      constructor
      · intro bgs s1 h
        simp only [placeGroups, hp] at h
        exact h0.1 bgs s1 h
      · intro r w h
        simp only [placeGroups, hp] at h
        exact h0.2 r w h

/-! ## One block group -/

/-- Everything `placeGroup` does when it goes on to the next group. -/
theorem placeGroup_go (env : Env) (volID : String) (allip : List String) (s : Alloc)
    (bg : BGP) (s1 : Alloc) (h : placeGroup env volID allip s = Flow.go bg s1) :
    ∃ idxs ds blocks s0,
      env.fault s.w.tick = false ∧
      generateRandomNumber s.w.draws 0 allip.length 3 = some (idxs, ds) ∧
      idxs.length = 3 ∧
      placeBlocks env volID (s.w.bgid + 1) allip idxs []
        (groupStart s ds) = Flow.go blocks s0 ∧
      env.fault s0.w.tick = false ∧
      bg = { Blocks := blocks } ∧
      s1 = { w := { s0.w with tick := s0.w.tick + 1,
                              bgp := kvSet (bgKey volID (s.w.bgid + 1)) { Blocks := blocks } s0.w.bgp },
             nodes := s0.nodes } := by
  unfold placeGroup at h
  split at h
  · simp at h
  · rename_i bgID w1 halloc
    simp only [AllocateBGID, World.step] at halloc
    split at halloc
    · simp at halloc
    · rename_i hf
      simp only [Prod.mk.injEq, Option.some.injEq] at halloc
      obtain ⟨rfl, rfl⟩ := halloc
      split at h
      · simp at h
      · rename_i idxs ds hgen
        split at h
        · simp at h
        · rename_i hlen
          split at h
          · simp at h
          · rename_i blocks s0 hpb
            split at h
            · simp at h
            · rename_i w2 hset
              simp only [BGPSet, World.step] at hset
              split at hset
              · simp at hset
              · rename_i hf2
                simp only [Prod.mk.injEq, true_and] at hset
                subst hset
                simp only [Flow.go.injEq] at h
                obtain ⟨rfl, rfl⟩ := h
                exact ⟨idxs, ds, blocks, s0, by simpa using hf, hgen, by simpa using hlen, hpb,
                  by simpa using hf2, rfl, rfl⟩

/-- The ways `placeGroup` leaves the handler: before any block is placed (no
keyspace has changed), inside the loop over the indices, or at the failed `BGPSet`. -/
theorem placeGroup_stop (env : Env) (volID : String) (allip : List String) (s : Alloc)
    (r : Abort) (w : World) (h : placeGroup env volID allip s = Flow.stop r w) :
    (w.dn = s.w.dn ∧ w.vol = s.w.vol ∧ w.bgp = s.w.bgp ∧ w.blk = s.w.blk) ∨
    ∃ idxs ds,
      generateRandomNumber s.w.draws 0 allip.length 3 = some (idxs, ds) ∧ idxs.length = 3 ∧
      (placeBlocks env volID (s.w.bgid + 1) allip idxs []
          (groupStart s ds) = Flow.stop r w ∨
        ∃ blocks s0, placeBlocks env volID (s.w.bgid + 1) allip idxs []
          (groupStart s ds) = Flow.go blocks s0 ∧ w = s0.w.step) := by
  unfold placeGroup at h
  split at h
  · rename_i w1 halloc
    simp only [Flow.stop.injEq] at h
    obtain ⟨_, rfl⟩ := h
    simp only [AllocateBGID, World.step] at halloc
    split at halloc
    · simp only [Prod.mk.injEq, true_and] at halloc
      subst halloc
      left
      simp
    · simp at halloc
  · rename_i bgID w1 halloc
    simp only [AllocateBGID, World.step] at halloc
    split at halloc
    · simp at halloc
    · simp only [Prod.mk.injEq, Option.some.injEq] at halloc
      obtain ⟨rfl, rfl⟩ := halloc
      split at h
      · simp only [Flow.stop.injEq] at h
        obtain ⟨_, rfl⟩ := h
        left
        simp
      · rename_i idxs ds hgen
        split at h
        · simp only [Flow.stop.injEq] at h
          obtain ⟨_, rfl⟩ := h
          left
          simp
        · rename_i hlen
          right
          refine ⟨idxs, ds, hgen, by simpa using hlen, ?_⟩
          split at h
          · rename_i r0 w0 hpb
            simp only [Flow.stop.injEq] at h
            obtain ⟨rfl, rfl⟩ := h
            exact Or.inl hpb
          · rename_i blocks s0 hpb
            right
            refine ⟨blocks, s0, hpb, ?_⟩
            split at h
            · rename_i w2 hset
              simp only [Flow.stop.injEq] at h
              obtain ⟨_, rfl⟩ := h
              simp only [BGPSet] at hset
              split at hset
              · simp only [Prod.mk.injEq, true_and] at hset
                exact hset.symm
              · simp at hset
            · simp at h

@[simp] theorem DataNodeSet_bgp (env : Env) (w : World) (k : String) (v : Datanode) :
    (DataNodeSet env w k v).2.bgp = w.bgp := by
  unfold DataNodeSet; split <;> rfl

@[simp] theorem DataNodeSet_vol (env : Env) (w : World) (k : String) (v : Datanode) :
    (DataNodeSet env w k v).2.vol = w.vol := by
  unfold DataNodeSet; split <;> rfl

@[simp] theorem DataNodeSet_blk (env : Env) (w : World) (k : String) (v : Datanode) :
    (DataNodeSet env w k v).2.blk = w.blk := by
  unfold DataNodeSet; split <;> rfl

@[simp] theorem DataNodeSet_rgid (env : Env) (w : World) (k : String) (v : Datanode) :
    (DataNodeSet env w k v).2.rgid = w.rgid := by
  unfold DataNodeSet; split <;> rfl

@[simp] theorem DataNodeSet_bgid (env : Env) (w : World) (k : String) (v : Datanode) :
    (DataNodeSet env w k v).2.bgid = w.bgid := by
  unfold DataNodeSet; split <;> rfl

@[simp] theorem DataNodeSet_blkid (env : Env) (w : World) (k : String) (v : Datanode) :
    (DataNodeSet env w k v).2.blkid = w.blkid := by
  unfold DataNodeSet; split <;> rfl

@[simp] theorem DataNodeSet_draws (env : Env) (w : World) (k : String) (v : Datanode) :
    (DataNodeSet env w k v).2.draws = w.draws := by
  unfold DataNodeSet; split <;> rfl

@[simp] theorem DataNodeSet_tick (env : Env) (w : World) (k : String) (v : Datanode) :
    (DataNodeSet env w k v).2.tick = w.tick + 1 := by
  unfold DataNodeSet; split <;> rfl

theorem DataNodeSet_dn (env : Env) (w : World) (k : String) (v : Datanode) :
    (DataNodeSet env w k v).2.dn = if env.fault w.tick then w.dn else kvSet k v w.dn := by
  unfold DataNodeSet; split <;> rfl

/-- The blocks of a group sit on the IPs `allip[idxs[n]]`, in this order, and the
loop over the indices writes no block group. -/
theorem placeBlocks_ips (env : Env) (volID : String) (bgID : Nat) (allip : List String)
    (idxs : List Nat) (s : Alloc) (hs : InuseOK (fun _ => True) s.nodes) :
    (∀ blocks s1, placeBlocks env volID bgID allip idxs [] s = Flow.go blocks s1 →
      blocks.map (fun b => some b.Ip) = idxs.map (fun i => allip[i]?) ∧
        s1.w.bgp = s.w.bgp ∧ InuseOK (fun _ => True) s1.nodes) ∧
    (∀ r w, placeBlocks env volID bgID allip idxs [] s = Flow.stop r w → w.bgp = s.w.bgp) := by
  have key := placeBlocks_inv env volID bgID allip
    (fun is acc s1 => InuseOK (fun _ => True) s1.nodes ∧ s1.w.bgp = s.w.bgp ∧
      acc.map (fun b => some b.Ip) ++ is.map (fun i => allip[i]?) = idxs.map (fun i => allip[i]?))
    (fun _ w => w.bgp = s.w.bgp) ?_ ?_ idxs [] s ⟨hs, rfl, by simp⟩
  · refine ⟨?_, key.2⟩
    intro blocks s1 h
    have := key.1 blocks s1 h
    exact ⟨by simpa using this.2.2, this.2.1, this.1⟩
  · intro i is acc s0 b s1 hI h
    obtain ⟨ipkey, j, node, rest, ds, hip, hgen, hnode, hf1, hf2, hb, hn, hw⟩ :=
      placeBlock_go env volID bgID allip i s0 b s1 h
    obtain ⟨g, hg, hd⟩ := inuseGet_mem s0.nodes ipkey node (List.getElem?_mem hnode)
    have hnodeIp : node.Ip = ipkey := ((hI.1.2 _ hg).2 node hd).1
    refine ⟨?_, ?_, ?_⟩
    · rw [hn]
      exact inuseSet_ok _ _ _ _ _ hI.1 hnodeIp trivial
    · rw [hw]
      simpa using hI.2.1
    · rw [← hI.2.2]
      simp [hb, hnodeIp, hip]
  · intro i is acc s0 r w hI h
    have := placeBlock_stop env volID bgID allip i s0 r w h
    rw [this.2.2.1]
    exact hI.2.1

theorem placeGroup_bgp (env : Env) (volID : String) (allip : List String) (s : Alloc)
    (hs : InuseOK (fun _ => True) s.nodes) (hip : allip.Nodup) :
    (∀ bg s1, placeGroup env volID allip s = Flow.go bg s1 →
      InuseOK (fun _ => True) s1.nodes ∧ ThreeDistinctIps bg ∧
        ∀ e ∈ s1.w.bgp, e ∈ s.w.bgp ∨ ThreeDistinctIps e.2) ∧
    (∀ r w, placeGroup env volID allip s = Flow.stop r w → w.bgp = s.w.bgp) := by
  constructor
  · intro bg s1 h
    obtain ⟨idxs, ds, blocks, s0, hf, hgen, hlen, hpb, hf2, rfl, rfl⟩ :=
      placeGroup_go env volID allip s bg s1 h
    have hb := (placeBlocks_ips env volID (s.w.bgid + 1) allip idxs
      { w := { s.w with draws := ds, tick := s.w.tick + 1, bgid := s.w.bgid + 1 },
        nodes := s.nodes } hs).1 blocks s0 hpb
    have hidx := generateRandomNumber_spec _ _ _ _ _ _ hgen
    have hgood : ThreeDistinctIps { Blocks := blocks } := by
      constructor
      · have := congrArg List.length hb.1
        simpa [hlen] using this
      · have hnd : (idxs.map (fun i => allip[i]?)).Nodup := by
          apply List.Nodup.map_on _ hidx.1
          intro x hx y _ hxy
          exact List.getElem?_inj (by simpa using hidx.2.2 x hx) hip hxy
        rw [← hb.1] at hnd
        have h2 : (blocks.map (fun b => some b.Ip)) = (blocks.map Block.Ip).map some := by
          simp
        rw [h2] at hnd
        exact hnd.of_map _
    refine ⟨hb.2.2, hgood, ?_⟩
    intro e he
    simp only [mem_kvSet] at he
    rcases he with he | he
    · subst he
      exact Or.inr hgood
    · left
      have := hb.2.1
      simp only at this
      rw [← this]
      exact he.1
  · intro r w h
    rcases placeGroup_stop env volID allip s r w h with h1 | ⟨idxs, ds, _, _, h2 | ⟨blocks, s0, h3, rfl⟩⟩
    · exact h1.2.2.1
    · exact (placeBlocks_ips env volID (s.w.bgid + 1) allip idxs
        (groupStart s ds) hs).2 r w h2
    · exact ((placeBlocks_ips env volID (s.w.bgid + 1) allip idxs
        (groupStart s ds) hs).1 blocks s0 h3).2.1

/-- Whatever the loop over the block groups leaves in the BGP keyspace was there
before or is a group of three blocks on distinct IPs. -/
theorem placeGroups_bgp (env : Env) (volID : String) (allip : List String) (n : Nat)
    (acc : List BGP) (s : Alloc) (hs : InuseOK (fun _ => True) s.nodes) (hip : allip.Nodup) :
    ∀ e ∈ (placeGroups env volID allip n acc s).world.bgp,
      e ∈ s.w.bgp ∨ ThreeDistinctIps e.2 := by
  have key := placeGroups_inv env volID allip
    (fun _ _ s1 => InuseOK (fun _ => True) s1.nodes ∧
      ∀ e ∈ s1.w.bgp, e ∈ s.w.bgp ∨ ThreeDistinctIps e.2)
    (fun _ w => ∀ e ∈ w.bgp, e ∈ s.w.bgp ∨ ThreeDistinctIps e.2) ?_ ?_ n acc s
    ⟨hs, fun e he => Or.inl he⟩
  · cases hp : placeGroups env volID allip n acc s with
    | go bgs s1 => exact (key.1 bgs s1 hp).2
    | stop r w => exact key.2 r w hp
  · intro n acc s0 bg s1 hI h
    have := (placeGroup_bgp env volID allip s0 hI.1 hip).1 bg s1 h
    refine ⟨this.1, ?_⟩
    intro e he
    rcases this.2.2 e he with h1 | h1
    · exact hI.2 e h1
    · exact Or.inr h1
  · intro n acc s0 r w hI h
    have := (placeGroup_bgp env volID allip s0 hI.1 hip).2 r w h
    intro e he
    rw [this] at he
    exact hI.2 e he

/-! ## `CreateVol` and `ExpandVolRS` around the allocation loop -/

/-- The two ways through `CreateVol`: it returns before the allocation loop, with
no keyspace changed and never with `Ret = 0` and no error; or it runs the loop. -/
theorem CreateVol_cases (env : Env) (w : World) (req : CreateVolReq) :
    ((CreateVol env w req).2.2.dn = w.dn ∧ (CreateVol env w req).2.2.vol = w.vol ∧
      (CreateVol env w req).2.2.bgp = w.bgp ∧ (CreateVol env w req).2.2.blk = w.blk ∧
      ((CreateVol env w req).1 = Exit.ret → (CreateVol env w req).2.1.Ret ≠ 0)) ∨
    ∃ u, env.uuid = some u ∧ env.nsRet = 0 ∧ env.fault w.tick = false ∧
      env.fault (w.tick + 1) = false ∧
      3 ≤ (allIps env (groupNodes (skipCreate req.Tier) (w.dn.map Prod.snd))).length ∧
      ((∃ a w3, placeGroups env u
            (allIps env (groupNodes (skipCreate req.Tier) (w.dn.map Prod.snd)))
            (blkGrpNum req.SpaceQuota).1.toNat []
            { w := { w with tick := w.tick + 2, rgid := w.rgid + 1 },
              nodes := groupNodes (skipCreate req.Tier) (w.dn.map Prod.snd) } = Flow.stop a w3 ∧
          CreateVol env w req = (a.exit, { Ret := a.ret, UUID := "", RaftGroupID := 0 }, w3)) ∨
        ∃ bgs s, placeGroups env u
            (allIps env (groupNodes (skipCreate req.Tier) (w.dn.map Prod.snd)))
            (blkGrpNum req.SpaceQuota).1.toNat []
            { w := { w with tick := w.tick + 2, rgid := w.rgid + 1 },
              nodes := groupNodes (skipCreate req.Tier) (w.dn.map Prod.snd) } = Flow.go bgs s ∧
          (CreateVol env w req).2.2 =
            (VOLSet env s.w u
              { UUID := u, Name := req.VolName, Tier := req.Tier,
                TotalSize := (blkGrpNum req.SpaceQuota).2,
                AllocatedSize := (blkGrpNum req.SpaceQuota).1 * 5, RGID := w.rgid + 1 }).2 ∧
          ((CreateVol env w req).1, (CreateVol env w req).2.1) =
            if env.nsCreateRet ≠ 0 then
              (Exit.ret, { Ret := -1, UUID := u, RaftGroupID := w.rgid + 1 })
            else tellPeers { Ret := 0, UUID := u, RaftGroupID := w.rgid + 1 } env.peers) := by
  unfold CreateVol
  cases hu : env.uuid with
  | none => left; simp
  | some u =>
    simp only
    by_cases hns : env.nsRet = 0
    swap
    · left; simp [hns]
    simp only [hns, ne_eq, not_true_eq_false, if_false]
    by_cases hf1 : env.fault w.tick = true
    · left; simp [AllocateRGID, hf1, World.step]
    simp only [Bool.not_eq_true] at hf1
    simp only [AllocateRGID, hf1, World.step, Bool.false_eq_true, if_false]
    by_cases hf2 : env.fault (w.tick + 1) = true
    · left; simp [GetAllDatanode, hf2, World.step]
    simp only [Bool.not_eq_true] at hf2
    simp only [GetAllDatanode, hf2, World.step, Bool.false_eq_true, if_false]
    by_cases hlen : (allIps env (groupNodes (skipCreate req.Tier) (w.dn.map Prod.snd))).length < 3
    · left; simp [hlen]
    simp only [hlen, if_false]
    right
    refine ⟨u, rfl, trivial, trivial, trivial, by omega, ?_⟩
    cases hp : placeGroups env u
        (allIps env (groupNodes (skipCreate req.Tier) (w.dn.map Prod.snd)))
        (blkGrpNum req.SpaceQuota).1.toNat []
        { w := { w with tick := w.tick + 2, rgid := w.rgid + 1 },
          nodes := groupNodes (skipCreate req.Tier) (w.dn.map Prod.snd) } with
    | stop a w3 =>
      left
      exact ⟨a, w3, rfl, rfl⟩
    | go bgs s =>
      right
      refine ⟨bgs, s, rfl, ?_, ?_⟩
      · simp only
        split <;> rfl
      · simp only
        split <;> rfl

/-- The two ways through `ExpandVolRS`: it returns before the allocation loop,
with no keyspace changed and no block group returned; or it runs the loop. -/
theorem ExpandVolRS_cases (env : Env) (w : World) (volID : String) :
    ((ExpandVolRS env w volID).2.2.dn = w.dn ∧ (ExpandVolRS env w volID).2.2.vol = w.vol ∧
      (ExpandVolRS env w volID).2.2.bgp = w.bgp ∧ (ExpandVolRS env w volID).2.2.blk = w.blk ∧
      (ExpandVolRS env w volID).2.1.BGPS = [] ∧ (ExpandVolRS env w volID).2.2.bgid = w.bgid) ∨
    ∃ volume, env.nsRet = 0 ∧ env.fault w.tick = false ∧ kvGet volID w.vol = some volume ∧
      0 < wrap32 (volume.TotalSize - volume.AllocatedSize) ∧
      env.fault (w.tick + 1) = false ∧
      3 ≤ (allIps env (groupNodes (skipCreate volume.Tier) (w.dn.map Prod.snd))).length ∧
      ((∃ a w3, placeGroups env volID
            (allIps env (groupNodes (skipCreate volume.Tier) (w.dn.map Prod.snd)))
            (blkGrpNum (wrap32 (volume.TotalSize - volume.AllocatedSize))).1.toNat []
            { w := { w with tick := w.tick + 2 },
              nodes := groupNodes (skipCreate volume.Tier) (w.dn.map Prod.snd) } = Flow.stop a w3 ∧
          ExpandVolRS env w volID = (a.exit, { Ret := a.ret, BGPS := [] }, w3)) ∨
        ∃ bgs s, placeGroups env volID
            (allIps env (groupNodes (skipCreate volume.Tier) (w.dn.map Prod.snd)))
            (blkGrpNum (wrap32 (volume.TotalSize - volume.AllocatedSize))).1.toNat []
            { w := { w with tick := w.tick + 2 },
              nodes := groupNodes (skipCreate volume.Tier) (w.dn.map Prod.snd) } = Flow.go bgs s ∧
          ExpandVolRS env w volID =
            (Exit.ret, { Ret := 1, BGPS := bgs },
              (VOLSet env s.w volID
                { volume with AllocatedSize := wrap32 (volume.AllocatedSize +
                    (blkGrpNum (wrap32 (volume.TotalSize - volume.AllocatedSize))).1 * 5) }).2)) := by
  unfold ExpandVolRS
  by_cases hns : env.nsRet = 0
  swap
  · left; simp [hns]
  simp only [hns, ne_eq, not_true_eq_false, if_false]
  by_cases hf1 : env.fault w.tick = true
  · left; simp [VOLGet, hf1, World.step]
  simp only [Bool.not_eq_true] at hf1
  simp only [VOLGet, hf1, World.step, Bool.false_eq_true, if_false]
  cases hv : kvGet volID w.vol with
  | none => left; simp
  | some volume =>
    simp only
    by_cases hneed : wrap32 (volume.TotalSize - volume.AllocatedSize) ≤ 0
    · left; simp [hneed]
    simp only [hneed, if_false]
    by_cases hf2 : env.fault (w.tick + 1) = true
    · left; simp [GetAllDatanode, hf2, World.step]
    simp only [Bool.not_eq_true] at hf2
    simp only [GetAllDatanode, hf2, World.step, Bool.false_eq_true, if_false]
    by_cases hlen : (allIps env (groupNodes (skipCreate volume.Tier) (w.dn.map Prod.snd))).length < 3
    · left; simp [hlen]
    simp only [hlen, if_false]
    right
    refine ⟨volume, trivial, trivial, rfl, by omega, trivial, by omega, ?_⟩
    cases hp : placeGroups env volID
        (allIps env (groupNodes (skipCreate volume.Tier) (w.dn.map Prod.snd)))
        (blkGrpNum (wrap32 (volume.TotalSize - volume.AllocatedSize))).1.toNat []
        { w := { w with tick := w.tick + 2 },
          nodes := groupNodes (skipCreate volume.Tier) (w.dn.map Prod.snd) } with
    | stop a w3 =>
      left
      exact ⟨a, w3, rfl, rfl⟩
    | go bgs s =>
      right
      exact ⟨bgs, s, rfl, rfl⟩

@[simp] theorem VOLSet_bgp (env : Env) (w : World) (k : String) (v : Volume) :
    (VOLSet env w k v).2.bgp = w.bgp := by
  unfold VOLSet; split <;> rfl

@[simp] theorem VOLSet_dn (env : Env) (w : World) (k : String) (v : Volume) :
    (VOLSet env w k v).2.dn = w.dn := by
  unfold VOLSet; split <;> rfl

@[simp] theorem VOLSet_blk (env : Env) (w : World) (k : String) (v : Volume) :
    (VOLSet env w k v).2.blk = w.blk := by
  unfold VOLSet; split <;> rfl

theorem VOLSet_vol (env : Env) (w : World) (k : String) (v : Volume) :
    (VOLSet env w k v).2.vol = if env.fault w.tick then w.vol else kvSet k v w.vol := by
  unfold VOLSet; split <;> rfl

/-! ## C1: block groups of three blocks on distinct IPs -/

/-- The IPs are pairwise distinct and every group of `inuseNodes` is in order when
the allocation loop starts. -/
theorem start_ok (env : Env) (skip : Datanode → Bool) (vv : List Datanode) :
    InuseOK (fun _ => True) (groupNodes skip vv) ∧ (allIps env (groupNodes skip vv)).Nodup := by
  have h := groupNodes_ok skip vv
  have h1 : InuseOK (fun _ => True) (groupNodes skip vv) :=
    ⟨h.1, fun e he => ⟨(h.2 e he).1, fun d hd => ⟨((h.2 e he).2 d hd).1, trivial⟩⟩⟩
  exact ⟨h1, allIps_nodup env _ _ h1⟩

/-- C1. Every block group that `CreateVol` or `ExpandVolRS` leaves in the BGP
keyspace and that was not there before the call has exactly three blocks, on
pairwise distinct IPs: for every store, request, fault pattern and random draws. -/
theorem C1_written_groups_three_distinct_ips (env : Env) (w : World) (req : CreateVolReq)
    (volID : String) :
    (∀ e ∈ (CreateVol env w req).2.2.bgp, e ∈ w.bgp ∨ ThreeDistinctIps e.2) ∧
    (∀ e ∈ (ExpandVolRS env w volID).2.2.bgp, e ∈ w.bgp ∨ ThreeDistinctIps e.2) := by
  constructor
  · rcases CreateVol_cases env w req with h | ⟨u, _, _, _, _, _, h⟩
    · intro e he
      rw [h.2.2.1] at he
      exact Or.inl he
    · have hs := start_ok env (skipCreate req.Tier) (w.dn.map Prod.snd)
      have hp := placeGroups_bgp env u _ (blkGrpNum req.SpaceQuota).1.toNat []
        { w := { w with tick := w.tick + 2, rgid := w.rgid + 1 },
          nodes := groupNodes (skipCreate req.Tier) (w.dn.map Prod.snd) } hs.1 hs.2
      rcases h with ⟨a, w3, h1, h2⟩ | ⟨bgs, s, h1, h2, _⟩
      · rw [h2]
        rw [h1] at hp
        exact hp
      · rw [h2, VOLSet_bgp]
        rw [h1] at hp
        exact hp
  · rcases ExpandVolRS_cases env w volID with h | ⟨volume, _, _, _, _, _, _, h⟩
    · intro e he
      rw [h.2.2.1] at he
      exact Or.inl he
    · have hs := start_ok env (skipCreate volume.Tier) (w.dn.map Prod.snd)
      have hp := placeGroups_bgp env volID _
        (blkGrpNum (wrap32 (volume.TotalSize - volume.AllocatedSize))).1.toNat []
        { w := { w with tick := w.tick + 2 },
          nodes := groupNodes (skipCreate volume.Tier) (w.dn.map Prod.snd) } hs.1 hs.2
      rcases h with ⟨a, w3, h1, h2⟩ | ⟨bgs, s, h1, h2⟩
      · rw [h2]
        rw [h1] at hp
        exact hp
      · rw [h2]
        simp only [VOLSet_bgp]
        rw [h1] at hp
        exact hp

/-! ## C2: too few eligible IPs -/

theorem length_eq_of_nodup_of_mem_iff (l1 l2 : List String) (h1 : l1.Nodup) (h2 : l2.Nodup)
    (h : ∀ x, x ∈ l1 ↔ x ∈ l2) : l1.length = l2.length := by
  have a := (List.subperm_of_subset h1 (fun x hx => (h x).mp hx)).length_le
  have b := (List.subperm_of_subset h2 (fun x hx => (h x).mpr hx)).length_le
  omega

/-- The list `allip` of `CreateVol` and `ExpandVolRS` has one entry for each
distinct IP of an eligible data node. -/
theorem allIps_length (env : Env) (w : World) (tier : String) :
    (allIps env (groupNodes (skipCreate tier) (w.dn.map Prod.snd))).length =
      (eligibleIps w tier).length := by
  have hs := start_ok env (skipCreate tier) (w.dn.map Prod.snd)
  apply length_eq_of_nodup_of_mem_iff _ _ hs.2 (List.nodup_dedup _)
  intro x
  rw [(allIps_perm env _).mem_iff, groupNodes_keys]
  simp only [eligibleIps, List.mem_dedup, List.mem_map, List.mem_filter, decide_eq_true_eq]
  constructor
  · rintro ⟨d, hd, hskip, rfl⟩
    refine ⟨d, ⟨hd, ?_⟩, rfl⟩
    simp only [skipCreate, Bool.or_eq_false_iff, decide_eq_false_iff_not, not_not, not_lt] at hskip
    exact ⟨hskip.1.1, hskip.1.2, hskip.2⟩
  · rintro ⟨d, ⟨hd, h1, h2, h3⟩, rfl⟩
    refine ⟨d, hd, ?_, rfl⟩
    simp [skipCreate, h1, h2, h3]

/-- C2. When the data nodes with `status == 0`, `free >= 30` and the requested tier
span fewer than three distinct IPs, `CreateVol` leaves the four keyspaces as they
were, whatever else happens; and when the UUID generation, the namespace lookup
and the two KV operations that precede the check succeed, it returns `Ret = -1`. -/
theorem C2_createvol_too_few_nodes (env : Env) (w : World) (req : CreateVolReq)
    (hfew : (eligibleIps w req.Tier).length < 3) :
    ((CreateVol env w req).2.2.vol = w.vol ∧ (CreateVol env w req).2.2.bgp = w.bgp ∧
      (CreateVol env w req).2.2.blk = w.blk ∧ (CreateVol env w req).2.2.dn = w.dn) ∧
    (env.uuid ≠ none → env.nsRet = 0 → env.fault w.tick = false →
      env.fault (w.tick + 1) = false →
      (CreateVol env w req).1 = Exit.ret ∧ (CreateVol env w req).2.1.Ret = -1) := by
  have hlen := allIps_length env w req.Tier
  constructor
  · rcases CreateVol_cases env w req with h | ⟨u, _, _, _, _, h3, _⟩
    · exact ⟨h.2.1, h.2.2.1, h.2.2.2.1, h.1⟩
    · omega
  · intro hu hns hf1 hf2
    have hlt : (allIps env (groupNodes (skipCreate req.Tier) (w.dn.map Prod.snd))).length < 3 := by
      omega
    cases hu1 : env.uuid with
    | none => exact absurd hu1 hu
    | some u =>
      simp [CreateVol, hu1, hns, AllocateRGID, GetAllDatanode, World.step, hf1, hf2, hlt]

/-- Witness of C2: scenario 2 of the specification (only `a:1` and `b:1`). -/
theorem C2_createvol_too_few_nodes_witness :
    (eligibleIps (cluster nodesAB []) "hdd").length < 3 ∧
    (((CreateVol envOk (cluster nodesAB []) ⟨"v1", 5, "hdd"⟩).2.2.vol = [] ∧
      (CreateVol envOk (cluster nodesAB []) ⟨"v1", 5, "hdd"⟩).2.2.bgp = [] ∧
      (CreateVol envOk (cluster nodesAB []) ⟨"v1", 5, "hdd"⟩).2.2.blk = [] ∧
      (CreateVol envOk (cluster nodesAB []) ⟨"v1", 5, "hdd"⟩).2.2.dn = nodesAB) ∧
    (envOk.uuid ≠ none → envOk.nsRet = 0 → envOk.fault 0 = false → envOk.fault (0 + 1) = false →
      (CreateVol envOk (cluster nodesAB []) ⟨"v1", 5, "hdd"⟩).1 = Exit.ret ∧
      (CreateVol envOk (cluster nodesAB []) ⟨"v1", 5, "hdd"⟩).2.1.Ret = -1)) :=
  ⟨by decide, C2_createvol_too_few_nodes envOk (cluster nodesAB []) ⟨"v1", 5, "hdd"⟩ (by decide)⟩

/-! ## The allocation loop when no KV operation fails -/

theorem genLoop_done (start span count : Nat) (nums draws : List Nat)
    (h : count ≤ nums.length) : genLoop start span count nums draws = some (nums, draws) := by
  cases draws with
  | nil => simp [genLoop, Nat.not_lt.mpr h]
  | cons d ds => simp [genLoop, Nat.not_lt.mpr h]

/-- One index out of `len >= 1`: the first draw decides. -/
theorem generateRandomNumber_one (draws : List Nat) (len : Nat) (hlen : 1 ≤ len) :
    generateRandomNumber draws 0 len 1 =
      match draws with
      | [] => none
      | d :: ds => some ([d % len], ds) := by
  have h0 : ¬ (len < 0 ∨ len - 0 < 1) := by omega
  unfold generateRandomNumber
  rw [if_neg h0]
  cases draws with
  | nil => simp [genLoop]
  | cons d ds =>
    rw [genLoop]
    simp only [List.length_nil, Nat.lt_one_iff, if_true, List.not_mem_nil, if_false,
      List.nil_append, Nat.add_zero, Nat.sub_zero]
    exact genLoop_done 0 len 1 [d % len] ds (by simp)

/-- Three indices out of `len >= 3` on the draws 0, 1, 2. -/
theorem generateRandomNumber_three (rest : List Nat) (len : Nat) (hlen : 3 ≤ len) :
    generateRandomNumber (0 :: 1 :: 2 :: rest) 0 len 3 = some ([0, 1, 2], rest) := by
  have h0 : ¬ (len < 0 ∨ len - 0 < 3) := by omega
  have h1 : 1 % len = 1 := Nat.mod_eq_of_lt (by omega)
  have h2 : 2 % len = 2 := Nat.mod_eq_of_lt (by omega)
  unfold generateRandomNumber
  rw [if_neg h0]
  rw [genLoop]
  simp only [List.length_nil, Nat.sub_zero, Nat.zero_mod, Nat.add_zero, List.not_mem_nil,
    List.nil_append, if_false, show (0 : Nat) < 3 by omega, if_true]
  rw [genLoop]
  simp only [List.length_singleton, show (1 : Nat) < 3 by omega, if_true, h1, Nat.add_zero,
    List.mem_singleton, show ¬ (1 : Nat) = 0 by omega, if_false, List.singleton_append]
  rw [genLoop]
  simp only [List.length_cons, List.length_nil, show (0 + 1 + 1 : Nat) < 3 by omega, if_true, h2,
    Nat.add_zero, List.mem_cons, List.not_mem_nil, show ¬ ((2 : Nat) = 0 ∨ 2 = 1 ∨ False) by decide,
    if_false, List.cons_append, List.nil_append]
  exact genLoop_done 0 len 3 [0, 1, 2] rest (by simp)
/-- With as many slots as numbers asked for, `generateRandomNumber` returns that
many numbers when it returns. -/
theorem generateRandomNumber_length (draws : List Nat) (stop count : Nat) (h : count ≤ stop)
    (res ds : List Nat) (hg : generateRandomNumber draws 0 stop count = some (res, ds)) :
    res.length = count := by
  unfold generateRandomNumber at hg
  have h0 : ¬ (stop < 0 ∨ stop - 0 < count) := by omega
  simp only [h0, if_false] at hg
  exact (genLoop_spec 0 (stop - 0) count (by omega) draws [] res ds hg List.nodup_nil
    (by simp) (by simp)).2.1

theorem kvGet_of_mem_keys {V : Type} (k : String) (m : KV V) (h : k ∈ m.map Prod.fst) :
    ∃ v, kvGet k m = some v := by
  induction m with
  | nil => simp at h
  | cons hd tl ih =>
    obtain ⟨k1, v1⟩ := hd
    by_cases h1 : k1 = k
    · exact ⟨v1, by simp [kvGet, h1]⟩
    · simp only [List.map_cons, List.mem_cons] at h
      rcases h with h | h
      · exact absurd h.symm h1
      · obtain ⟨v, hv⟩ := ih h
        exact ⟨v, by simp [kvGet, h1, hv]⟩

theorem inuseGet_ne_nil (allip : List String) (m : Inuse) (k : String) (hm : Ready allip m)
    (hk : k ∈ allip) : 1 ≤ (inuseGet m k).length := by
  obtain ⟨g, hg⟩ := kvGet_of_mem_keys k m (hm.2 k hk)
  have hne := (hm.1.2 _ (kvGet_mem k m g hg)).1
  simp only [inuseGet, hg, Option.getD_some]
  cases g with
  | nil => exact absurd rfl hne
  | cons a l => simp

/-- With no KV fault, `placeBlock` hangs when no draw is left and places a block
otherwise, using up one draw. -/
theorem placeBlock_nofault (env : Env) (hkv : ∀ n, env.fault n = false) (volID : String)
    (bgID : Nat) (allip : List String) (i : Nat) (s : Alloc) (hm : Ready allip s.nodes)
    (hi : i < allip.length) :
    match s.w.draws with
    | [] => ∃ w, placeBlock env volID bgID allip i s = Flow.stop Abort.hang w
    | _ :: ds => ∃ b s1, placeBlock env volID bgID allip i s = Flow.go b s1 ∧ s1.w.draws = ds := by
  have hip : allip[i]? = some allip[i] := List.getElem?_eq_getElem hi
  have hlen := inuseGet_ne_nil allip s.nodes allip[i] hm (List.getElem_mem hi)
  have hgen := generateRandomNumber_one s.w.draws _ hlen
  cases hd : s.w.draws with
  | nil =>
    rw [hd] at hgen
    simp only at hgen
    refine ⟨{ s.w with draws := [] }, ?_⟩
    unfold placeBlock
    simp only [hip, hd, hgen]
  | cons d ds =>
    rw [hd] at hgen
    simp only at hgen
    have hj : d % (inuseGet s.nodes allip[i]).length < (inuseGet s.nodes allip[i]).length :=
      Nat.mod_lt _ hlen
    have hnode : (inuseGet s.nodes allip[i])[d % (inuseGet s.nodes allip[i]).length]? =
        some (inuseGet s.nodes allip[i])[d % (inuseGet s.nodes allip[i]).length] :=
      List.getElem?_eq_getElem hj
    unfold placeBlock
    simp only [hip, hd, hgen, AllocateBlockID, hkv, World.step, Bool.false_eq_true, if_false,
      hnode, BlockSet]
    exact ⟨_, _, rfl, by simp⟩

/-- What `placeBlock` leaves untouched when it goes on. -/
theorem placeBlock_frame (env : Env) (volID : String) (bgID : Nat) (allip : List String)
    (i : Nat) (s : Alloc) (b : Block) (s1 : Alloc)
    (h : placeBlock env volID bgID allip i s = Flow.go b s1) :
    s1.w.bgp = s.w.bgp ∧ s1.w.vol = s.w.vol ∧ s1.w.bgid = s.w.bgid ∧ s1.w.rgid = s.w.rgid ∧
      (∀ allip1, Ready allip1 s.nodes → Ready allip1 s1.nodes) := by
  obtain ⟨ipkey, j, node, rest, ds, hip, hgen, hnode, hf1, hf2, hb, hn, hw⟩ :=
    placeBlock_go env volID bgID allip i s b s1 h
  refine ⟨by simp [hw], by simp [hw], by simp [hw], by simp [hw], ?_⟩
  intro allip1 hr
  obtain ⟨g, hg, hd⟩ := inuseGet_mem s.nodes ipkey node (List.getElem?_mem hnode)
  have hnodeIp : node.Ip = ipkey := ((hr.1.2 _ hg).2 node hd).1
  rw [hn]
  exact ⟨inuseSet_ok _ _ _ _ _ hr.1 hnodeIp trivial, by rw [inuseSet_keys]; exact hr.2⟩

/-- With no KV fault the loop over the indices can only be left by a hang; when
it finishes, it has placed one block per index. -/
theorem placeBlocks_nofault (env : Env) (hkv : ∀ n, env.fault n = false) (volID : String)
    (bgID : Nat) (allip : List String) (idxs : List Nat) (acc : List Block) (s : Alloc)
    (hm : Ready allip s.nodes) (hi : ∀ i ∈ idxs, i < allip.length) :
    (∀ r w, placeBlocks env volID bgID allip idxs acc s = Flow.stop r w → r = Abort.hang) ∧
    (∀ blocks s1, placeBlocks env volID bgID allip idxs acc s = Flow.go blocks s1 →
      Ready allip s1.nodes ∧ s1.w.bgp = s.w.bgp ∧ s1.w.vol = s.w.vol ∧
        s1.w.bgid = s.w.bgid ∧ s1.w.rgid = s.w.rgid) := by
  have key := placeBlocks_inv env volID bgID allip
    (fun is _ s1 => Ready allip s1.nodes ∧ (∀ i ∈ is, i < allip.length) ∧ s1.w.bgp = s.w.bgp ∧
      s1.w.vol = s.w.vol ∧ s1.w.bgid = s.w.bgid ∧ s1.w.rgid = s.w.rgid)
    (fun r _ => r = Abort.hang) ?_ ?_ idxs acc s ⟨hm, hi, rfl, rfl, rfl, rfl⟩
  · refine ⟨key.2, ?_⟩
    intro blocks s1 h
    have := key.1 blocks s1 h
    exact ⟨this.1, this.2.2⟩
  · intro i is acc0 s0 b s1 hI h
    have hf := placeBlock_frame env volID bgID allip i s0 b s1 h
    refine ⟨hf.2.2.2.2 allip hI.1, fun x hx => hI.2.1 x (List.mem_cons_of_mem _ hx), ?_, ?_, ?_, ?_⟩
    · rw [hf.1]; exact hI.2.2.1
    · rw [hf.2.1]; exact hI.2.2.2.1
    · rw [hf.2.2.1]; exact hI.2.2.2.2.1
    · rw [hf.2.2.2.1]; exact hI.2.2.2.2.2
  · intro i is acc0 s0 r w hI h
    have hnf := placeBlock_nofault env hkv volID bgID allip i s0 hI.1 (hI.2.1 i (by simp))
    cases hd : s0.w.draws with
    | nil =>
      rw [hd] at hnf
      obtain ⟨w1, h1⟩ := hnf
      rw [h1] at h
      simp only [Flow.stop.injEq] at h
      exact h.1.symm
    | cons d ds =>
      rw [hd] at hnf
      obtain ⟨b, s1, h1, _⟩ := hnf
      rw [h1] at h
      simp at h

/-- With no KV fault the loop over the indices finishes when the draws suffice. -/
theorem placeBlocks_progress (env : Env) (hkv : ∀ n, env.fault n = false) (volID : String)
    (bgID : Nat) (allip : List String) :
    ∀ (idxs : List Nat) (acc : List Block) (s : Alloc) (front rest : List Nat),
      Ready allip s.nodes → (∀ i ∈ idxs, i < allip.length) → s.w.draws = front ++ rest →
      front.length = idxs.length →
      ∃ blocks s1, placeBlocks env volID bgID allip idxs acc s = Flow.go blocks s1 ∧
        s1.w.draws = rest := by
  intro idxs
  induction idxs with
  | nil =>
    intro acc s front rest _ _ hd hlen
    have : front = [] := List.length_eq_zero.mp hlen
    subst this
    exact ⟨acc, s, rfl, by simpa using hd⟩
  | cons i is ih =>
    intro acc s front rest hm hi hd hlen
    cases front with
    | nil => simp at hlen
    | cons d ds =>
      have hnf := placeBlock_nofault env hkv volID bgID allip i s hm (hi i (by simp))
      rw [hd] at hnf
      obtain ⟨b, s1, h1, h2⟩ := hnf
      have hf := placeBlock_frame env volID bgID allip i s b s1 h1
      obtain ⟨blocks, s2, h3, h4⟩ := ih (acc ++ [b]) s1 ds rest (hf.2.2.2.2 allip hm)
        (fun x hx => hi x (List.mem_cons_of_mem _ hx)) h2 (by simpa using hlen)
      exact ⟨blocks, s2, by simp only [placeBlocks, h1, h3], h4⟩

theorem writeGroups_append (volID : String) (new : List BGP) :
    ∀ (id : Nat) (bg : BGP) (m : KV BGP),
      writeGroups volID id (new ++ [bg]) m =
        kvSet (bgKey volID (id + new.length)) bg (writeGroups volID id new m) := by
  induction new with
  | nil =>
    intro id bg m
    simp [writeGroups]
  | cons a l ih =>
    intro id bg m
    have : id + 1 + l.length = id + (a :: l).length := by simp; omega
    rw [← this]
    exact ih (id + 1) bg (kvSet (bgKey volID id) a m)

/-- With no KV fault and at least three IPs, `placeGroup` can only be left by a
hang; when it goes on, it has set one block group of three blocks on distinct
IPs under the next ID. -/
theorem placeGroup_nofault (env : Env) (hkv : ∀ n, env.fault n = false) (volID : String)
    (allip : List String) (s : Alloc) (hm : Ready allip s.nodes) (hnd : allip.Nodup)
    (h3 : 3 ≤ allip.length) :
    (∀ r w, placeGroup env volID allip s = Flow.stop r w → r = Abort.hang) ∧
    (∀ bg s1, placeGroup env volID allip s = Flow.go bg s1 →
      Ready allip s1.nodes ∧ ThreeDistinctIps bg ∧
        s1.w.bgp = kvSet (bgKey volID (s.w.bgid + 1)) bg s.w.bgp ∧ s1.w.vol = s.w.vol ∧
        s1.w.bgid = s.w.bgid + 1 ∧ s1.w.rgid = s.w.rgid) := by
  constructor
  · intro r w h
    unfold placeGroup at h
    simp only [AllocateBGID, hkv, World.step, Bool.false_eq_true, if_false] at h
    split at h
    · simp only [Flow.stop.injEq] at h
      exact h.1.symm
    · rename_i idxs ds hgen
      have hlen := generateRandomNumber_length _ _ 3 h3 idxs ds hgen
      have hidx := generateRandomNumber_spec _ _ _ _ _ _ hgen
      simp only [hlen, ne_eq, not_true_eq_false, if_false] at h
      split at h
      · rename_i r0 w0 hpb
        simp only [Flow.stop.injEq] at h
        obtain ⟨rfl, rfl⟩ := h
        exact (placeBlocks_nofault env hkv volID _ allip idxs [] (groupStart s ds) hm
          (fun i hi => hidx.2.2 i hi)).1 _ _ hpb
      · simp [BGPSet, hkv] at h
  · intro bg s1 h
    obtain ⟨idxs, ds, blocks, s0, hf, hgen, hlen, hpb, hf2, rfl, rfl⟩ :=
      placeGroup_go env volID allip s bg s1 h
    have hidx := generateRandomNumber_spec _ _ _ _ _ _ hgen
    have hb := (placeBlocks_nofault env hkv volID _ allip idxs [] (groupStart s ds) hm
      (fun i hi => hidx.2.2 i hi)).2 _ _ hpb
    have hgood := ((placeGroup_bgp env volID allip s hm.1 hnd).1 _ _ h).2.1
    refine ⟨hb.1, hgood, ?_, ?_, ?_, ?_⟩
    · simp only
      rw [hb.2.1]
      rfl
    · simp only
      rw [hb.2.2.1]
      rfl
    · simp only
      rw [hb.2.2.2.1]
      rfl
    · simp only
      rw [hb.2.2.2.2]
      rfl

/-- With no KV fault, `placeGroup` goes on when the six draws 0, 1, 2, 0, 0, 0 come next. -/
theorem placeGroup_progress (env : Env) (hkv : ∀ n, env.fault n = false) (volID : String)
    (allip : List String) (s : Alloc) (hm : Ready allip s.nodes) (h3 : 3 ≤ allip.length)
    (rest : List Nat) (hd : s.w.draws = 0 :: 1 :: 2 :: 0 :: 0 :: 0 :: rest) :
    ∃ bg s1, placeGroup env volID allip s = Flow.go bg s1 ∧ s1.w.draws = rest := by
  have hgen := generateRandomNumber_three (0 :: 0 :: 0 :: rest) allip.length h3
  obtain ⟨blocks, s0, hpb, hrest⟩ := placeBlocks_progress env hkv volID (s.w.bgid + 1) allip
    [0, 1, 2] [] (groupStart s (0 :: 0 :: 0 :: rest)) [0, 0, 0] rest hm
    (by intro i hi; simp only [List.mem_cons, List.not_mem_nil, or_false] at hi; omega) rfl rfl
  refine ⟨{ Blocks := blocks },
    { w := { s0.w with tick := s0.w.tick + 1,
                       bgp := kvSet (bgKey volID (s.w.bgid + 1)) { Blocks := blocks } s0.w.bgp },
      nodes := s0.nodes }, ?_, ?_⟩
  · unfold placeGroup
    simp only [AllocateBGID, hkv, World.step, Bool.false_eq_true, if_false, hd, hgen]
    simp only [List.length_cons, List.length_nil, ne_eq, not_true_eq_false, if_false]
    have hpb1 : placeBlocks env volID (s.w.bgid + 1) allip [0, 1, 2] []
        { w := { dn := s.w.dn, vol := s.w.vol, bgp := s.w.bgp, blk := s.w.blk, rgid := s.w.rgid,
                 bgid := s.w.bgid + 1, blkid := s.w.blkid, tick := s.w.tick + 1,
                 draws := 0 :: 0 :: 0 :: rest },
          nodes := s.nodes } = Flow.go blocks s0 := hpb
    rw [hpb1]
    simp only [BGPSet, hkv, Bool.false_eq_true, if_false]
    rfl
  · simpa [World.step] using hrest

/-- With no KV fault and at least three IPs, the loop over the block groups can
only be left by a hang; when it finishes it has set `n` block groups, each of
three blocks on distinct IPs, under the next `n` IDs. -/
theorem placeGroups_nofault (env : Env) (hkv : ∀ n, env.fault n = false) (volID : String)
    (allip : List String) (hnd : allip.Nodup) (h3 : 3 ≤ allip.length) (n : Nat) (s : Alloc)
    (hm : Ready allip s.nodes) :
    (∀ r w, placeGroups env volID allip n [] s = Flow.stop r w → r = Abort.hang) ∧
    (∀ bgs s1, placeGroups env volID allip n [] s = Flow.go bgs s1 →
      bgs.length = n ∧ (∀ bg ∈ bgs, ThreeDistinctIps bg) ∧
        s1.w.bgp = writeGroups volID (s.w.bgid + 1) bgs s.w.bgp ∧ s1.w.vol = s.w.vol ∧
        s1.w.bgid = s.w.bgid + n ∧ s1.w.rgid = s.w.rgid) := by
  have key := placeGroups_inv env volID allip
    (fun k acc s1 => Ready allip s1.nodes ∧ acc.length + k = n ∧
      (∀ bg ∈ acc, ThreeDistinctIps bg) ∧
      s1.w.bgp = writeGroups volID (s.w.bgid + 1) acc s.w.bgp ∧ s1.w.vol = s.w.vol ∧
      s1.w.bgid = s.w.bgid + acc.length ∧ s1.w.rgid = s.w.rgid)
    (fun r _ => r = Abort.hang) ?_ ?_ n [] s
    ⟨hm, by simp, by simp, by simp [writeGroups], rfl, by simp, rfl⟩
  · refine ⟨key.2, ?_⟩
    intro bgs s1 h
    have := key.1 bgs s1 h
    refine ⟨by omega, this.2.2.1, this.2.2.2.1, this.2.2.2.2.1, ?_, this.2.2.2.2.2.2⟩
    rw [this.2.2.2.2.2.1]
    omega
  · intro k acc s0 bg s1 hI h
    have hg := (placeGroup_nofault env hkv volID allip s0 hI.1 hnd h3).2 bg s1 h
    refine ⟨hg.1, by simp only [List.length_append, List.length_singleton]; omega, ?_, ?_, ?_,
      ?_, ?_⟩
    · intro x hx
      simp only [List.mem_append, List.mem_singleton] at hx
      rcases hx with hx | hx
      · exact hI.2.2.1 x hx
      · subst hx
        exact hg.2.1
    · rw [hg.2.2.1, writeGroups_append, hI.2.2.2.1, hI.2.2.2.2.2.1]
      have : s.w.bgid + acc.length + 1 = s.w.bgid + 1 + acc.length := by omega
      rw [this]
    · rw [hg.2.2.2.1]
      exact hI.2.2.2.2.1
    · rw [hg.2.2.2.2.1, hI.2.2.2.2.2.1]
      simp only [List.length_append, List.length_singleton]
      omega
    · rw [hg.2.2.2.2.2]
      exact hI.2.2.2.2.2.2
  · intro k acc s0 r w hI h
    exact (placeGroup_nofault env hkv volID allip s0 hI.1 hnd h3).1 r w h

/-- With no KV fault and at least three IPs, the loop over the block groups
finishes on the draws `easyDraws n`. -/
theorem placeGroups_progress (env : Env) (hkv : ∀ n, env.fault n = false) (volID : String)
    (allip : List String) (hnd : allip.Nodup) (h3 : 3 ≤ allip.length) :
    ∀ (n : Nat) (acc : List BGP) (s : Alloc) (rest : List Nat), Ready allip s.nodes →
      s.w.draws = easyDraws n ++ rest →
      ∃ bgs s1, placeGroups env volID allip n acc s = Flow.go bgs s1 := by
  intro n
  induction n with
  | zero =>
    intro acc s rest _ _
    exact ⟨acc, s, rfl⟩
  | succ n ih =>
    intro acc s rest hm hd
    obtain ⟨bg, s1, h1, h2⟩ := placeGroup_progress env hkv volID allip s hm h3
      (easyDraws n ++ rest) (by simpa [easyDraws] using hd)
    have hg := (placeGroup_nofault env hkv volID allip s hm hnd h3).2 bg s1 h1
    obtain ⟨bgs, s2, h3⟩ := ih (acc ++ [bg]) s1 rest hg.1 h2
    exact ⟨bgs, s2, by simp only [placeGroups, h1, h3]⟩

/-! ## Keys -/

theorem revDigits_spec : ∀ (fuel n : Nat), n < fuel →
    ofRevDigits (revDigits fuel n) = n ∧ ∀ d ∈ revDigits fuel n, d < 10 := by
  intro fuel
  induction fuel with
  | zero => intro n h; omega
  | succ fuel ih =>
    intro n h
    unfold revDigits
    split
    · rename_i h10
      simp [ofRevDigits, h10]
    · rename_i h10
      have := ih (n / 10) (by omega)
      refine ⟨?_, ?_⟩
      · simp only [ofRevDigits, this.1]
        omega
      · intro d hd
        simp only [List.mem_cons] at hd
        rcases hd with hd | hd
        · omega
        · exact this.2 d hd

theorem charDigit_digitChar (d : Nat) (h : d < 10) : charDigit (digitChar d) = d := by
  interval_cases d <;> rfl

theorem digitChar_ne_dash (d : Nat) (h : d < 10) : digitChar d ≠ '-' := by
  interval_cases d <;> decide

theorem fmtNat_injective (a b : Nat) (h : fmtNat a = fmtNat b) : a = b := by
  have ha := revDigits_spec (a + 1) a (by omega)
  have hb := revDigits_spec (b + 1) b (by omega)
  have h1 : (revDigits (a + 1) a).reverse.map digitChar =
      (revDigits (b + 1) b).reverse.map digitChar := congrArg String.data h
  have h2 := congrArg (List.map charDigit) h1
  have hid : ∀ l : List Nat, (∀ d ∈ l, d < 10) → (l.map digitChar).map charDigit = l := by
    intro l hl
    rw [List.map_map]
    conv_rhs => rw [← List.map_id l]
    apply List.map_congr_left
    intro d hd
    exact charDigit_digitChar d (hl d hd)
  rw [hid _ (by simpa using ha.2), hid _ (by simpa using hb.2)] at h2
  have h3 := List.reverse_injective h2
  rw [← ha.1, ← hb.1, h3]

theorem fmtNat_no_dash (n : Nat) : '-' ∉ (fmtNat n).data := by
  have hn := revDigits_spec (n + 1) n (by omega)
  intro h
  simp only [fmtNat, List.mem_map, List.mem_reverse] at h
  obtain ⟨d, hd, hc⟩ := h
  exact digitChar_ne_dash d (hn.2 d hd) hc

/-- The keys of the block groups of one volume are distinct for distinct IDs. -/
theorem bgKey_injective (volID : String) (i j : Nat) (h : bgKey volID i = bgKey volID j) :
    i = j := by
  apply fmtNat_injective
  have h1 := congrArg String.data h
  simp only [bgKey, String.data_append, List.append_assoc] at h1
  have h2 := List.append_cancel_left (List.append_cancel_left h1)
  exact String.ext h2

/-! ## C3: the number of block groups of `CreateVol` -/

theorem start_ready (env : Env) (skip : Datanode → Bool) (vv : List Datanode) :
    Ready (allIps env (groupNodes skip vv)) (groupNodes skip vv) :=
  ⟨(start_ok env skip vv).1, fun _ hk => (allIps_perm env _).mem_iff.mp hk⟩

theorem tellPeers_ok (ack : CreateVolAck) (peers : List Peer)
    (h : ∀ p ∈ peers, p = Peer.ack 0) : tellPeers ack peers = (Exit.ret, ack) := by
  induction peers with
  | nil => rfl
  | cons p ps ih =>
    have hp := h p (by simp)
    subst hp
    simp only [tellPeers, ne_eq, not_true_eq_false, if_false]
    exact ih (fun q hq => h q (by simp [hq]))

/-- The number of block groups and the rounded size for a size of at least 1. -/
theorem blkGrpNum_pos (q : Int) (h : 1 ≤ q) :
    (blkGrpNum q).1 = min ((q + 4) / 5) 6 ∧
      (q + 4 < 2147483648 → (blkGrpNum q).2 = 5 * ((q + 4) / 5)) := by
  have h1 : q.tdiv 5 = q / 5 := Int.tdiv_eq_ediv (by omega) (by omega)
  have h2 : q.tmod 5 = q % 5 := Int.tmod_eq_emod (by omega) (by omega)
  unfold blkGrpNum BlkSizeG wrap32
  simp only [h1, h2]
  constructor
  · split <;> split <;> omega
  · intro hlt
    split <;> omega

/-- `CreateVol` once it has reached the allocation loop. -/
theorem CreateVol_run (env : Env) (w : World) (req : CreateVolReq) (u : String)
    (hu : env.uuid = some u) (hns : env.nsRet = 0) (hf1 : env.fault w.tick = false)
    (hf2 : env.fault (w.tick + 1) = false) (h3 : 3 ≤ (eligibleIps w req.Tier).length) :
    CreateVol env w req =
      match placeGroups env u (allIps env (groupNodes (skipCreate req.Tier) (w.dn.map Prod.snd)))
          (blkGrpNum req.SpaceQuota).1.toNat []
          { w := { w with tick := w.tick + 2, rgid := w.rgid + 1 },
            nodes := groupNodes (skipCreate req.Tier) (w.dn.map Prod.snd) } with
      | Flow.stop a w3 => (a.exit, { Ret := a.ret, UUID := "", RaftGroupID := 0 }, w3)
      | Flow.go _ s =>
        if env.nsCreateRet ≠ 0 then
          (Exit.ret, { Ret := -1, UUID := u, RaftGroupID := w.rgid + 1 },
            (VOLSet env s.w u
              { UUID := u, Name := req.VolName, Tier := req.Tier,
                TotalSize := (blkGrpNum req.SpaceQuota).2,
                AllocatedSize := (blkGrpNum req.SpaceQuota).1 * 5, RGID := w.rgid + 1 }).2)
        else
          ((tellPeers { Ret := 0, UUID := u, RaftGroupID := w.rgid + 1 } env.peers).1,
            (tellPeers { Ret := 0, UUID := u, RaftGroupID := w.rgid + 1 } env.peers).2,
            (VOLSet env s.w u
              { UUID := u, Name := req.VolName, Tier := req.Tier,
                TotalSize := (blkGrpNum req.SpaceQuota).2,
                AllocatedSize := (blkGrpNum req.SpaceQuota).1 * 5, RGID := w.rgid + 1 }).2) := by
  have hlen : ¬ (allIps env (groupNodes (skipCreate req.Tier) (w.dn.map Prod.snd))).length < 3 := by
    rw [allIps_length]
    omega
  unfold CreateVol
  simp only [hu, hns, ne_eq, not_true_eq_false, if_false, AllocateRGID, hf1, World.step,
    Bool.false_eq_true, GetAllDatanode, hf2, hlen]

/-- `CreateVol` when no KV or peer operation fails and at least three IPs are
eligible: there are draws on which it does not hang; and whenever it does not
hang it returns `Ret = 0`, has set `blkgrpnum` block groups under the next IDs
and has stored the VOL record. -/
theorem CreateVol_nofault (env : Env) (w : World) (req : CreateVolReq) (u : String)
    (hips : 3 ≤ (eligibleIps w req.Tier).length)
    (hu : env.uuid = some u) (hns : env.nsRet = 0) (hkv : ∀ n, env.fault n = false)
    (hnc : env.nsCreateRet = 0) (hpeers : ∀ p ∈ env.peers, p = Peer.ack 0) :
    (∃ draws, (CreateVol env { w with draws := draws } req).1 ≠ Exit.hang) ∧
    ((CreateVol env w req).1 ≠ Exit.hang →
      (CreateVol env w req).1 = Exit.ret ∧
      (CreateVol env w req).2.1 = { Ret := 0, UUID := u, RaftGroupID := w.rgid + 1 } ∧
      (∃ bgs : List BGP, bgs.length = (blkGrpNum req.SpaceQuota).1.toNat ∧
        (∀ bg ∈ bgs, ThreeDistinctIps bg) ∧
        (CreateVol env w req).2.2.bgp = writeGroups u (w.bgid + 1) bgs w.bgp) ∧
      (CreateVol env w req).2.2.vol = kvSet u
        { UUID := u, Name := req.VolName, Tier := req.Tier,
          TotalSize := (blkGrpNum req.SpaceQuota).2,
          AllocatedSize := (blkGrpNum req.SpaceQuota).1 * 5, RGID := w.rgid + 1 } w.vol) := by
  constructor
  · refine ⟨easyDraws (blkGrpNum req.SpaceQuota).1.toNat, ?_⟩
    have hrun := CreateVol_run env { w with draws := easyDraws (blkGrpNum req.SpaceQuota).1.toNat }
      req u hu hns (hkv _) (hkv _) hips
    have hs := start_ok env (skipCreate req.Tier) (w.dn.map Prod.snd)
    have h3 : 3 ≤ (allIps env (groupNodes (skipCreate req.Tier) (w.dn.map Prod.snd))).length := by
      rw [allIps_length]; exact hips
    obtain ⟨bgs, s1, hgo⟩ := placeGroups_progress env hkv u _ hs.2 h3
      (blkGrpNum req.SpaceQuota).1.toNat []
      { w := { w with draws := easyDraws (blkGrpNum req.SpaceQuota).1.toNat,
                      tick := w.tick + 2, rgid := w.rgid + 1 },
        nodes := groupNodes (skipCreate req.Tier) (w.dn.map Prod.snd) } []
      (start_ready env _ _) (by simp)
    rw [hrun]
    simp only
    rw [hgo]
    simp only [hnc, ne_eq, not_true_eq_false, if_false, tellPeers_ok _ _ hpeers]
    decide
  · intro hhang
    have hrun := CreateVol_run env w req u hu hns (hkv _) (hkv _) hips
    have hs := start_ok env (skipCreate req.Tier) (w.dn.map Prod.snd)
    have h3 : 3 ≤ (allIps env (groupNodes (skipCreate req.Tier) (w.dn.map Prod.snd))).length := by
      rw [allIps_length]; exact hips
    have hnf := placeGroups_nofault env hkv u _ hs.2 h3 (blkGrpNum req.SpaceQuota).1.toNat
      { w := { w with tick := w.tick + 2, rgid := w.rgid + 1 },
        nodes := groupNodes (skipCreate req.Tier) (w.dn.map Prod.snd) } (start_ready env _ _)
    cases hp : placeGroups env u
        (allIps env (groupNodes (skipCreate req.Tier) (w.dn.map Prod.snd)))
        (blkGrpNum req.SpaceQuota).1.toNat []
        { w := { w with tick := w.tick + 2, rgid := w.rgid + 1 },
          nodes := groupNodes (skipCreate req.Tier) (w.dn.map Prod.snd) } with
    | stop a w3 =>
      exfalso
      apply hhang
      rw [hrun, hp]
      have := hnf.1 a w3 hp
      subst this
      rfl
    | go bgs s =>
      have hg := hnf.2 bgs s hp
      rw [hrun, hp]
      simp only [hnc, ne_eq, not_true_eq_false, if_false, tellPeers_ok _ _ hpeers]
      refine ⟨trivial, trivial, ⟨bgs, hg.1, hg.2.1, ?_⟩, ?_⟩
      · rw [VOLSet_bgp, hg.2.2.1]
      · rw [VOLSet_vol]
        simp only [hkv, Bool.false_eq_true, if_false]
        rw [hg.2.2.2.1]

/-- C3. For a quota `q >= 1`, at least three eligible IPs and no failing KV or peer
operation: there are draws on which `CreateVol` does not hang; and whenever it
does not hang it returns `Ret = 0` with the UUID, has set exactly
`min (ceil (q / 5)) 6` block groups (of three blocks on distinct IPs) under the
next IDs of the volume, whose keys are pairwise distinct, and has stored a VOL
record with `allocatedSize = 5 * min (ceil (q / 5)) 6`. -/
theorem C3_createvol_block_group_count (env : Env) (w : World) (req : CreateVolReq) (u : String)
    (hq : 1 ≤ req.SpaceQuota) (hips : 3 ≤ (eligibleIps w req.Tier).length)
    (hu : env.uuid = some u) (hns : env.nsRet = 0) (hkv : ∀ n, env.fault n = false)
    (hnc : env.nsCreateRet = 0) (hpeers : ∀ p ∈ env.peers, p = Peer.ack 0) :
    (∃ draws, (CreateVol env { w with draws := draws } req).1 ≠ Exit.hang) ∧
    ((CreateVol env w req).1 ≠ Exit.hang →
      (CreateVol env w req).1 = Exit.ret ∧ (CreateVol env w req).2.1.Ret = 0 ∧
      (CreateVol env w req).2.1.UUID = u ∧
      (∃ bgs : List BGP, (bgs.length : Int) = min ((req.SpaceQuota + 4) / 5) 6 ∧
        (∀ bg ∈ bgs, ThreeDistinctIps bg) ∧
        (CreateVol env w req).2.2.bgp = writeGroups u (w.bgid + 1) bgs w.bgp) ∧
      (∀ i j, bgKey u i = bgKey u j → i = j) ∧
      ∃ V, kvGet u (CreateVol env w req).2.2.vol = some V ∧
        V.AllocatedSize = 5 * min ((req.SpaceQuota + 4) / 5) 6) := by
  have hn := (blkGrpNum_pos req.SpaceQuota hq).1
  have hmain := CreateVol_nofault env w req u hips hu hns hkv hnc hpeers
  refine ⟨hmain.1, ?_⟩
  intro hhang
  obtain ⟨h1, h2, ⟨bgs, hb1, hb2, hb3⟩, h4⟩ := hmain.2 hhang
  refine ⟨h1, by rw [h2], by rw [h2], ⟨bgs, ?_, hb2, hb3⟩, bgKey_injective u, ?_⟩
  · rw [hb1, hn]
    omega
  · refine ⟨_, by rw [h4, kvGet_kvSet, if_pos rfl], ?_⟩
    simp only [hn]
    omega

/-- Witness of C3: a 1 GiB volume on scenario 1 gets one block group. -/
theorem C3_createvol_block_group_count_witness :
    (1 : Int) ≤ 1 ∧ 3 ≤ (eligibleIps (cluster nodesABC [0, 1, 2, 0, 0, 0]) "hdd").length ∧
    (CreateVol envOk (cluster nodesABC [0, 1, 2, 0, 0, 0]) ⟨"v1", 1, "hdd"⟩).1 = Exit.ret ∧
    (∃ bgs : List BGP, (bgs.length : Int) = min (((1 : Int) + 4) / 5) 6 ∧
      (∀ bg ∈ bgs, ThreeDistinctIps bg) ∧
      (CreateVol envOk (cluster nodesABC [0, 1, 2, 0, 0, 0]) ⟨"v1", 1, "hdd"⟩).2.2.bgp =
        writeGroups "v1" (0 + 1) bgs []) ∧
    ∃ V, kvGet "v1" (CreateVol envOk (cluster nodesABC [0, 1, 2, 0, 0, 0]) ⟨"v1", 1, "hdd"⟩).2.2.vol
        = some V ∧ V.AllocatedSize = 5 * min (((1 : Int) + 4) / 5) 6 :=
  have h := (C3_createvol_block_group_count envOk (cluster nodesABC [0, 1, 2, 0, 0, 0])
    ⟨"v1", 1, "hdd"⟩ "v1" (by decide) (by decide) rfl rfl (fun _ => rfl) rfl
    (by simp [envOk])).2 (by decide)
  ⟨by decide, by decide, h.1, h.2.2.2.1, h.2.2.2.2.2⟩

/-! ## C4: quotas above 30 GiB -/

/-- C4, as stated, fails: on scenario 1 a successful `CreateVol` with
`spaceQuota = 31` stores `allocatedSize = 30` and `totalSize = 35`, not 30. -/
theorem C4_totalsize_not_clamped_counterexample :
    (CreateVol envOk (cluster nodesABC (easyDraws 6)) ⟨"v1", 31, "hdd"⟩).1 = Exit.ret ∧
    (CreateVol envOk (cluster nodesABC (easyDraws 6)) ⟨"v1", 31, "hdd"⟩).2.1.Ret = 0 ∧
    ∃ V, kvGet "v1" (CreateVol envOk (cluster nodesABC (easyDraws 6)) ⟨"v1", 31, "hdd"⟩).2.2.vol
        = some V ∧ V.AllocatedSize = 30 ∧ V.TotalSize = 35 ∧ V.TotalSize ≠ 30 := by
  exact ⟨by decide, by decide, Volume.mk "v1" "v1" "hdd" 35 30 1, by decide, by decide,
    by decide, by decide⟩

/-- C4, amended. For a quota `q > 30` that rounds up within `int32`, at least three
eligible IPs and no failing KV or peer operation, a `CreateVol` that does not hang
returns `Ret = 0`, has set exactly 6 block groups and has stored a VOL record
with `allocatedSize = 30` and `totalSize = 5 * ceil (q / 5)`, the quota rounded
up to whole blocks: the cap does not touch `totalSize`, which is at least 35. -/
theorem C4_createvol_above_cap (env : Env) (w : World) (req : CreateVolReq) (u : String)
    (hq : 30 < req.SpaceQuota) (hq32 : req.SpaceQuota + 4 < 2147483648)
    (hips : 3 ≤ (eligibleIps w req.Tier).length)
    (hu : env.uuid = some u) (hns : env.nsRet = 0) (hkv : ∀ n, env.fault n = false)
    (hnc : env.nsCreateRet = 0) (hpeers : ∀ p ∈ env.peers, p = Peer.ack 0)
    (hhang : (CreateVol env w req).1 ≠ Exit.hang) :
    (CreateVol env w req).1 = Exit.ret ∧ (CreateVol env w req).2.1.Ret = 0 ∧
    (∃ bgs : List BGP, bgs.length = 6 ∧
      (CreateVol env w req).2.2.bgp = writeGroups u (w.bgid + 1) bgs w.bgp) ∧
    ∃ V, kvGet u (CreateVol env w req).2.2.vol = some V ∧ V.AllocatedSize = 30 ∧
      V.TotalSize = 5 * ((req.SpaceQuota + 4) / 5) ∧ 35 ≤ V.TotalSize := by
  have hn := blkGrpNum_pos req.SpaceQuota (by omega)
  have h6 : (blkGrpNum req.SpaceQuota).1 = 6 := by
    rw [hn.1]
    omega
  obtain ⟨h1, h2, ⟨bgs, hb1, _, hb3⟩, h4⟩ :=
    (CreateVol_nofault env w req u hips hu hns hkv hnc hpeers).2 hhang
  refine ⟨h1, by rw [h2], ⟨bgs, by rw [hb1, h6]; rfl, hb3⟩, ?_⟩
  refine ⟨_, by rw [h4, kvGet_kvSet, if_pos rfl], ?_, ?_, ?_⟩
  · simp only [h6]
    rfl
  · exact hn.2 hq32
  · simp only [hn.2 hq32]
    omega

/-- Witness of C4, amended: `spaceQuota = 31` on scenario 1. -/
theorem C4_createvol_above_cap_witness :
    (30 : Int) < 31 ∧
    (CreateVol envOk (cluster nodesABC (easyDraws 6)) ⟨"v1", 31, "hdd"⟩).1 = Exit.ret ∧
    ∃ V, kvGet "v1" (CreateVol envOk (cluster nodesABC (easyDraws 6)) ⟨"v1", 31, "hdd"⟩).2.2.vol
        = some V ∧ V.AllocatedSize = 30 ∧ V.TotalSize = 5 * (((31 : Int) + 4) / 5) ∧
        35 ≤ V.TotalSize :=
  have h := C4_createvol_above_cap envOk (cluster nodesABC (easyDraws 6)) ⟨"v1", 31, "hdd"⟩ "v1"
    (by decide) (by decide) (by decide) rfl rfl (fun _ => rfl) rfl (by simp [envOk]) (by decide)
  ⟨by decide, h.1, h.2.2.2⟩

/-! ## C5: `ExpandVolRS` -/

/-- `ExpandVolRS` up to the check of the number of IPs. -/
theorem ExpandVolRS_run (env : Env) (w : World) (volID : String) (volume : Volume)
    (hns : env.nsRet = 0) (hf1 : env.fault w.tick = false)
    (hV : kvGet volID w.vol = some volume)
    (hneed : 0 < wrap32 (volume.TotalSize - volume.AllocatedSize))
    (hf2 : env.fault (w.tick + 1) = false) :
    ExpandVolRS env w volID =
      if (eligibleIps w volume.Tier).length < 3 then
        (Exit.ret, { Ret := -1, BGPS := [] }, { w with tick := w.tick + 2 })
      else
        match placeGroups env volID
            (allIps env (groupNodes (skipCreate volume.Tier) (w.dn.map Prod.snd)))
            (blkGrpNum (wrap32 (volume.TotalSize - volume.AllocatedSize))).1.toNat []
            { w := { w with tick := w.tick + 2 },
              nodes := groupNodes (skipCreate volume.Tier) (w.dn.map Prod.snd) } with
        | Flow.stop a w3 => (a.exit, { Ret := a.ret, BGPS := [] }, w3)
        | Flow.go bgs s =>
          (Exit.ret, { Ret := 1, BGPS := bgs },
            (VOLSet env s.w volID
              { volume with AllocatedSize := wrap32 (volume.AllocatedSize +
                  (blkGrpNum (wrap32 (volume.TotalSize - volume.AllocatedSize))).1 * 5) }).2) := by
  have hneed1 : ¬ wrap32 (volume.TotalSize - volume.AllocatedSize) ≤ 0 := by omega
  unfold ExpandVolRS
  simp only [hns, ne_eq, not_true_eq_false, if_false, VOLGet, hf1, World.step,
    Bool.false_eq_true, hV, hneed1, GetAllDatanode, hf2, allIps_length]

/-- `ExpandVolRS` when no KV operation fails and at least three IPs are eligible. -/
theorem ExpandVolRS_nofault (env : Env) (w : World) (volID : String) (volume : Volume)
    (hns : env.nsRet = 0) (hkv : ∀ n, env.fault n = false)
    (hV : kvGet volID w.vol = some volume)
    (hneed : 0 < wrap32 (volume.TotalSize - volume.AllocatedSize))
    (hips : 3 ≤ (eligibleIps w volume.Tier).length) :
    (∃ draws, (ExpandVolRS env { w with draws := draws } volID).1 ≠ Exit.hang) ∧
    ((ExpandVolRS env w volID).1 ≠ Exit.hang →
      (ExpandVolRS env w volID).1 = Exit.ret ∧ (ExpandVolRS env w volID).2.1.Ret = 1 ∧
      (ExpandVolRS env w volID).2.1.BGPS.length =
        (blkGrpNum (wrap32 (volume.TotalSize - volume.AllocatedSize))).1.toNat ∧
      (∀ bg ∈ (ExpandVolRS env w volID).2.1.BGPS, ThreeDistinctIps bg) ∧
      (ExpandVolRS env w volID).2.2.bgp =
        writeGroups volID (w.bgid + 1) (ExpandVolRS env w volID).2.1.BGPS w.bgp ∧
      (ExpandVolRS env w volID).2.2.vol = kvSet volID
        { volume with AllocatedSize := wrap32 (volume.AllocatedSize +
            (blkGrpNum (wrap32 (volume.TotalSize - volume.AllocatedSize))).1 * 5) } w.vol) := by
  have hlt : ¬ (eligibleIps w volume.Tier).length < 3 := by omega
  have hs := start_ok env (skipCreate volume.Tier) (w.dn.map Prod.snd)
  have h3 : 3 ≤ (allIps env (groupNodes (skipCreate volume.Tier) (w.dn.map Prod.snd))).length := by
    rw [allIps_length]; exact hips
  constructor
  · obtain ⟨n, hn⟩ : ∃ n, n = (blkGrpNum (wrap32 (volume.TotalSize - volume.AllocatedSize))).1.toNat :=
      ⟨_, rfl⟩
    refine ⟨easyDraws n, ?_⟩
    have hrun := ExpandVolRS_run env { w with draws := easyDraws n } volID volume hns (hkv _) hV
      hneed (hkv _)
    obtain ⟨bgs, s1, hgo⟩ := placeGroups_progress env hkv volID _ hs.2 h3 n []
      { w := { w with draws := easyDraws n, tick := w.tick + 2 },
        nodes := groupNodes (skipCreate volume.Tier) (w.dn.map Prod.snd) } []
      (start_ready env _ _) (by simp)
    rw [hrun]
    have hlt1 : ¬ (eligibleIps { w with draws := easyDraws n } volume.Tier).length < 3 := hlt
    rw [if_neg hlt1, ← hn]
    simp only
    rw [hgo]
    simp
  · intro hhang
    have hrun := ExpandVolRS_run env w volID volume hns (hkv _) hV hneed (hkv _)
    rw [if_neg hlt] at hrun
    have hnf := placeGroups_nofault env hkv volID _ hs.2 h3
      (blkGrpNum (wrap32 (volume.TotalSize - volume.AllocatedSize))).1.toNat
      { w := { w with tick := w.tick + 2 },
        nodes := groupNodes (skipCreate volume.Tier) (w.dn.map Prod.snd) } (start_ready env _ _)
    cases hp : placeGroups env volID
        (allIps env (groupNodes (skipCreate volume.Tier) (w.dn.map Prod.snd)))
        (blkGrpNum (wrap32 (volume.TotalSize - volume.AllocatedSize))).1.toNat []
        { w := { w with tick := w.tick + 2 },
          nodes := groupNodes (skipCreate volume.Tier) (w.dn.map Prod.snd) } with
    | stop a w3 =>
      exfalso
      apply hhang
      rw [hrun, hp]
      have := hnf.1 a w3 hp
      subst this
      rfl
    | go bgs s =>
      have hg := hnf.2 bgs s hp
      rw [hrun, hp]
      refine ⟨rfl, rfl, hg.1, hg.2.1, ?_, ?_⟩
      · simp only [VOLSet_bgp]
        rw [hg.2.2.1]
      · simp only [VOLSet_vol, hkv, Bool.false_eq_true, if_false]
        rw [hg.2.2.2.1]

/-- C5. For a stored volume with non-negative `int32` sizes whose `totalSize`
rounds up within `int32`, and `need = totalSize - allocatedSize`:
if `need <= 0`, `ExpandVolRS` returns `Ret = 0` with no block group and changes
nothing in the store; if `need > 0`, no KV operation fails and the call returns
without `Ret = -1`, it returns `Ret = 1` with exactly `min (ceil (need / 5)) 6`
block groups, set under the next IDs of the volume (pairwise distinct keys), and
the stored VOL record has `allocatedSize` increased by five times that number
and nothing else changed; with three eligible IPs there are draws on which the
call does return so. -/
theorem C5_expandvolrs (env : Env) (w : World) (volID : String) (V : Volume)
    (hns : env.nsRet = 0) (hV : kvGet volID w.vol = some V)
    (hA : 0 ≤ V.AllocatedSize ∧ V.AllocatedSize < 2147483648)
    (hT : 0 ≤ V.TotalSize ∧ V.TotalSize + 4 < 2147483648) :
    (V.TotalSize - V.AllocatedSize ≤ 0 → env.fault w.tick = false →
      (ExpandVolRS env w volID).1 = Exit.ret ∧
      (ExpandVolRS env w volID).2.1 = { Ret := 0, BGPS := [] } ∧
      (ExpandVolRS env w volID).2.2.dn = w.dn ∧ (ExpandVolRS env w volID).2.2.vol = w.vol ∧
      (ExpandVolRS env w volID).2.2.bgp = w.bgp ∧ (ExpandVolRS env w volID).2.2.blk = w.blk ∧
      (ExpandVolRS env w volID).2.2.bgid = w.bgid ∧
      (ExpandVolRS env w volID).2.2.blkid = w.blkid) ∧
    (0 < V.TotalSize - V.AllocatedSize → (∀ n, env.fault n = false) →
      ((ExpandVolRS env w volID).1 = Exit.ret → (ExpandVolRS env w volID).2.1.Ret ≠ -1 →
        (ExpandVolRS env w volID).2.1.Ret = 1 ∧
        ((ExpandVolRS env w volID).2.1.BGPS.length : Int) =
          min ((V.TotalSize - V.AllocatedSize + 4) / 5) 6 ∧
        (ExpandVolRS env w volID).2.2.bgp =
          writeGroups volID (w.bgid + 1) (ExpandVolRS env w volID).2.1.BGPS w.bgp ∧
        (∀ i j, bgKey volID i = bgKey volID j → i = j) ∧
        (ExpandVolRS env w volID).2.2.vol = kvSet volID
          { V with AllocatedSize :=
              V.AllocatedSize + 5 * min ((V.TotalSize - V.AllocatedSize + 4) / 5) 6 } w.vol) ∧
      (3 ≤ (eligibleIps w V.Tier).length →
        ∃ draws, (ExpandVolRS env { w with draws := draws } volID).1 = Exit.ret ∧
          (ExpandVolRS env { w with draws := draws } volID).2.1.Ret = 1)) := by
  have hw : wrap32 (V.TotalSize - V.AllocatedSize) = V.TotalSize - V.AllocatedSize := by
    unfold wrap32
    omega
  constructor
  · intro hneed hf1
    have hneed1 : wrap32 (V.TotalSize - V.AllocatedSize) ≤ 0 := by rw [hw]; exact hneed
    simp [ExpandVolRS, hns, VOLGet, hf1, World.step, hV, hneed1]
  · intro hneed hkv
    have hneed1 : 0 < wrap32 (V.TotalSize - V.AllocatedSize) := by rw [hw]; exact hneed
    have hn := (blkGrpNum_pos (V.TotalSize - V.AllocatedSize) (by omega)).1
    have hsum : wrap32 (V.AllocatedSize + (blkGrpNum (V.TotalSize - V.AllocatedSize)).1 * 5) =
        V.AllocatedSize + 5 * min ((V.TotalSize - V.AllocatedSize + 4) / 5) 6 := by
      rw [hn]
      unfold wrap32
      omega
    constructor
    · intro hret hne
      by_cases hips : 3 ≤ (eligibleIps w V.Tier).length
      · have hmain := (ExpandVolRS_nofault env w volID V hns hkv hV hneed1 hips).2
          (by rw [hret]; decide)
        rw [hw] at hmain
        refine ⟨hmain.2.1, ?_, hmain.2.2.2.2.1, bgKey_injective volID, ?_⟩
        · rw [hmain.2.2.1, hn]
          omega
        · rw [hmain.2.2.2.2.2, hsum]
      · exfalso
        apply hne
        rw [ExpandVolRS_run env w volID V hns (hkv _) hV hneed1 (hkv _), if_pos (by omega)]
    · intro hips
      obtain ⟨draws, hd⟩ := (ExpandVolRS_nofault env w volID V hns hkv hV hneed1 hips).1
      have hmain := (ExpandVolRS_nofault env { w with draws := draws } volID V hns hkv hV hneed1
        hips).2 hd
      exact ⟨draws, hmain.1, hmain.2.1⟩

/-- Witness of C5: scenario 4 of the specification.  The first `ExpandVolRS(v1)`
returns `Ret = 1` with two block groups and `allocatedSize = 20`; the second one
returns `Ret = 0` with none. -/
theorem C5_expandvolrs_witness :
    (envOk.nsRet = 0 ∧ kvGet "v1" scenario4.vol = some (volV1 20 10) ∧
      (ExpandVolRS envOk scenario4 "v1").2.1.Ret = 1 ∧
      ((ExpandVolRS envOk scenario4 "v1").2.1.BGPS.length : Int) = min (((20 : Int) - 10 + 4) / 5) 6 ∧
      (ExpandVolRS envOk scenario4 "v1").2.2.vol = kvSet "v1"
        { volV1 20 10 with AllocatedSize := 10 + 5 * min (((20 : Int) - 10 + 4) / 5) 6 }
        scenario4.vol) ∧
    (kvGet "v1" scenario4Expanded.vol = some (volV1 20 20) ∧
      (ExpandVolRS envOk scenario4Expanded "v1").1 = Exit.ret ∧
      (ExpandVolRS envOk scenario4Expanded "v1").2.1 = { Ret := 0, BGPS := [] } ∧
      (ExpandVolRS envOk scenario4Expanded "v1").2.2.bgp = scenario4Expanded.bgp) :=
  have h1 := ((C5_expandvolrs envOk scenario4 "v1" (volV1 20 10) rfl (by decide) (by decide)
    (by decide)).2 (by decide) (fun _ => rfl)).1 (by decide) (by decide)
  have h2 := (C5_expandvolrs envOk scenario4Expanded "v1" (volV1 20 20) rfl (by decide)
    (by decide) (by decide)).1 (by decide) rfl
  ⟨⟨rfl, by decide, h1.1, h1.2.1, h1.2.2.2.2⟩, ⟨by decide, h2.1, h2.2.1, h2.2.2.2.2.1⟩⟩

/-! ## C7: `free` stays non-negative -/

theorem FreeNonneg_kvSet (dn : KV Datanode) (k : String) (v : Datanode) (h : FreeNonneg dn)
    (hv : 0 ≤ v.Free) : FreeNonneg (kvSet k v dn) := by
  intro e he
  rcases (mem_kvSet k v dn e).mp he with h1 | h1
  · subst h1
    exact hv
  · exact h e h1.1

/-- One block of a group: the node debited had 5 GiB above the floor. -/
theorem placeBlock_free (env : Env) (volID : String) (bgID : Nat) (allip : List String)
    (low : Int) (hlow : 0 ≤ low) (i : Nat) (is : List Nat) (s : Alloc)
    (hnd : ((i :: is).map (fun i => allip[i]?)).Nodup)
    (hs : InuseOK (fun _ => True) s.nodes) (hfree : FreeAbove allip low (i :: is) s.nodes) :
    (∀ b s1, placeBlock env volID bgID allip i s = Flow.go b s1 →
      InuseOK (fun _ => True) s1.nodes ∧ FreeAbove allip low is s1.nodes ∧
        (FreeNonneg s.w.dn → FreeNonneg s1.w.dn)) ∧
    (∀ r w, placeBlock env volID bgID allip i s = Flow.stop r w →
      FreeNonneg s.w.dn → FreeNonneg w.dn) := by
  constructor
  · intro b s1 h
    obtain ⟨ipkey, j, node, rest, ds, hip, hgen, hnode, hf1, hf2, hb, hn, hw⟩ :=
      placeBlock_go env volID bgID allip i s b s1 h
    obtain ⟨g, hg, hd⟩ := inuseGet_mem s.nodes ipkey node (List.getElem?_mem hnode)
    have hnodeIp : node.Ip = ipkey := ((hs.2 _ hg).2 node hd).1
    have hnodeFree : low + 5 ≤ node.Free := by
      apply (hfree _ hg node hd).2
      simp only [List.map_cons, List.mem_cons]
      exact Or.inl hip.symm
    have hnotin : some ipkey ∉ is.map (fun i => allip[i]?) := by
      simp only [List.map_cons, List.nodup_cons] at hnd
      rw [← hip]
      exact hnd.1
    refine ⟨?_, ?_, ?_⟩
    · rw [hn]
      exact inuseSet_ok _ _ _ _ _ hs hnodeIp trivial
    · rw [hn]
      intro e he d hd1
      unfold inuseSet at he
      simp only [List.mem_map] at he
      obtain ⟨e0, he0, rfl⟩ := he
      by_cases hk : e0.1 = ipkey
      · simp only [hk, if_true] at hd1 ⊢
        have hlow1 : low ≤ d.Free := by
          rcases List.mem_or_eq_of_mem_set hd1 with h1 | h1
          · exact (hfree e0 he0 d h1).1
          · subst h1
            simp only
            omega
        exact ⟨hlow1, fun hin => absurd hin hnotin⟩
      · simp only [hk, if_false] at hd1 ⊢
        have := hfree e0 he0 d hd1
        refine ⟨this.1, fun hin => this.2 ?_⟩
        simp only [List.map_cons, List.mem_cons]
        exact Or.inr hin
    · intro hdn
      rw [hw, DataNodeSet_dn]
      split
      · exact hdn
      · apply FreeNonneg_kvSet _ _ _ hdn
        simp only
        omega
  · intro r w h hdn
    rw [(placeBlock_stop env volID bgID allip i s r w h).1]
    exact hdn

/-- One block group: every node is debited at most once. -/
theorem placeGroup_free (env : Env) (volID : String) (allip : List String) (hip : allip.Nodup)
    (low : Int) (hlow : 0 ≤ low) (s : Alloc) (hs : InuseOK (fun _ => True) s.nodes)
    (hfree : ∀ e ∈ s.nodes, ∀ d ∈ e.2, low + 5 ≤ d.Free) (hdn : FreeNonneg s.w.dn) :
    (∀ bg s1, placeGroup env volID allip s = Flow.go bg s1 →
      InuseOK (fun _ => True) s1.nodes ∧ (∀ e ∈ s1.nodes, ∀ d ∈ e.2, low ≤ d.Free) ∧
        FreeNonneg s1.w.dn) ∧
    (∀ r w, placeGroup env volID allip s = Flow.stop r w → FreeNonneg w.dn) := by
  have inner : ∀ idxs ds, generateRandomNumber s.w.draws 0 allip.length 3 = some (idxs, ds) →
      (∀ blocks s1, placeBlocks env volID (s.w.bgid + 1) allip idxs [] (groupStart s ds)
          = Flow.go blocks s1 →
        InuseOK (fun _ => True) s1.nodes ∧ (∀ e ∈ s1.nodes, ∀ d ∈ e.2, low ≤ d.Free) ∧
          FreeNonneg s1.w.dn) ∧
      (∀ r w, placeBlocks env volID (s.w.bgid + 1) allip idxs [] (groupStart s ds)
          = Flow.stop r w → FreeNonneg w.dn) := by
    intro idxs ds hgen
    have hidx := generateRandomNumber_spec _ _ _ _ _ _ hgen
    have hnd : (idxs.map (fun i => allip[i]?)).Nodup := by
      apply List.Nodup.map_on _ hidx.1
      intro x hx y _ hxy
      exact List.getElem?_inj (by simpa using hidx.2.2 x hx) hip hxy
    have key := placeBlocks_inv env volID (s.w.bgid + 1) allip
      (fun is _ s1 => (is.map (fun i => allip[i]?)).Nodup ∧ InuseOK (fun _ => True) s1.nodes ∧
        FreeAbove allip low is s1.nodes ∧ FreeNonneg s1.w.dn)
      (fun _ w => FreeNonneg w.dn) ?_ ?_ idxs [] (groupStart s ds)
      ⟨hnd, hs, fun e he d hd => ⟨by have := hfree e he d hd; omega, fun _ => hfree e he d hd⟩,
        hdn⟩
    · refine ⟨?_, key.2⟩
      intro blocks s1 h
      have := key.1 blocks s1 h
      exact ⟨this.2.1, fun e he d hd => (this.2.2.1 e he d hd).1, this.2.2.2⟩
    · intro i is acc s0 b s1 hI h
      have := (placeBlock_free env volID (s.w.bgid + 1) allip low hlow i is s0 hI.1 hI.2.1
        hI.2.2.1).1 b s1 h
      exact ⟨(List.nodup_cons.mp hI.1).2, this.1, this.2.1, this.2.2 hI.2.2.2⟩
    · intro i is acc s0 r w hI h
      exact (placeBlock_free env volID (s.w.bgid + 1) allip low hlow i is s0 hI.1 hI.2.1
        hI.2.2.1).2 r w h hI.2.2.2
  constructor
  · intro bg s1 h
    obtain ⟨idxs, ds, blocks, s0, hf, hgen, hlen, hpb, hf2, rfl, rfl⟩ :=
      placeGroup_go env volID allip s bg s1 h
    exact (inner idxs ds hgen).1 blocks s0 hpb
  · intro r w h
    rcases placeGroup_stop env volID allip s r w h with h1 | ⟨idxs, ds, hgen, _, h2 | ⟨blocks, s0, h3, rfl⟩⟩
    · rw [h1.1]
      exact hdn
    · exact (inner idxs ds hgen).2 r w h2
    · exact ((inner idxs ds hgen).1 blocks s0 h3).2.2

/-- The loop over at most six block groups, started on nodes with `free >= 30`. -/
theorem placeGroups_free (env : Env) (volID : String) (allip : List String) (hip : allip.Nodup)
    (n : Nat) (acc : List BGP) (s : Alloc) (hs : InuseOK (fun _ => True) s.nodes)
    (hfree : ∀ e ∈ s.nodes, ∀ d ∈ e.2, 5 * (n : Int) ≤ d.Free) (hdn : FreeNonneg s.w.dn) :
    FreeNonneg (placeGroups env volID allip n acc s).world.dn := by
  have key := placeGroups_inv env volID allip
    (fun k _ s1 => InuseOK (fun _ => True) s1.nodes ∧
      (∀ e ∈ s1.nodes, ∀ d ∈ e.2, 5 * (k : Int) ≤ d.Free) ∧ FreeNonneg s1.w.dn)
    (fun _ w => FreeNonneg w.dn) ?_ ?_ n acc s ⟨hs, hfree, hdn⟩
  · cases hp : placeGroups env volID allip n acc s with
    | go bgs s1 => exact (key.1 bgs s1 hp).2.2
    | stop r w => exact key.2 r w hp
  · intro k acc0 s0 bg s1 hI h
    exact (placeGroup_free env volID allip hip (5 * (k : Int)) (by omega) s0 hI.1
      (fun e he d hd => by have := hI.2.1 e he d hd; push_cast at this; omega) hI.2.2).1 bg s1 h
  · intro k acc0 s0 r w hI h
    exact (placeGroup_free env volID allip hip (5 * (k : Int)) (by omega) s0 hI.1
      (fun e he d hd => by have := hI.2.1 e he d hd; push_cast at this; omega) hI.2.2).2 r w h

theorem blkGrpNum_le (size : Int) : (blkGrpNum size).1 ≤ 6 := by
  unfold blkGrpNum
  simp only
  split <;> omega

/-- The allocation loop of `CreateVol` and `ExpandVolRS` keeps `free >= 0`. -/
theorem alloc_free (env : Env) (volID : String) (tier : String) (size : Int) (w w2 : World)
    (hw2 : w2.dn = w.dn) (hdn : FreeNonneg w.dn) :
    FreeNonneg (placeGroups env volID
      (allIps env (groupNodes (skipCreate tier) (w.dn.map Prod.snd)))
      (blkGrpNum size).1.toNat []
      { w := w2, nodes := groupNodes (skipCreate tier) (w.dn.map Prod.snd) }).world.dn := by
  have hs := start_ok env (skipCreate tier) (w.dn.map Prod.snd)
  have hg := groupNodes_ok (skipCreate tier) (w.dn.map Prod.snd)
  apply placeGroups_free env volID _ hs.2 _ _ _ hs.1
  · intro e he d hd
    have h1 := ((hg.2 e he).2 d hd).2.2
    simp only [skipCreate, Bool.or_eq_false_iff, decide_eq_false_iff_not, not_lt] at h1
    have h2 := blkGrpNum_le size
    have h3 := h1.1.2
    omega
  · simp only [hw2]
    exact hdn

/-! ## `BeginMigrate` -/

@[simp] theorem copyAndCommit_dn (env : Env) (k : String) (old : Block) (blks : List Block)
    (newBlk : Block) (l : List Block) (w : World) :
    (copyAndCommit env k old blks newBlk l w).2.dn = w.dn := by
  induction l with
  | nil => rfl
  | cons v rest ih =>
    unfold copyAndCommit
    split
    · exact ih
    · split
      · simp only [BGPSet, BlockDel, World.step]
        split <;> split <;> rfl
      · rfl

/-- No healthy surviving replica: nothing is copied and nothing is written. -/
theorem copyAndCommit_unhealthy (env : Env) (k : String) (old : Block) (blks : List Block)
    (newBlk : Block) (l : List Block) (w : World) (h : ∀ b ∈ l, b.Status ≠ 0) :
    copyAndCommit env k old blks newBlk l w = (false, w) := by
  induction l with
  | nil => rfl
  | cons v rest ih =>
    unfold copyAndCommit
    rw [if_pos (h v (by simp))]
    exact ih (fun b hb => h b (by simp [hb]))

/-- The choice of the node needs two draws, and then gives a node of a listed IP. -/
theorem chooseNode_spec (allip : List String) (m : Inuse) (hm : Ready allip m)
    (hlen : 1 ≤ allip.length) (draws : List Nat) :
    (draws.length < 2 ∧ chooseNode allip m draws = Choice.hang) ∨
    ∃ ipkey j node ds, chooseNode allip m draws = Choice.node ipkey j node ds ∧
      ipkey ∈ allip ∧ node ∈ inuseGet m ipkey := by
  unfold chooseNode
  rw [generateRandomNumber_one draws _ hlen]
  cases draws with
  | nil => left; simp
  | cons d ds =>
    have hi : d % allip.length < allip.length := Nat.mod_lt _ hlen
    simp only [List.getElem?_eq_getElem hi]
    have hmem : allip[d % allip.length] ∈ allip := List.getElem_mem hi
    have hgrp := inuseGet_ne_nil allip m _ hm hmem
    rw [generateRandomNumber_one ds _ hgrp]
    cases ds with
    | nil => left; simp
    | cons d1 ds1 =>
      right
      have hj : d1 % (inuseGet m allip[d % allip.length]).length <
          (inuseGet m allip[d % allip.length]).length := Nat.mod_lt _ hgrp
      simp only [List.getElem?_eq_getElem hj]
      exact ⟨_, _, _, _, rfl, hmem, List.getElem_mem hj⟩

/-- The two ways through `BeginMigrate`: it gives up with `-1` before anything is
written (returning, or short of the two draws it needs); or it reserves a block
on a node with `free >= 10` that is healthy, of the tier and not on the IP of the
first surviving replica, and ends with the copy. -/
theorem BeginMigrate_cases (env : Env) (w : World) (blk : Block) (tier : String) :
    ((BeginMigrate env w blk tier).2.1 = -1 ∧
      ((BeginMigrate env w blk tier).1 = Exit.ret ∨
        ((BeginMigrate env w blk tier).1 = Exit.hang ∧ w.draws.length < 2)) ∧
      (BeginMigrate env w blk tier).2.2.dn = w.dn ∧ (BeginMigrate env w blk tier).2.2.vol = w.vol ∧
      (BeginMigrate env w blk tier).2.2.bgp = w.bgp ∧
      (BeginMigrate env w blk tier).2.2.blk = w.blk) ∨
    ∃ tbg b0 b1 node newBlk w5,
      kvGet (bgKey blk.VolID blk.BGID) w.bgp = some tbg ∧ survivors tbg blk = [b0, b1] ∧
      node ∈ w.dn.map Prod.snd ∧ skipMigrate tier b0.Ip node = false ∧
      newBlk.Ip = node.Ip ∧ newBlk.Port = node.Port ∧
      w5.vol = w.vol ∧ w5.bgp = w.bgp ∧
      (w5.dn = w.dn ∨ w5.dn = kvSet (node.Ip ++ ":" ++ fmtInt node.Port)
        { node with Free := node.Free - 5 } w.dn) ∧
      BeginMigrate env w blk tier =
        (Exit.ret,
          if (copyAndCommit env (bgKey blk.VolID blk.BGID) blk [b0, b1] newBlk [b0, b1] w5).1
          then 0 else -1,
          (copyAndCommit env (bgKey blk.VolID blk.BGID) blk [b0, b1] newBlk [b0, b1] w5).2) := by
  unfold BeginMigrate
  by_cases hns : env.nsRet = 0
  swap
  · left; simp [hns]
  simp only [hns, ne_eq, not_true_eq_false, if_false]
  by_cases hf1 : env.fault w.tick = true
  · left; simp [BGPGet, hf1, World.step]
  simp only [Bool.not_eq_true] at hf1
  simp only [BGPGet, hf1, World.step, Bool.false_eq_true, if_false]
  cases hbg : kvGet (bgKey blk.VolID blk.BGID) w.bgp with
  | none => left; simp
  | some tbg =>
    simp only
    split
    swap
    · left; simp
    rename_i b0 b1 hblks
    by_cases hf2 : env.fault (w.tick + 1) = true
    · left; simp [GetAllDatanode, hf2, World.step]
    simp only [Bool.not_eq_true] at hf2
    simp only [GetAllDatanode, hf2, World.step, Bool.false_eq_true, if_false]
    have hg := groupNodes_ok (skipMigrate tier b0.Ip) (w.dn.map Prod.snd)
    have hready := start_ready env (skipMigrate tier b0.Ip) (w.dn.map Prod.snd)
    split
    · left; simp
    rename_i hlen
    rcases chooseNode_spec _ _ hready (by omega) w.draws with ⟨hd, hc⟩ | ⟨ipkey, j, node, ds, hc, _, hnin⟩
    · left
      simp [hc, hd]
    · simp only [hc]
      obtain ⟨g, hgm, hnin1⟩ := inuseGet_mem _ _ _ hnin
      have hnode := (hg.2 _ hgm).2 _ hnin1
      cases hset : BlockSet env (AllocateBlockID env { w with tick := w.tick + 1 + 1, draws := ds }).2
        (blkKey node.Ip node.Port
          ((AllocateBlockID env { w with tick := w.tick + 1 + 1, draws := ds }).1.getD 0))
        { BlkID := (AllocateBlockID env { w with tick := w.tick + 1 + 1, draws := ds }).1.getD 0,
          Ip := node.Ip, Port := node.Port, Path := node.MountPoint, Status := node.Status,
          BGID := blk.BGID, VolID := blk.VolID } with
      | mk ok w4 =>
        have hw4 : w4.dn = w.dn ∧ w4.vol = w.vol ∧ w4.bgp = w.bgp ∧ (ok = false → w4.blk = w.blk) := by
          simp only [BlockSet, AllocateBlockID, World.step] at hset
          split at hset <;> split at hset <;>
            simp only [Prod.mk.injEq] at hset <;> obtain ⟨rfl, rfl⟩ := hset <;> simp
        cases ok with
        | false =>
          left
          simp only [hset]
          exact ⟨trivial, Or.inl trivial, hw4.1, hw4.2.1, hw4.2.2.1, hw4.2.2.2 rfl⟩
        | true =>
          right
          simp only [hset]
          refine ⟨tbg, b0, b1, node,
            { BlkID := (AllocateBlockID env { w with tick := w.tick + 1 + 1, draws := ds }).1.getD 0,
              Ip := node.Ip, Port := node.Port, Path := node.MountPoint, Status := node.Status,
              BGID := blk.BGID, VolID := blk.VolID },
            (DataNodeSet env w4 (ipkey ++ ":" ++ fmtInt node.Port)
              { node with Free := node.Free - 5 }).2,
            rfl, hblks, hnode.2.1, hnode.2.2, rfl, rfl, ?_, ?_, ?_, ?_⟩
          · rw [DataNodeSet_vol]; exact hw4.2.1
          · rw [DataNodeSet_bgp]; exact hw4.2.2.1
          · rw [DataNodeSet_dn, hw4.1, hnode.1]
            split
            · exact Or.inl rfl
            · exact Or.inr rfl
          · split <;> rename_i heq <;> rw [hblks] at heq <;> simp [heq]

/-- C7. If every stored data node has `free >= 0`, then so it is after any
`CreateVol`, `ExpandVolRS` or `BeginMigrate` call: whatever the request, the
random draws, the map order and the faults, and wherever the call stops. -/
theorem C7_free_stays_nonneg (env : Env) (w : World) (req : CreateVolReq) (volID : String)
    (blk : Block) (tier : String) (h : FreeNonneg w.dn) :
    FreeNonneg (CreateVol env w req).2.2.dn ∧ FreeNonneg (ExpandVolRS env w volID).2.2.dn ∧
      FreeNonneg (BeginMigrate env w blk tier).2.2.dn := by
  refine ⟨?_, ?_, ?_⟩
  · rcases CreateVol_cases env w req with h1 | ⟨u, _, _, _, _, _, h1⟩
    · rw [h1.1]
      exact h
    · have hp := alloc_free env u req.Tier req.SpaceQuota w
        { w with tick := w.tick + 2, rgid := w.rgid + 1 } rfl h
      rcases h1 with ⟨a, w3, h2, h3⟩ | ⟨bgs, s, h2, h3, _⟩
      · rw [h3]
        rw [h2] at hp
        exact hp
      · rw [h3, VOLSet_dn]
        rw [h2] at hp
        exact hp
  · rcases ExpandVolRS_cases env w volID with h1 | ⟨volume, _, _, _, _, _, _, h1⟩
    · rw [h1.1]
      exact h
    · have hp := alloc_free env volID volume.Tier
        (wrap32 (volume.TotalSize - volume.AllocatedSize)) w { w with tick := w.tick + 2 } rfl h
      rcases h1 with ⟨a, w3, h2, h3⟩ | ⟨bgs, s, h2, h3⟩
      · rw [h3]
        rw [h2] at hp
        exact hp
      · rw [h3]
        simp only [VOLSet_dn]
        rw [h2] at hp
        exact hp
  · rcases BeginMigrate_cases env w blk tier with h1 | ⟨tbg, b0, b1, node, newBlk, w5, _, _, _, hskip, _, _, _, _, hdn, heq⟩
    · rw [h1.2.2.1]
      exact h
    · rw [heq]
      simp only [copyAndCommit_dn]
      rcases hdn with hdn | hdn
      · rw [hdn]
        exact h
      · rw [hdn]
        apply FreeNonneg_kvSet _ _ _ h
        simp only [skipMigrate, Bool.or_eq_false_iff, decide_eq_false_iff_not, not_lt] at hskip
        have := hskip.1.1.2
        simp only
        omega

/-- Witness of C7: scenario 4 (after `ExpandVolTS`), on which the three calls
debit data nodes. -/
theorem C7_free_stays_nonneg_witness :
    FreeNonneg scenario4.dn ∧
    (FreeNonneg (CreateVol envOk scenario4 ⟨"v1", 10, "hdd"⟩).2.2.dn ∧
      FreeNonneg (ExpandVolRS envOk scenario4 "v1").2.2.dn ∧
      FreeNonneg (BeginMigrate envOk scenario4 (blockV1 1 "a" 1) "hdd").2.2.dn) :=
  have h : FreeNonneg scenario4.dn := by
    unfold FreeNonneg
    decide
  ⟨h, C7_free_stays_nonneg envOk scenario4 ⟨"v1", 10, "hdd"⟩ "v1" (blockV1 1 "a" 1) "hdd" h⟩

/-! ## C9, C10: the replicas around a migration step -/

/-- C9 evaluated on scenario 6 of the specification.  Migrating the block of the
first group off `a:1`: on the draws 1, 0 `BeginMigrate` returns 0 and the
rewritten group sits on the IPs b, c, c; on the draws 0, 0 it returns 0 and the
new block is on `a:1` itself. -/
theorem C9_beginmigrate_same_ip_evaluation :
    kvGet "v1-1" (scenario6 [1, 0]).bgp
      = some { Blocks := [blockV1 1 "a" 1, blockV1 2 "b" 1, blockV1 3 "c" 1] } ∧
    (BeginMigrate envOk (scenario6 [1, 0]) (blockV1 1 "a" 1) "hdd").1 = Exit.ret ∧
    (BeginMigrate envOk (scenario6 [1, 0]) (blockV1 1 "a" 1) "hdd").2.1 = 0 ∧
    kvGet "v1-1" (BeginMigrate envOk (scenario6 [1, 0]) (blockV1 1 "a" 1) "hdd").2.2.bgp
      = some { Blocks := [blockV1 2 "b" 1, blockV1 3 "c" 1, blockV1 7 "c" 1] } ∧
    (BeginMigrate envOk (scenario6 [0, 0]) (blockV1 1 "a" 1) "hdd").2.1 = 0 ∧
    kvGet "v1-1" (BeginMigrate envOk (scenario6 [0, 0]) (blockV1 1 "a" 1) "hdd").2.2.bgp
      = some { Blocks := [blockV1 2 "b" 1, blockV1 3 "c" 1, blockV1 7 "a" 1] } := by
  refine ⟨by decide, by decide, by decide, by decide, by decide, by decide⟩

/-- C10, as stated, fails: on scenario 6 with the replica on `b:1` marked bad, the
group of the block on `a:1` has two other blocks of which only one is healthy,
and `BeginMigrate` returns 0. -/
theorem C10_one_healthy_survivor_counterexample :
    kvGet "v1-1" (scenario6Degraded 1 0 [2, 0]).bgp = some (groupV1 1 0) ∧
    (survivors (groupV1 1 0) (blockV1 1 "a" 1)).map Block.Status = [1, 0] ∧
    (BeginMigrate envOk (scenario6Degraded 1 0 [2, 0]) (blockV1 1 "a" 1) "hdd").1 = Exit.ret ∧
    (BeginMigrate envOk (scenario6Degraded 1 0 [2, 0]) (blockV1 1 "a" 1) "hdd").2.1 = 0 := by
  refine ⟨by decide, by decide, by decide, by decide⟩

/-- C10, amended. If the block group of `blk` is missing, or does not contain
exactly 2 blocks other than `blk`, or none of these has `status == 0`, then
`BeginMigrate` gives -1: it returns it when two draws are available, and it
has nothing else to give when they are not. -/
theorem C10_beginmigrate_needs_healthy_survivor (env : Env) (w : World) (blk : Block)
    (tier : String)
    (h : ∀ tbg, kvGet (bgKey blk.VolID blk.BGID) w.bgp = some tbg →
      (survivors tbg blk).length ≠ 2 ∨ ∀ b ∈ survivors tbg blk, b.Status ≠ 0) :
    (BeginMigrate env w blk tier).2.1 = -1 ∧
      (2 ≤ w.draws.length → (BeginMigrate env w blk tier).1 = Exit.ret) := by
  rcases BeginMigrate_cases env w blk tier with h1 | ⟨tbg, b0, b1, node, newBlk, w5, hbg, hs, _, _, _, _, _, _, _, heq⟩
  · refine ⟨h1.1, ?_⟩
    intro hd
    rcases h1.2.1 with h2 | h2
    · exact h2
    · omega
  · rcases h tbg hbg with h2 | h2
    · rw [hs] at h2
      exact absurd rfl h2
    · rw [hs] at h2
      rw [heq, copyAndCommit_unhealthy env _ blk [b0, b1] newBlk [b0, b1] w5 h2]
      simp

/-- Witness of C10, amended: on scenario 6 with both surviving replicas of the
first group marked bad, `BeginMigrate` returns -1. -/
theorem C10_beginmigrate_needs_healthy_survivor_witness :
    (∀ tbg, kvGet (bgKey (blockV1 1 "a" 1).VolID (blockV1 1 "a" 1).BGID)
        (scenario6Degraded 1 1 [2, 0]).bgp = some tbg →
      (survivors tbg (blockV1 1 "a" 1)).length ≠ 2 ∨
        ∀ b ∈ survivors tbg (blockV1 1 "a" 1), b.Status ≠ 0) ∧
    ((BeginMigrate envOk (scenario6Degraded 1 1 [2, 0]) (blockV1 1 "a" 1) "hdd").2.1 = -1 ∧
      (2 ≤ (scenario6Degraded 1 1 [2, 0]).draws.length →
        (BeginMigrate envOk (scenario6Degraded 1 1 [2, 0]) (blockV1 1 "a" 1) "hdd").1 = Exit.ret)) :=
  have h : ∀ tbg, kvGet (bgKey (blockV1 1 "a" 1).VolID (blockV1 1 "a" 1).BGID)
        (scenario6Degraded 1 1 [2, 0]).bgp = some tbg →
      (survivors tbg (blockV1 1 "a" 1)).length ≠ 2 ∨
        ∀ b ∈ survivors tbg (blockV1 1 "a" 1), b.Status ≠ 0 := by
    intro tbg htbg
    have hk : kvGet (bgKey (blockV1 1 "a" 1).VolID (blockV1 1 "a" 1).BGID)
        (scenario6Degraded 1 1 [2, 0]).bgp = some (groupV1 1 1) := by decide
    rw [hk] at htbg
    simp only [Option.some.injEq] at htbg
    subst htbg
    right
    decide
  ⟨h, C10_beginmigrate_needs_healthy_survivor envOk (scenario6Degraded 1 1 [2, 0])
    (blockV1 1 "a" 1) "hdd" h⟩

/-! ## C8: `allocatedSize` and the number of block groups -/

theorem kvIns_perm {V : Type} (k : String) (v : V) (m : KV V) :
    (kvIns k v m).Perm ((k, v) :: m) := by
  induction m with
  | nil => simp [kvIns]
  | cons hd tl ih =>
    obtain ⟨k1, v1⟩ := hd
    unfold kvIns
    split
    · exact List.Perm.refl _
    · exact (ih.cons _).trans (List.Perm.swap _ _ _)

theorem kvDel_eq_self {V : Type} (k : String) (m : KV V) (h : ∀ e ∈ m, e.1 ≠ k) :
    kvDel k m = m := by
  unfold kvDel
  rw [List.filter_eq_self]
  intro e he
  simpa using h e he

/-- Setting a key that is not stored adds one entry to the ranges it belongs to. -/
theorem kvRange_kvSet_length {V : Type} (p k : String) (v : V) (m : KV V)
    (h : ∀ e ∈ m, e.1 ≠ k) :
    (kvRange p (kvSet k v m)).length =
      (kvRange p m).length + (if p.data.isPrefixOf k.data then 1 else 0) := by
  unfold kvSet
  rw [kvDel_eq_self k m h]
  unfold kvRange
  rw [((kvIns_perm k v m).filter _).length_eq, List.filter_cons]
  split <;> simp

theorem eq_of_prefix_of_prefix (a b : List Char) (h1 : a <+: b) (h2 : b <+: a) : a = b := by
  obtain ⟨t, rfl⟩ := h1
  obtain ⟨s, hs⟩ := h2
  have hlen := congrArg List.length hs
  simp only [List.length_append] at hlen
  have ht : t = [] := List.length_eq_zero.mp (by omega)
  simp [ht]

theorem bgKey_data (v : String) (id : Nat) :
    (bgKey v id).data = v.data ++ ('-' :: (fmtNat id).data) := by
  simp [bgKey, String.data_append]

/-- A UUID that begins a block-group key begins or continues the UUID of the key. -/
theorem begins_bgKey (u v : String) (id : Nat) (h : u.data.isPrefixOf (bgKey v id).data = true) :
    u.data <+: v.data ∨ v.data <+: u.data := by
  rw [List.isPrefixOf_iff_prefix, bgKey_data] at h
  exact List.prefix_or_prefix_of_prefix h (List.prefix_append _ _)

theorem begins_own_bgKey (u : String) (id : Nat) : u.data.isPrefixOf (bgKey u id).data = true := by
  rw [List.isPrefixOf_iff_prefix, bgKey_data]
  exact List.prefix_append _ _

theorem apart_irrefl (u : String) : ¬ Apart u u := fun h => h.1 (List.prefix_refl _)

/-- The key of a block group of `vol` is not the key of a group of a UUID apart
from `vol`, nor of a group of `vol` with another ID. -/
theorem bgKey_eq (v vol : String) (i id : Nat) (hv : v = vol ∨ Apart v vol)
    (h : bgKey v i = bgKey vol id) : v = vol ∧ i = id := by
  have h1 : v.data.isPrefixOf (bgKey vol id).data = true := by
    rw [← h]
    exact begins_own_bgKey v i
  rcases hv with hv | hv
  · subst hv
    exact ⟨rfl, bgKey_injective v i id h⟩
  · rcases begins_bgKey v vol id h1 with h2 | h2
    · exact absurd h2 hv.1
    · exact absurd h2 hv.2

/-- The block groups set by an allocation loop count under their own volume only. -/
theorem kvRange_writeGroups (u vol : String) (hu : u = vol ∨ Apart u vol) :
    ∀ (bgs : List BGP) (id : Nat) (m : KV BGP),
      (∀ e ∈ m, ∃ v i, (v = vol ∨ Apart v vol) ∧ e.1 = bgKey v i ∧ i < id) →
      (kvRange u (writeGroups vol id bgs m)).length =
        (kvRange u m).length + (if u = vol then bgs.length else 0) := by
  intro bgs
  induction bgs with
  | nil =>
    intro id m _
    simp [writeGroups]
  | cons bg rest ih =>
    intro id m hm
    have hnew : ∀ e ∈ m, e.1 ≠ bgKey vol id := by
      intro e he heq
      obtain ⟨v, i, hv, hk, hi⟩ := hm e he
      rw [hk] at heq
      have := (bgKey_eq v vol i id hv heq).2
      omega
    simp only [writeGroups]
    rw [ih (id + 1) _ ?_, kvRange_kvSet_length u _ bg m hnew]
    · by_cases huv : u = vol
      · subst huv
        simp only [begins_own_bgKey, if_true, List.length_cons]
        omega
      · have hap : Apart u vol := hu.resolve_left huv
        have hnot : ¬ u.data.isPrefixOf (bgKey vol id).data = true := by
          intro hp
          rcases begins_bgKey u vol id hp with h2 | h2
          · exact hap.1 h2
          · exact hap.2 h2
        simp [huv, hnot]
    · intro e he
      rcases (mem_kvSet _ _ _ _).mp he with h1 | h1
      · subst h1
        exact ⟨vol, id, Or.inl rfl, rfl, by omega⟩
      · obtain ⟨v, i, hv, hk, hi⟩ := hm e h1.1
        exact ⟨v, i, hv, hk, by omega⟩

theorem mem_writeGroups (vol : String) :
    ∀ (bgs : List BGP) (id : Nat) (m : KV BGP) (e : String × BGP),
      e ∈ writeGroups vol id bgs m → e ∈ m ∨ ∃ i, i < id + bgs.length ∧ e.1 = bgKey vol i := by
  intro bgs
  induction bgs with
  | nil =>
    intro id m e he
    exact Or.inl he
  | cons bg rest ih =>
    intro id m e he
    simp only [writeGroups] at he
    rcases ih (id + 1) _ e he with h1 | ⟨i, hi, hk⟩
    · rcases (mem_kvSet _ _ _ _).mp h1 with h2 | h2
      · subst h2
        exact Or.inr ⟨id, by simp, rfl⟩
      · exact Or.inl h2.1
    · exact Or.inr ⟨i, by simp only [List.length_cons]; omega, hk⟩

@[simp] theorem VOLSet_bgid (env : Env) (w : World) (k : String) (v : Volume) :
    (VOLSet env w k v).2.bgid = w.bgid := by
  unfold VOLSet; split <;> rfl

/-- A `CreateVol` that returns `Ret = 0` when no KV operation fails. -/
theorem CreateVol_success (env : Env) (w : World) (req : CreateVolReq)
    (hkv : ∀ n, env.fault n = false) (hret : (CreateVol env w req).1 = Exit.ret)
    (hRet : (CreateVol env w req).2.1.Ret = 0) :
    ∃ u bgs, env.uuid = some u ∧ bgs.length = (blkGrpNum req.SpaceQuota).1.toNat ∧
      (CreateVol env w req).2.2.bgp = writeGroups u (w.bgid + 1) bgs w.bgp ∧
      (CreateVol env w req).2.2.vol = kvSet u
        { UUID := u, Name := req.VolName, Tier := req.Tier,
          TotalSize := (blkGrpNum req.SpaceQuota).2,
          AllocatedSize := (blkGrpNum req.SpaceQuota).1 * 5, RGID := w.rgid + 1 } w.vol ∧
      (CreateVol env w req).2.2.bgid = w.bgid + bgs.length := by
  rcases CreateVol_cases env w req with h | ⟨u, hu, _, _, _, h3, h⟩
  · exact absurd hRet (h.2.2.2.2 hret)
  · have hs := start_ok env (skipCreate req.Tier) (w.dn.map Prod.snd)
    have hnf := placeGroups_nofault env hkv u _ hs.2 h3 (blkGrpNum req.SpaceQuota).1.toNat
      { w := { w with tick := w.tick + 2, rgid := w.rgid + 1 },
        nodes := groupNodes (skipCreate req.Tier) (w.dn.map Prod.snd) } (start_ready env _ _)
    rcases h with ⟨a, w3, h1, h2⟩ | ⟨bgs, s, h1, h2, _⟩
    · rw [h2] at hret hRet
      cases a <;> simp [Abort.exit, Abort.ret] at hret hRet
    · have hg := hnf.2 bgs s h1
      refine ⟨u, bgs, hu, hg.1, ?_, ?_, ?_⟩
      · rw [h2, VOLSet_bgp, hg.2.2.1]
      · rw [h2, VOLSet_vol]
        simp only [hkv, Bool.false_eq_true, if_false]
        rw [hg.2.2.2.1]
      · rw [h2, VOLSet_bgid, hg.2.2.2.2.1, hg.1]

/-- An `ExpandVolRS` that returns `Ret = 0` or `Ret = 1` when no KV operation
fails: nothing to do, or the block groups and the new `allocatedSize`. -/
theorem ExpandVolRS_success (env : Env) (w : World) (volID : String)
    (hkv : ∀ n, env.fault n = false) (hret : (ExpandVolRS env w volID).1 = Exit.ret)
    (hRet : (ExpandVolRS env w volID).2.1.Ret = 0 ∨ (ExpandVolRS env w volID).2.1.Ret = 1) :
    ((ExpandVolRS env w volID).2.2.vol = w.vol ∧ (ExpandVolRS env w volID).2.2.bgp = w.bgp ∧
      (ExpandVolRS env w volID).2.2.bgid = w.bgid) ∨
    ∃ V bgs, kvGet volID w.vol = some V ∧ 0 < wrap32 (V.TotalSize - V.AllocatedSize) ∧
      bgs.length = (blkGrpNum (wrap32 (V.TotalSize - V.AllocatedSize))).1.toNat ∧
      (ExpandVolRS env w volID).2.2.bgp = writeGroups volID (w.bgid + 1) bgs w.bgp ∧
      (ExpandVolRS env w volID).2.2.vol = kvSet volID
        { V with AllocatedSize := wrap32 (V.AllocatedSize +
            (blkGrpNum (wrap32 (V.TotalSize - V.AllocatedSize))).1 * 5) } w.vol ∧
      (ExpandVolRS env w volID).2.2.bgid = w.bgid + bgs.length := by
  rcases ExpandVolRS_cases env w volID with h | ⟨V, _, _, hV, hneed, _, h3, h⟩
  · exact Or.inl ⟨h.2.1, h.2.2.1, h.2.2.2.2.2⟩
  · have hs := start_ok env (skipCreate V.Tier) (w.dn.map Prod.snd)
    have hnf := placeGroups_nofault env hkv volID _ hs.2 h3
      (blkGrpNum (wrap32 (V.TotalSize - V.AllocatedSize))).1.toNat
      { w := { w with tick := w.tick + 2 },
        nodes := groupNodes (skipCreate V.Tier) (w.dn.map Prod.snd) } (start_ready env _ _)
    rcases h with ⟨a, w3, h1, h2⟩ | ⟨bgs, s, h1, h2⟩
    · rw [h2] at hret hRet
      cases a <;> simp [Abort.exit, Abort.ret] at hret hRet
    · have hg := hnf.2 bgs s h1
      right
      refine ⟨V, bgs, hV, hneed, hg.1, ?_, ?_, ?_⟩
      · rw [h2]
        simp only [VOLSet_bgp]
        rw [hg.2.2.1]
      · rw [h2]
        simp only [VOLSet_vol, hkv, Bool.false_eq_true, if_false]
        rw [hg.2.2.2.1]
      · rw [h2]
        simp only [VOLSet_bgid]
        rw [hg.2.2.2.2.1, hg.1]

/-- An `ExpandVolTS` that returns `Ret = 0`. -/
theorem ExpandVolTS_success (env : Env) (w : World) (volID : String) (quota : Int)
    (hret : (ExpandVolTS env w volID quota).1 = Exit.ret)
    (hRet : (ExpandVolTS env w volID quota).2.1 = 0) :
    ∃ V, kvGet volID w.vol = some V ∧
      (ExpandVolTS env w volID quota).2.2.vol = kvSet volID
        { V with TotalSize := wrap32 (V.TotalSize +
            (if quota.tmod BlkSizeG ≠ 0 then wrap32 ((quota.tdiv BlkSizeG + 1) * BlkSizeG)
              else quota)) } w.vol ∧
      (ExpandVolTS env w volID quota).2.2.bgp = w.bgp ∧
      (ExpandVolTS env w volID quota).2.2.bgid = w.bgid := by
  unfold ExpandVolTS at hret hRet ⊢
  by_cases hns : env.nsRet = 0
  swap
  · simp [hns] at hRet
  simp only [hns, ne_eq, not_true_eq_false, if_false] at hret hRet ⊢
  by_cases hf1 : env.fault w.tick = true
  · simp [VOLGet, hf1] at hret
  simp only [Bool.not_eq_true] at hf1
  simp only [VOLGet, hf1, World.step, Bool.false_eq_true, if_false] at hret hRet ⊢
  cases hV : kvGet volID w.vol with
  | none => simp [hV] at hret
  | some V =>
    simp only [hV] at hret hRet ⊢
    by_cases hf2 : env.fault (w.tick + 1) = true
    · simp [VOLSet, hf2, World.step] at hret
    simp only [Bool.not_eq_true] at hf2
    simp only [VOLSet, hf2, World.step, Bool.false_eq_true, if_false]
    exact ⟨V, rfl, rfl, trivial, trivial⟩

theorem Inv_congr (w w1 : World) (hvol : w1.vol = w.vol) (hbgp : w1.bgp = w.bgp)
    (hbgid : w1.bgid = w.bgid) (h : Inv w) : Inv w1 := by
  unfold Inv at h ⊢
  rw [hvol, hbgp, hbgid]
  exact h

/-- Under the invariant, the UUID of a stored block-group key is the given stored
UUID or apart from it. -/
theorem Inv_keys (w : World) (h : Inv w) (vol : String) (hvol : kvGet vol w.vol ≠ none)
    (bound : Nat) (hb : w.bgid < bound) :
    ∀ e ∈ w.bgp, ∃ v i, (v = vol ∨ Apart v vol) ∧ e.1 = bgKey v i ∧ i < bound := by
  intro e he
  obtain ⟨v, i, hv, hk, hi⟩ := h.2.2 e he
  refine ⟨v, i, ?_, hk, by omega⟩
  by_cases hvv : v = vol
  · exact Or.inl hvv
  · right
    exact ⟨fun hp => hvv (h.2.1 v vol hv hvol hp), fun hp => hvv (h.2.1 vol v hvol hv hp).symm⟩

/-- The invariant after the record of a stored volume is replaced and block groups
are set for it, `allocatedSize` growing by 5 for each. -/
theorem Inv_expand (w w1 : World) (h : Inv w) (vol : String) (V V1 : Volume) (bgs : List BGP)
    (hV : kvGet vol w.vol = some V) (hvol : w1.vol = kvSet vol V1 w.vol)
    (hbgp : w1.bgp = writeGroups vol (w.bgid + 1) bgs w.bgp)
    (hbgid : w1.bgid = w.bgid + bgs.length)
    (hA : V1.AllocatedSize = V.AllocatedSize + 5 * (bgs.length : Int))
    (hT : V1.AllocatedSize ≤ V1.TotalSize + 4 ∧ V1.TotalSize + 4 < 2147483648) : Inv w1 := by
  have hstored : kvGet vol w.vol ≠ none := by rw [hV]; simp
  have hkeys : ∀ u, kvGet u w1.vol ≠ none ↔ kvGet u w.vol ≠ none := by
    intro u
    rw [hvol, kvGet_kvSet]
    by_cases hu : u = vol
    · subst hu
      simp [hV]
    · simp [hu]
  have hm := Inv_keys w h vol hstored (w.bgid + 1) (by omega)
  refine ⟨?_, ?_, ?_⟩
  · intro u V0 hu
    rw [hvol, kvGet_kvSet] at hu
    by_cases huv : u = vol
    · subst huv
      simp only [if_true, Option.some.injEq] at hu
      subst hu
      refine ⟨hT.1, hT.2, ?_⟩
      rw [hbgp, kvRange_writeGroups u u (Or.inl rfl) bgs _ _ hm, hA, (h.1 u V hV).2.2]
      simp only [if_true]
      push_cast
      ring
    · simp only [huv, if_false] at hu
      have hold := h.1 u V0 hu
      refine ⟨hold.1, hold.2.1, ?_⟩
      have hap : Apart u vol := by
        have hu1 : kvGet u w.vol ≠ none := by rw [hu]; simp
        exact ⟨fun hp => huv (h.2.1 u vol hu1 hstored hp),
          fun hp => huv (h.2.1 vol u hstored hu1 hp).symm⟩
      rw [hbgp, kvRange_writeGroups u vol (Or.inr hap) bgs _ _ hm, hold.2.2]
      simp [huv]
  · intro u v hu hv hp
    exact h.2.1 u v ((hkeys u).mp hu) ((hkeys v).mp hv) hp
  · intro e he
    rw [hbgp] at he
    rcases mem_writeGroups vol bgs _ _ e he with h1 | ⟨i, hi, hk⟩
    · obtain ⟨v, i, hv, hk, hi⟩ := h.2.2 e h1
      exact ⟨v, i, (hkeys v).mpr hv, hk, by omega⟩
    · exact ⟨vol, i, (hkeys vol).mpr hstored, hk, by omega⟩

/-- The invariant after a volume with a fresh UUID is stored with its block groups. -/
theorem Inv_create (w w1 : World) (h : Inv w) (u : String) (V1 : Volume) (bgs : List BGP)
    (hfresh : ∀ e ∈ w.vol, Apart u e.1) (hvol : w1.vol = kvSet u V1 w.vol)
    (hbgp : w1.bgp = writeGroups u (w.bgid + 1) bgs w.bgp)
    (hbgid : w1.bgid = w.bgid + bgs.length)
    (hA : V1.AllocatedSize = 5 * (bgs.length : Int))
    (hT : V1.AllocatedSize ≤ V1.TotalSize + 4 ∧ V1.TotalSize + 4 < 2147483648) : Inv w1 := by
  have hap : ∀ v, kvGet v w.vol ≠ none → Apart u v := by
    intro v hv
    cases hg : kvGet v w.vol with
    | none => exact absurd hg hv
    | some V0 => exact hfresh _ (kvGet_mem v w.vol V0 hg)
  have hnew : kvGet u w.vol = none := by
    by_contra hne
    exact apart_irrefl u (hap u hne)
  have hm : ∀ e ∈ w.bgp, ∃ v i, (v = u ∨ Apart v u) ∧ e.1 = bgKey v i ∧ i < w.bgid + 1 := by
    intro e he
    obtain ⟨v, i, hv, hk, hi⟩ := h.2.2 e he
    exact ⟨v, i, Or.inr ⟨(hap v hv).2, (hap v hv).1⟩, hk, by omega⟩
  have hzero : (kvRange u w.bgp).length = 0 := by
    rw [List.length_eq_zero]
    unfold kvRange
    rw [List.filter_eq_nil_iff]
    intro e he hp
    obtain ⟨v, i, hv, hk, hi⟩ := h.2.2 e he
    rw [hk] at hp
    rcases begins_bgKey u v i hp with h2 | h2
    · exact (hap v hv).1 h2
    · exact (hap v hv).2 h2
  refine ⟨?_, ?_, ?_⟩
  · intro u0 V0 hu
    rw [hvol, kvGet_kvSet] at hu
    by_cases huv : u0 = u
    · subst huv
      simp only [if_true, Option.some.injEq] at hu
      subst hu
      refine ⟨hT.1, hT.2, ?_⟩
      rw [hbgp, kvRange_writeGroups u0 u0 (Or.inl rfl) bgs _ _ hm, hA, hzero]
      simp
    · simp only [huv, if_false] at hu
      have hold := h.1 u0 V0 hu
      refine ⟨hold.1, hold.2.1, ?_⟩
      have hu1 : kvGet u0 w.vol ≠ none := by rw [hu]; simp
      have hap0 : Apart u0 u := ⟨(hap u0 hu1).2, (hap u0 hu1).1⟩
      rw [hbgp, kvRange_writeGroups u0 u (Or.inr hap0) bgs _ _ hm, hold.2.2]
      simp [huv]
  · intro a b ha hb hp
    rw [hvol, kvGet_kvSet] at ha hb
    by_cases hau : a = u
    · by_cases hbu : b = u
      · rw [hau, hbu]
      · simp only [hbu, if_false] at hb
        subst hau
        exact absurd hp (hap b hb).1
    · simp only [hau, if_false] at ha
      by_cases hbu : b = u
      · subst hbu
        exact absurd hp (hap a ha).2
      · simp only [hbu, if_false] at hb
        exact h.2.1 a b ha hb hp
  · intro e he
    rw [hbgp] at he
    have hk1 : ∀ v, kvGet v w.vol ≠ none → kvGet v w1.vol ≠ none := by
      intro v hv
      rw [hvol, kvGet_kvSet]
      split
      · simp
      · exact hv
    rcases mem_writeGroups u bgs _ _ e he with h1 | ⟨i, hi, hk⟩
    · obtain ⟨v, i, hv, hk, hi⟩ := h.2.2 e h1
      exact ⟨v, i, hk1 v hv, hk, by omega⟩
    · refine ⟨u, i, ?_, hk, by omega⟩
      rw [hvol, kvGet_kvSet]
      simp

/-- The number of block groups and the rounded size for a non-negative size. -/
theorem blkGrpNum_nonneg (q : Int) (h : 0 ≤ q) :
    (blkGrpNum q).1 = min ((q + 4) / 5) 6 ∧
      (q + 4 < 2147483648 → (blkGrpNum q).2 = 5 * ((q + 4) / 5)) := by
  have h1 : q.tdiv 5 = q / 5 := Int.tdiv_eq_ediv (by omega) (by omega)
  have h2 : q.tmod 5 = q % 5 := Int.tmod_eq_emod (by omega) (by omega)
  unfold blkGrpNum BlkSizeG wrap32
  simp only [h1, h2]
  constructor
  · split <;> split <;> omega
  · intro hlt
    split <;> omega

/-- Every reachable state satisfies the invariant. -/
theorem Reach_inv (w : World) (h : Reach w) : Inv w := by
  induction h with
  | init dn draws =>
    refine ⟨?_, ?_, ?_⟩
    · intro u V hu
      simp [cluster, kvGet] at hu
    · intro u v hu
      simp [cluster, kvGet] at hu
    · intro e he
      simp [cluster] at he
  | draws w ds _ ih => exact Inv_congr w _ rfl rfl rfl ih
  | createVol env w req u _ hu hfresh hq hq32 hkv hret hRet ih =>
    obtain ⟨u1, bgs, hu1, hlen, hbgp, hvol, hbgid⟩ := CreateVol_success env w req hkv hret hRet
    rw [hu] at hu1
    simp only [Option.some.injEq] at hu1
    subst hu1
    have hn := blkGrpNum_nonneg req.SpaceQuota hq
    have hlen1 : ((bgs.length : Nat) : Int) = (blkGrpNum req.SpaceQuota).1 := by
      rw [hlen, hn.1]
      omega
    apply Inv_create w _ ih u _ bgs hfresh hvol hbgp hbgid
    · simp only
      omega
    · simp only [hn.2 (by omega)]
      rw [hn.1]
      omega
  | expandVolTS env w volID quota _ hq hq32 hkv hret hRet ih =>
    obtain ⟨V, hV, hvol, hbgp, hbgid⟩ := ExpandVolTS_success env w volID quota hret hRet
    have hold := ih.1 volID V hV
    have hb := hq32 V hV
    have h1 : quota.tdiv 5 = quota / 5 := Int.tdiv_eq_ediv (by omega) (by omega)
    have h2 : quota.tmod 5 = quota % 5 := Int.tmod_eq_emod (by omega) (by omega)
    apply Inv_expand w _ ih volID V _ [] hV hvol (by rw [hbgp]; rfl) (by rw [hbgid]; rfl)
    · simp
    · simp only [BlkSizeG, h1, h2, wrap32]
      split <;> omega
  | expandVolRS env w volID _ hkv hret hRet ih =>
    rcases ExpandVolRS_success env w volID hkv hret hRet with h1 | ⟨V, bgs, hV, hneed, hlen, hbgp, hvol, hbgid⟩
    · exact Inv_congr w _ h1.1 h1.2.1 h1.2.2 ih
    · have hold := ih.1 volID V hV
      have hw : wrap32 (V.TotalSize - V.AllocatedSize) = V.TotalSize - V.AllocatedSize := by
        unfold wrap32
        omega
      rw [hw] at hneed hlen hvol
      have hn := (blkGrpNum_nonneg (V.TotalSize - V.AllocatedSize) (by omega)).1
      have hlen1 : ((bgs.length : Nat) : Int) = (blkGrpNum (V.TotalSize - V.AllocatedSize)).1 := by
        rw [hlen, hn]
        omega
      have hsum : wrap32 (V.AllocatedSize + (blkGrpNum (V.TotalSize - V.AllocatedSize)).1 * 5) =
          V.AllocatedSize + 5 * (bgs.length : Int) := by
        rw [hlen1, hn]
        unfold wrap32
        omega
      apply Inv_expand w _ ih volID V _ bgs hV hvol hbgp hbgid
      · simp only
        exact hsum
      · simp only [hsum]
        rw [hlen1, hn]
        omega

theorem reach_scenario1 : Reach scenario1 :=
  Reach.createVol envOk (cluster nodesABC (easyDraws 2)) ⟨"v1", 10, "hdd"⟩ "v1"
    (Reach.init nodesABC (easyDraws 2)) rfl (by intro e he; simp [cluster] at he) (by decide)
    (by decide) (fun _ => rfl) (by decide) (by decide)

theorem reach_scenario4 : Reach scenario4 := by
  apply Reach.draws
  apply Reach.expandVolTS envOk scenario1 "v1" 10 reach_scenario1 (by decide) _ (fun _ => rfl)
    (by decide) (by decide)
  intro V hV
  have hk : kvGet "v1" scenario1.vol = some (volV1 10 10) := by decide
  rw [hk] at hV
  simp only [Option.some.injEq] at hV
  subst hV
  decide

theorem reach_scenario4Expanded : Reach scenario4Expanded :=
  Reach.expandVolRS envOk scenario4 "v1" reach_scenario4 (fun _ => rfl) (by decide)
    (Or.inr (by decide))

/-! ### The rollback `DelVolRSForExpand` -/

theorem dropBlock_frame (env : Env) (w : World) (vv : Block) :
    (dropBlock env w vv).2.vol = w.vol ∧ (dropBlock env w vv).2.bgp = w.bgp := by
  unfold dropBlock BlockDel DatanodeGet DataNodeSet
  by_cases h1 : env.fault w.tick = true
  · simp [h1, World.step]
  simp only [h1, Bool.false_eq_true, if_false, World.step]
  by_cases h2 : env.fault (w.tick + 1) = true
  · simp [h2]
  simp only [h2, Bool.false_eq_true, if_false]
  cases hd : kvGet (dnKey vv.Ip vv.Port) w.dn with
  | none => simp
  | some d =>
    simp only
    by_cases h3 : env.fault (w.tick + 1 + 1) = true
    · simp [h3]
    · simp [h3]

theorem dropBlocks_frame (env : Env) :
    ∀ (bs : List Block) (bad : Nat) (w : World),
      (dropBlocks env bs bad w).2.vol = w.vol ∧ (dropBlocks env bs bad w).2.bgp = w.bgp := by
  intro bs
  induction bs with
  | nil =>
    intro bad w
    exact ⟨rfl, rfl⟩
  | cons b rest ih =>
    intro bad w
    have hb := dropBlock_frame env w b
    unfold dropBlocks
    split
    · rename_i w1 heq
      rw [heq] at hb
      exact ⟨(ih _ w1).1.trans hb.1, (ih _ w1).2.trans hb.2⟩
    · rename_i w1 heq
      rw [heq] at hb
      exact ⟨(ih _ w1).1.trans hb.1, (ih _ w1).2.trans hb.2⟩

/-- One block group of a teardown: VOL is not touched, and BGP is left as it was
or loses the key `uuid-Blocks[0].BGID`. -/
theorem dropGroup_frame (env : Env) (uuid : String) (w : World) (bg : BGP) :
    (dropGroup env uuid w bg).2.vol = w.vol ∧
    ((dropGroup env uuid w bg).2.bgp = w.bgp ∨
      ∃ k ∈ groupKeys uuid [bg], (dropGroup env uuid w bg).2.bgp = kvDel k w.bgp) := by
  have hb := dropBlocks_frame env bg.Blocks 0 w
  unfold dropGroup
  cases hbl : bg.Blocks with
  | nil =>
    rw [hbl] at hb
    exact ⟨hb.1, Or.inl hb.2⟩
  | cons b0 rest =>
    rw [hbl] at hb
    simp only [BGPDel, World.step]
    by_cases hf : env.fault (dropBlocks env (b0 :: rest) 0 w).2.tick = true
    · simp only [hf, if_true]
      exact ⟨hb.1, Or.inl hb.2⟩
    · simp only [hf, Bool.false_eq_true, if_false]
      refine ⟨hb.1, Or.inr ⟨bgKey uuid b0.BGID, ?_, ?_⟩⟩
      · simp [groupKeys, hbl]
      · simp only [hb.2]
theorem groupKeys_cons (uuid : String) (bg : BGP) (rest : List BGP) :
    groupKeys uuid (bg :: rest) = groupKeys uuid [bg] ++ groupKeys uuid rest := by
  unfold groupKeys
  rw [← List.filterMap_append]
  rfl

theorem filter_kvDel_keys {V : Type} (k : String) (K : List String) (m : KV V) :
    (kvDel k m).filter (fun e => decide (e.1 ∉ K)) = m.filter (fun e => decide (e.1 ∉ k :: K)) := by
  unfold kvDel
  rw [List.filter_filter]
  apply List.filter_congr
  intro e _
  by_cases hx : e.1 = k
  · simp [hx]
  · simp [hx]

/-- The teardown loop over block groups: VOL is not touched, and BGP loses some
of the keys `uuid-Blocks[0].BGID` of the groups given and nothing else. -/
theorem dropGroups_frame (env : Env) (uuid : String) :
    ∀ (bgps : List BGP) (bad : Nat) (w : World),
      (dropGroups env uuid bgps bad w).2.vol = w.vol ∧
      ∃ K : List String, (∀ k ∈ K, k ∈ groupKeys uuid bgps) ∧
        (dropGroups env uuid bgps bad w).2.bgp = w.bgp.filter (fun e => decide (e.1 ∉ K)) := by
  intro bgps
  induction bgps with
  | nil =>
    intro bad w
    exact ⟨rfl, [], fun _ h => absurd h (List.not_mem_nil _), by simp [dropGroups]⟩
  | cons bg rest ih =>
    intro bad w
    have hg := dropGroup_frame env uuid w bg
    have step : ∀ bad1, (dropGroups env uuid rest bad1 (dropGroup env uuid w bg).2).2.vol = w.vol ∧
        ∃ K : List String, (∀ k ∈ K, k ∈ groupKeys uuid (bg :: rest)) ∧
          (dropGroups env uuid rest bad1 (dropGroup env uuid w bg).2).2.bgp
            = w.bgp.filter (fun e => decide (e.1 ∉ K)) := by
      intro bad1
      obtain ⟨h1, K, hK, h2⟩ := ih bad1 (dropGroup env uuid w bg).2
      refine ⟨h1.trans hg.1, ?_⟩
      rcases hg.2 with h3 | ⟨k, hk, h3⟩
      · refine ⟨K, ?_, by rw [h2, h3]⟩
        intro k hk
        rw [groupKeys_cons]
        exact List.mem_append_right _ (hK k hk)
      · refine ⟨k :: K, ?_, by rw [h2, h3, filter_kvDel_keys]⟩
        intro k1 hk1
        rw [groupKeys_cons]
        rcases List.mem_cons.mp hk1 with h4 | h4
        · rw [h4]
          exact List.mem_append_left _ hk
        · exact List.mem_append_right _ (hK k1 h4)
    unfold dropGroups
    split
    · rename_i w1 heq
      rw [heq] at hg
      refine ⟨hg.1, ?_⟩
      rcases hg.2 with h3 | ⟨k, hk, h3⟩
      · exact ⟨[], fun _ h => absurd h (List.not_mem_nil _), by simpa using h3⟩
      · refine ⟨[k], ?_, ?_⟩
        · intro k1 hk1
          rw [groupKeys_cons, List.mem_singleton.mp hk1]
          exact List.mem_append_left _ hk
        · show w1.bgp = _
          have h4 : w1.bgp = kvDel k w.bgp := h3
          rw [h4]
          unfold kvDel
          apply List.filter_congr
          intro e _
          simp
    · rename_i w1 heq
      have := step (bad + 1)
      rw [heq] at this
      exact this
    · rename_i w1 heq
      have := step bad
      rw [heq] at this
      exact this

/-- Handler `DelVolRSForExpand`, whatever fails: the VOL keyspace is not touched,
and BGP loses some of the keys `uuid-Blocks[0].BGID` of the groups given and
nothing else. -/
theorem DelVolRSForExpand_frame (env : Env) (w : World) (uuid : String) (bgps : List BGP) :
    (DelVolRSForExpand env w uuid bgps).2.2.vol = w.vol ∧
    ∃ K : List String, (∀ k ∈ K, k ∈ groupKeys uuid bgps) ∧
      (DelVolRSForExpand env w uuid bgps).2.2.bgp = w.bgp.filter (fun e => decide (e.1 ∉ K)) := by
  have h := dropGroups_frame env uuid bgps 0 w
  unfold DelVolRSForExpand
  split
  · exact ⟨rfl, [], fun _ h => absurd h (List.not_mem_nil _), by simp⟩
  · split
    · rename_i w1 heq
      rw [heq] at h
      exact h
    · rename_i bad w1 heq
      rw [heq] at h
      split <;> exact h
theorem dropGroup_nofault (env : Env) (hkv : ∀ n, env.fault n = false) (uuid : String)
    (w : World) (bg : BGP) (b0 : Block) (rest : List Block) (hbg : bg.Blocks = b0 :: rest) :
    (dropGroup env uuid w bg).1 ≠ none ∧
    (dropGroup env uuid w bg).2.bgp = kvDel (bgKey uuid b0.BGID) w.bgp := by
  have hb := dropBlocks_frame env bg.Blocks 0 w
  unfold dropGroup
  rw [hbg] at hb ⊢
  simp only [BGPDel, hkv, Bool.false_eq_true, if_false, World.step, hb.2]
  exact ⟨by simp, trivial⟩

/-- The teardown loop when no KV operation fails and every group has a block:
it does not panic, and BGP loses exactly the keys `uuid-Blocks[0].BGID`. -/
theorem dropGroups_nofault (env : Env) (hkv : ∀ n, env.fault n = false) (uuid : String) :
    ∀ (bgps : List BGP) (bad : Nat) (w : World), (∀ bg ∈ bgps, bg.Blocks ≠ []) →
      (dropGroups env uuid bgps bad w).1 ≠ none ∧
      (dropGroups env uuid bgps bad w).2.bgp =
        w.bgp.filter (fun e => decide (e.1 ∉ groupKeys uuid bgps)) := by
  intro bgps
  induction bgps with
  | nil =>
    intro bad w _
    simp [dropGroups, groupKeys]
  | cons bg rest ih =>
    intro bad w hne
    cases hbl : bg.Blocks with
    | nil => exact absurd hbl (hne bg (List.mem_cons_self _ _))
    | cons b0 r0 =>
      have hg := dropGroup_nofault env hkv uuid w bg b0 r0 hbl
      have hkeys : groupKeys uuid (bg :: rest) = bgKey uuid b0.BGID :: groupKeys uuid rest := by
        rw [groupKeys_cons]
        simp [groupKeys, hbl]
      have step : ∀ bad1, (dropGroups env uuid rest bad1 (dropGroup env uuid w bg).2).1 ≠ none ∧
          (dropGroups env uuid rest bad1 (dropGroup env uuid w bg).2).2.bgp =
            w.bgp.filter (fun e => decide (e.1 ∉ groupKeys uuid (bg :: rest))) := by
        intro bad1
        have := ih bad1 (dropGroup env uuid w bg).2 (fun x hx => hne x (List.mem_cons_of_mem _ hx))
        refine ⟨this.1, ?_⟩
        rw [this.2, hg.2, filter_kvDel_keys, hkeys]
      unfold dropGroups
      split
      · rename_i w1 heq
        rw [heq] at hg
        exact absurd rfl hg.1
      · rename_i w1 heq
        have := step (bad + 1)
        rw [heq] at this
        exact this
      · rename_i w1 heq
        have := step bad
        rw [heq] at this
        exact this

/-- Handler `DelVolRSForExpand` when the namespace is found, no KV operation fails
and every group given has a block: it returns, and BGP loses exactly the keys
`uuid-Blocks[0].BGID`. -/
theorem DelVolRSForExpand_nofault (env : Env) (w : World) (uuid : String) (bgps : List BGP)
    (hns : env.nsRet = 0) (hkv : ∀ n, env.fault n = false) (hne : ∀ bg ∈ bgps, bg.Blocks ≠ []) :
    (DelVolRSForExpand env w uuid bgps).1 = Exit.ret ∧
    (DelVolRSForExpand env w uuid bgps).2.2.bgp =
      w.bgp.filter (fun e => decide (e.1 ∉ groupKeys uuid bgps)) := by
  have h := dropGroups_nofault env hkv uuid bgps 0 w hne
  unfold DelVolRSForExpand
  simp only [hns, ne_eq, not_true_eq_false, if_false]
  split
  · rename_i w1 heq
    rw [heq] at h
    exact absurd rfl h.1
  · rename_i bad w1 heq
    rw [heq] at h
    split <;> exact ⟨rfl, h.2⟩

/-- Fewer entries are left under a prefix once an entry under it is filtered out. -/
theorem kvRange_filter_keys {V : Type} (u : String) (K : List String) (m : KV V) :
    (kvRange u (m.filter (fun e => decide (e.1 ∉ K)))).length ≤ (kvRange u m).length ∧
    ((∃ e ∈ m, e.1 ∈ K ∧ u.data.isPrefixOf e.1.data = true) →
      (kvRange u (m.filter (fun e => decide (e.1 ∉ K)))).length < (kvRange u m).length) := by
  unfold kvRange
  rw [List.filter_comm]
  refine ⟨List.length_filter_le _ _, ?_⟩
  rintro ⟨e, he, hk, hp⟩
  rw [List.length_filter_lt_length_iff_exists]
  exact ⟨e, List.mem_filter.mpr ⟨he, hp⟩, by simpa using hk⟩

/-- C8, as stated, fails.  Scenario 4 after the first `ExpandVolRS(v1)` is reached
by successful `CreateVol`, `ExpandVolTS` and `ExpandVolRS` calls; the rollback
`DelVolRSForExpand` of the two block groups that `ExpandVolRS` returned succeeds,
and leaves `allocatedSize = 20` with two BGP keys under "v1". -/
theorem C8_rollback_keeps_allocated_size_counterexample :
    Reach scenario4Expanded ∧
    (ExpandVolRS envOk scenario4 "v1").2.1.Ret = 1 ∧
    (ExpandVolRS envOk scenario4 "v1").2.1.BGPS.length = 2 ∧
    (DelVolRSForExpand envOk scenario4Expanded "v1"
      (ExpandVolRS envOk scenario4 "v1").2.1.BGPS).1 = Exit.ret ∧
    (DelVolRSForExpand envOk scenario4Expanded "v1"
      (ExpandVolRS envOk scenario4 "v1").2.1.BGPS).2.1 = 0 ∧
    kvGet "v1" scenario4RolledBack.vol = some (volV1 20 20) ∧
    (kvRange "v1" scenario4RolledBack.bgp).length = 2 ∧
    (volV1 20 20).AllocatedSize ≠ 5 * ((kvRange "v1" scenario4RolledBack.bgp).length : Int) :=
  ⟨reach_scenario4Expanded, by decide, by decide, by decide, by decide, by decide, by decide,
    by decide⟩

/-- C8, amended.  In every state reached from an empty store with registered data
nodes by successful `CreateVol`, `ExpandVolTS` and `ExpandVolRS` calls (no KV
fault, fresh UUIDs, non-negative quotas within `int32`; no `DelVolRSForExpand`
and no `DeleteVol`), every stored volume has `allocatedSize == 5 * k`, where `k`
is the number of BGP keys that begin with its UUID.  `DelVolRSForExpand`, on any
store and whatever fails, does not touch the VOL keyspace and removes from BGP
only keys `uuid-Blocks[0].BGID` of the groups it is given; when the namespace is
found, no KV operation fails and every group has a block it returns and removes
exactly these keys.  So after a `DelVolRSForExpand` in such a reached state every
stored volume keeps its record, `allocatedSize` is at least `5 * k`, and it is
above `5 * k` once a key under the volume's UUID was removed. -/
theorem C8_allocated_size_counts_groups (w : World) (h : Reach w) :
    (∀ u V, kvGet u w.vol = some V →
      V.AllocatedSize = 5 * ((kvRange u w.bgp).length : Int)) ∧
    (∀ (env : Env) (w2 : World) (uuid : String) (bgps : List BGP),
      (DelVolRSForExpand env w2 uuid bgps).2.2.vol = w2.vol ∧
      (∃ K : List String, (∀ k ∈ K, k ∈ groupKeys uuid bgps) ∧
        (DelVolRSForExpand env w2 uuid bgps).2.2.bgp =
          w2.bgp.filter (fun e => decide (e.1 ∉ K))) ∧
      (env.nsRet = 0 → (∀ n, env.fault n = false) → (∀ bg ∈ bgps, bg.Blocks ≠ []) →
        (DelVolRSForExpand env w2 uuid bgps).1 = Exit.ret ∧
        (DelVolRSForExpand env w2 uuid bgps).2.2.bgp =
          w2.bgp.filter (fun e => decide (e.1 ∉ groupKeys uuid bgps)))) ∧
    (∀ (env : Env) (uuid : String) (bgps : List BGP) (u : String) (V : Volume),
      kvGet u w.vol = some V →
      kvGet u (DelVolRSForExpand env w uuid bgps).2.2.vol = some V ∧
      5 * ((kvRange u (DelVolRSForExpand env w uuid bgps).2.2.bgp).length : Int)
        ≤ V.AllocatedSize ∧
      (env.nsRet = 0 → (∀ n, env.fault n = false) → (∀ bg ∈ bgps, bg.Blocks ≠ []) →
        (∃ e ∈ w.bgp, e.1 ∈ groupKeys uuid bgps ∧ u.data.isPrefixOf e.1.data = true) →
        5 * ((kvRange u (DelVolRSForExpand env w uuid bgps).2.2.bgp).length : Int)
          < V.AllocatedSize)) := by
  have hinv : ∀ u V, kvGet u w.vol = some V →
      V.AllocatedSize = 5 * ((kvRange u w.bgp).length : Int) :=
    fun u V hu => ((Reach_inv w h).1 u V hu).2.2
  refine ⟨hinv, ?_, ?_⟩
  · intro env w2 uuid bgps
    exact ⟨(DelVolRSForExpand_frame env w2 uuid bgps).1, (DelVolRSForExpand_frame env w2 uuid bgps).2,
      DelVolRSForExpand_nofault env w2 uuid bgps⟩
  · intro env uuid bgps u V hu
    obtain ⟨hvol, K, _, hbgp⟩ := DelVolRSForExpand_frame env w uuid bgps
    have hA := hinv u V hu
    refine ⟨by rw [hvol]; exact hu, ?_, ?_⟩
    · rw [hbgp, hA]
      have := (kvRange_filter_keys u K w.bgp).1
      omega
    · intro hns hkv hne hex
      rw [(DelVolRSForExpand_nofault env w uuid bgps hns hkv hne).2, hA]
      have := (kvRange_filter_keys u (groupKeys uuid bgps) w.bgp).2 hex
      omega

/-- Witness of C8, amended: scenario 4 after the first `ExpandVolRS(v1)`, where
"v1" has `allocatedSize = 20` and four block groups; after the rollback of the
two groups that `ExpandVolRS` returned, two keys are left and `allocatedSize` is
still 20. -/
theorem C8_allocated_size_counts_groups_witness :
    Reach scenario4Expanded ∧ kvGet "v1" scenario4Expanded.vol = some (volV1 20 20) ∧
    (kvRange "v1" scenario4Expanded.bgp).length = 4 ∧
    (volV1 20 20).AllocatedSize = 5 * ((kvRange "v1" scenario4Expanded.bgp).length : Int) ∧
    kvGet "v1" scenario4RolledBack.vol = some (volV1 20 20) ∧
    5 * ((kvRange "v1" scenario4RolledBack.bgp).length : Int) < (volV1 20 20).AllocatedSize :=
  have h := C8_allocated_size_counts_groups scenario4Expanded reach_scenario4Expanded
  have h3 := h.2.2 envOk "v1" (ExpandVolRS envOk scenario4 "v1").2.1.BGPS "v1" (volV1 20 20)
    (by decide)
  ⟨reach_scenario4Expanded, by decide, by decide, h.1 "v1" (volV1 20 20) (by decide), h3.1,
    h3.2.2 rfl (fun _ => rfl) (by decide) (by decide)⟩

/-! ## C6: `DeleteVol` after `CreateVol` -/

theorem filter_kvIns_of_false {V : Type} (p : String × V → Bool) (k : String) (v : V)
    (m : KV V) (h : p (k, v) = false) : (kvIns k v m).filter p = m.filter p := by
  induction m with
  | nil => simp [kvIns, h]
  | cons hd tl ih =>
    obtain ⟨k1, v1⟩ := hd
    unfold kvIns
    split
    · simp [List.filter_cons, h]
    · simp only [List.filter_cons, ih]

theorem kvGet_eq_none {V : Type} (k : String) (m : KV V) (h : kvGet k m = none) :
    ∀ e ∈ m, e.1 ≠ k := by
  intro e he hk
  obtain ⟨v, hv⟩ := kvGet_of_mem_keys k m (List.mem_map.mpr ⟨e, he, hk⟩)
  rw [h] at hv
  cases hv

theorem kvGet_of_mem_nodup {V : Type} (k : String) (v : V) (m : KV V)
    (hnd : (m.map Prod.fst).Nodup) (h : (k, v) ∈ m) : kvGet k m = some v := by
  induction m with
  | nil => simp at h
  | cons hd tl ih =>
    obtain ⟨k1, v1⟩ := hd
    simp only [List.map_cons, List.nodup_cons] at hnd
    simp only [List.mem_cons, Prod.mk.injEq] at h
    rcases h with ⟨rfl, rfl⟩ | h
    · simp [kvGet]
    · have hne : ¬ k1 = k := by
        intro e
        apply hnd.1
        rw [e]
        exact List.mem_map.mpr ⟨(k, v), h, rfl⟩
      simp only [kvGet, hne, if_false]
      exact ih hnd.2 h

/-- Deleting a key that was set gives back a keyspace that did not hold it. -/
theorem kvDel_kvSet {V : Type} (k : String) (v : V) (m : KV V) (h : ∀ e ∈ m, e.1 ≠ k) :
    kvDel k (kvSet k v m) = m := by
  unfold kvSet
  rw [kvDel_eq_self k m h]
  unfold kvDel
  rw [filter_kvIns_of_false _ k v m (by simp)]
  exact kvDel_eq_self k m h

/-- Setting the key of a new block keeps the store stripped of the pending keys. -/
theorem strip_kvSet (blk0 blk : KV Block) (P : List Block) (b : Block)
    (hstrip : blk.filter (fun e => decide (e.1 ∉ blkKeys P)) = blk0)
    (hfresh : ∀ e ∈ blk0, e.1 ≠ blkKey b.Ip b.Port b.BlkID) :
    (kvSet (blkKey b.Ip b.Port b.BlkID) b blk).filter
      (fun e => decide (e.1 ∉ blkKeys (P ++ [b]))) = blk0 := by
  unfold kvSet
  rw [filter_kvIns_of_false _ _ _ _ (by simp [blkKeys])]
  unfold kvDel
  rw [List.filter_filter]
  have hsplit : (blk.filter (fun e => decide (e.1 ∉ blkKeys (P ++ [b])) &&
        decide (e.1 ≠ blkKey b.Ip b.Port b.BlkID))) =
      (blk.filter (fun e => decide (e.1 ∉ blkKeys P))).filter
        (fun e => decide (e.1 ≠ blkKey b.Ip b.Port b.BlkID)) := by
    rw [List.filter_filter]
    apply List.filter_congr
    intro e _
    simp only [blkKeys, List.map_append, List.map_cons, List.map_nil, List.mem_append,
      List.mem_singleton, not_or, Bool.decide_and, Bool.and_eq_true, decide_eq_true_eq]
    by_cases h1 : e.1 = blkKey b.Ip b.Port b.BlkID <;> simp [h1]
  rw [hsplit, hstrip]
  rw [List.filter_eq_self]
  intro e he
  simpa using hfresh e he

/-- Deleting the key of a pending block keeps the store stripped of the others. -/
theorem strip_kvDel (blk0 blk : KV Block) (P : List Block) (b : Block)
    (hstrip : blk.filter (fun e => decide (e.1 ∉ blkKeys (b :: P))) = blk0) :
    (kvDel (blkKey b.Ip b.Port b.BlkID) blk).filter (fun e => decide (e.1 ∉ blkKeys P)) = blk0 := by
  rw [← hstrip]
  unfold kvDel
  rw [List.filter_filter]
  apply List.filter_congr
  intro e _
  simp only [blkKeys, List.map_cons, List.mem_cons, not_or, Bool.decide_and]
  by_cases h1 : e.1 = blkKey b.Ip b.Port b.BlkID <;> simp [h1]

theorem onNode_append (k : String) (P : List Block) (b : Block) :
    onNode k (P ++ [b]) = onNode k P + (if dnKey b.Ip b.Port = k then 1 else 0) := by
  unfold onNode
  rw [List.countP_append]
  by_cases h : dnKey b.Ip b.Port = k <;> simp [List.countP_cons, h]

theorem onNode_cons (k : String) (P : List Block) (b : Block) :
    onNode k (b :: P) = onNode k P + (if dnKey b.Ip b.Port = k then 1 else 0) := by
  unfold onNode
  rw [List.countP_cons]
  by_cases h : dnKey b.Ip b.Port = k <;> simp [h]

theorem DnRel_nil (dn0 : KV Datanode) : DnRel dn0 dn0 [] := by
  intro k
  simp [onNode]

theorem DnRel_nil_eq (dn0 dn : KV Datanode) (h : DnRel dn0 dn []) (k : String) :
    kvGet k dn = kvGet k dn0 :=
  (h k).1 (by simp [onNode])

theorem DnRel_perm (dn0 dn : KV Datanode) (P Q : List Block) (hp : P.Perm Q)
    (h : DnRel dn0 dn P) : DnRel dn0 dn Q := by
  intro k
  have : onNode k Q = onNode k P := by
    unfold onNode
    exact (hp.countP_eq _).symm
  rw [this]
  exact h k

/-- The debit of `CreateVol` for one more pending block. -/
theorem DnRel_debit (dn0 dn : KV Datanode) (P : List Block) (b : Block) (node : Datanode)
    (h : DnRel dn0 dn P) (h32 : ∀ k d, kvGet k dn0 = some d → d.Free < 2147483648)
    (hnode : kvGet (dnKey b.Ip b.Port) dn = some node) (hfree : 5 ≤ node.Free) :
    DnRel dn0 (kvSet (dnKey b.Ip b.Port) { node with Free := node.Free - 5 } dn) (P ++ [b]) := by
  intro k
  rw [onNode_append, kvGet_kvSet]
  by_cases hk : dnKey b.Ip b.Port = k
  · subst hk
    simp only [if_true]
    constructor
    · intro h0
      omega
    · intro _
      by_cases hc : onNode (dnKey b.Ip b.Port) P = 0
      · have h1 := (h (dnKey b.Ip b.Port)).1 hc
        rw [hnode] at h1
        refine ⟨node, h1.symm, ?_, ?_, h32 _ _ h1.symm⟩
        · simp [hc]
        · simp only [hc]
          push_cast
          omega
      · obtain ⟨d0, hd0, hd, hb1, hb2⟩ := (h (dnKey b.Ip b.Port)).2 (by omega)
        rw [hnode] at hd
        simp only [Option.some.injEq] at hd
        subst hd
        refine ⟨d0, hd0, ?_, ?_, hb2⟩
        · simp only [Option.some.injEq, Datanode.mk.injEq, true_and, and_true]
          push_cast
          ring
        · simp only at hfree
          push_cast
          omega
  · have hk1 : ¬ k = dnKey b.Ip b.Port := fun e => hk e.symm
    simp only [hk, hk1, if_false, Nat.add_zero]
    exact h k

/-- The refund of the teardown for one pending block. -/
theorem DnRel_refund (dn0 dn : KV Datanode) (P : List Block) (b : Block)
    (h : DnRel dn0 dn (b :: P)) :
    ∃ d, kvGet (dnKey b.Ip b.Port) dn = some d ∧
      DnRel dn0 (kvSet (dnKey b.Ip b.Port) { d with Free := wrap32 (d.Free + 5) } dn) P := by
  have hcons : onNode (dnKey b.Ip b.Port) (b :: P) = onNode (dnKey b.Ip b.Port) P + 1 := by
    rw [onNode_cons]
    simp
  obtain ⟨d0, hd0, hd, hb1, hb2⟩ := (h (dnKey b.Ip b.Port)).2 (by omega)
  rw [hcons] at hd hb1
  refine ⟨_, hd, ?_⟩
  have hw : wrap32 (d0.Free - 5 * ((onNode (dnKey b.Ip b.Port) P + 1 : Nat) : Int) + 5) =
      d0.Free - 5 * (onNode (dnKey b.Ip b.Port) P : Int) := by
    unfold wrap32
    push_cast at hb1 ⊢
    omega
  intro k
  rw [kvGet_kvSet]
  by_cases hk : k = dnKey b.Ip b.Port
  · subst hk
    simp only [if_true, hw]
    constructor
    · intro h0
      rw [hd0, h0]
      simp
    · intro hp
      refine ⟨d0, hd0, rfl, ?_, hb2⟩
      push_cast at hb1
      omega
  · have hk0 := h k
    have hk1 : ¬ dnKey b.Ip b.Port = k := fun e => hk e.symm
    rw [onNode_cons] at hk0
    simp only [hk, hk1, if_false, Nat.add_zero] at hk0 ⊢
    exact hk0

theorem mem_set_nodup (l : List Datanode) (j : Nat) (a x d : Datanode) (hnd : l.Nodup)
    (hx : l[j]? = some x) (hd : d ∈ l.set j a) : d = a ∨ (d ∈ l ∧ d ≠ x) := by
  obtain ⟨i, hi, hget⟩ := List.getElem_of_mem hd
  rw [List.getElem_set] at hget
  split at hget
  · exact Or.inl hget.symm
  · rename_i hji
    right
    rw [List.length_set] at hi
    refine ⟨by rw [← hget]; exact List.getElem_mem hi, ?_⟩
    intro hdx
    have hj : j < l.length := (List.getElem?_eq_some_iff.mp hx).1
    have hxj : l[j] = x := (List.getElem?_eq_some_iff.mp hx).2
    have : l[i] = l[j] := by rw [hget, hdx, hxj]
    exact hji ((hnd.getElem_inj_iff).mp this).symm

theorem set_nodup (l : List Datanode) (j : Nat) (a x : Datanode) (hnd : l.Nodup)
    (hx : l[j]? = some x) (ha : ∀ d ∈ l, d ≠ x → d ≠ a) : (l.set j a).Nodup := by
  rw [List.nodup_iff_injective_get]
  intro p q hpq
  simp only [List.get_eq_getElem, List.getElem_set] at hpq
  have hj : j < l.length := (List.getElem?_eq_some_iff.mp hx).1
  have hxj : l[j] = x := (List.getElem?_eq_some_iff.mp hx).2
  have hp := p.2
  have hq := q.2
  simp only [List.length_set] at hp hq
  apply Fin.ext
  by_cases h1 : j = p.1 <;> by_cases h2 : j = q.1
  · omega
  · simp only [h1, if_true] at hpq
    have h3 : ¬ p.1 = q.1 := by omega
    simp only [h3, if_false] at hpq
    exfalso
    refine ha l[q.1] (List.getElem_mem hq) ?_ hpq.symm
    intro hqx
    rw [← hxj] at hqx
    exact h2 ((hnd.getElem_inj_iff).mp hqx).symm
  · simp only [h2, if_true] at hpq
    have h3 : ¬ q.1 = p.1 := by omega
    simp only [h3, if_false] at hpq
    exfalso
    refine ha l[p.1] (List.getElem_mem hp) ?_ hpq
    intro hpx
    rw [← hxj] at hpx
    exact h1 ((hnd.getElem_inj_iff).mp hpx).symm
  · simp only [h1, h2, if_false] at hpq
    exact (hnd.getElem_inj_iff).mp hpq

/-- The in-memory records follow the store through one debit. -/
theorem MemOK_debit (dn : KV Datanode) (m : Inuse) (ipkey : String) (j : Nat) (node : Datanode)
    (hm : MemOK dn m) (hok : InuseOK (fun _ => True) m)
    (hnode : (inuseGet m ipkey)[j]? = some node) :
    MemOK (kvSet (dnKey node.Ip node.Port) { node with Free := node.Free - 5 } dn)
      (inuseSet m ipkey j { node with Free := node.Free - 5 }) := by
  obtain ⟨g, hg, hng⟩ := inuseGet_mem m ipkey node (List.getElem?_mem hnode)
  have hgget : inuseGet m ipkey = g := by
    simp [inuseGet, kvGet_of_mem_nodup ipkey g m hok.1 hg]
  have hnodeIp : node.Ip = ipkey := ((hok.2 _ hg).2 node hng).1
  have hnodeGet : kvGet (dnKey node.Ip node.Port) dn = some node := (hm _ hg).2 node hng
  have hother : ∀ e ∈ m, ∀ d ∈ e.2, d ≠ node → dnKey d.Ip d.Port ≠ dnKey node.Ip node.Port := by
    intro e he d hd hne heq
    have := (hm e he).2 d hd
    rw [heq, hnodeGet] at this
    simp only [Option.some.injEq] at this
    exact hne this.symm
  intro e1 he1
  unfold inuseSet at he1
  simp only [List.mem_map] at he1
  obtain ⟨e, he, rfl⟩ := he1
  by_cases hk : e.1 = ipkey
  · simp only [hk, if_true]
    have heg : e.2 = g := by
      have h1 := kvGet_of_mem_nodup e.1 e.2 m hok.1 he
      rw [hk, kvGet_of_mem_nodup ipkey g m hok.1 hg] at h1
      simp only [Option.some.injEq] at h1
      exact h1.symm
    rw [heg]
    rw [hgget] at hnode
    constructor
    · apply set_nodup g j _ node (hm _ hg).1 hnode
      intro d hd hne heq
      have h2 := hother _ hg d hd hne
      rw [heq] at h2
      exact h2 rfl
    · intro d hd
      rcases mem_set_nodup g j _ node d (hm _ hg).1 hnode hd with h1 | ⟨h1, h2⟩
      · subst h1
        simp [kvGet_kvSet]
      · have h3 := hother _ hg d h1 h2
        rw [kvGet_kvSet, if_neg h3]
        exact (hm _ hg).2 d h1
  · simp only [hk, if_false]
    refine ⟨(hm e he).1, ?_⟩
    intro d hd
    have hne : d ≠ node := by
      intro hdn
      apply hk
      rw [← ((hok.2 e he).2 d hd).1, hdn, hnodeIp]
    rw [kvGet_kvSet, if_neg (hother e he d hd hne)]
    exact (hm e he).2 d hd

theorem foldl_inuseAdd_nodup (vs : List Datanode) :
    ∀ (m : Inuse), (∀ e ∈ m, e.2.Nodup ∧ ∀ d ∈ e.2, d ∉ vs) → vs.Nodup →
      ∀ e ∈ vs.foldl inuseAdd m, e.2.Nodup := by
  induction vs with
  | nil =>
    intro m hm _ e he
    exact (hm e he).1
  | cons v vs ih =>
    intro m hm hnd e he
    simp only [List.foldl_cons] at he
    simp only [List.nodup_cons] at hnd
    refine ih (inuseAdd m v) ?_ hnd.2 e he
    intro e1 he1
    rcases mem_inuseAdd m v e1 he1 with h | h | ⟨g, h1, h2⟩
    · have := hm e1 h
      exact ⟨this.1, fun d hd hin => this.2 d hd (List.mem_cons_of_mem _ hin)⟩
    · subst h
      refine ⟨List.nodup_singleton _, ?_⟩
      intro d hd
      simp only [List.mem_singleton] at hd
      subst hd
      exact hnd.1
    · subst h2
      have := hm _ h1
      constructor
      · rw [List.nodup_append]
        refine ⟨this.1, List.nodup_singleton _, ?_⟩
        intro x hx hx1
        simp only [List.mem_singleton] at hx1
        subst hx1
        exact this.2 x hx (by simp)
      · intro d hd hin
        simp only [List.mem_append, List.mem_singleton] at hd
        rcases hd with hd | hd
        · exact this.2 d hd (List.mem_cons_of_mem _ hin)
        · subst hd
          exact hnd.1 hin

/-- The records read from a well-formed DN keyspace are the stored ones. -/
theorem MemOK_start (dn : KV Datanode) (skip : Datanode → Bool)
    (hkey : ∀ e ∈ dn, e.1 = dnKey e.2.Ip e.2.Port) (hnd : (dn.map Prod.fst).Nodup) :
    MemOK dn (groupNodes skip (dn.map Prod.snd)) := by
  have hvals : (dn.map Prod.snd).Nodup := by
    apply List.Nodup.map_on _ (List.Nodup.of_map _ hnd)
    intro a ha b hb hab
    apply Prod.ext _ hab
    rw [hkey a ha, hkey b hb, hab]
  have hg := groupNodes_ok skip (dn.map Prod.snd)
  intro e he
  constructor
  · unfold groupNodes at he
    exact foldl_inuseAdd_nodup _ [] (by simp) (hvals.filter _) e he
  · intro d hd
    have := ((hg.2 e he).2 d hd).2.1
    simp only [List.mem_map] at this
    obtain ⟨a, ha, rfl⟩ := this
    rw [← hkey a ha]
    exact kvGet_of_mem_nodup a.1 a.2 dn hnd ha

/-- One placed block joins the pending blocks: its key is new in BLK and its node
is debited by 5 GiB both in the store and in memory. -/
theorem placeBlock_pending (env : Env) (hkv : ∀ n, env.fault n = false) (volID : String)
    (bgID : Nat) (allip : List String) (i : Nat) (s : Alloc) (b : Block) (s1 : Alloc)
    (blk0 : KV Block) (dn0 : KV Datanode) (P : List Block) (blkid0 : Nat)
    (h : placeBlock env volID bgID allip i s = Flow.go b s1)
    (hok : InuseOK (fun _ => True) s.nodes) (hmem : MemOK s.w.dn s.nodes)
    (hpend : Pending blk0 dn0 s.w P)
    (hfresh : ∀ e ∈ blk0, ∀ ip port id, blkid0 < id → e.1 ≠ blkKey ip port id)
    (hid : blkid0 ≤ s.w.blkid)
    (h32 : ∀ k d, kvGet k dn0 = some d → d.Free < 2147483648)
    (hfree : ∀ e ∈ s.nodes, ∀ d ∈ e.2, some e.1 = allip[i]? → 5 ≤ d.Free) :
    MemOK s1.w.dn s1.nodes ∧ Pending blk0 dn0 s1.w (P ++ [b]) ∧ blkid0 ≤ s1.w.blkid ∧
      b.BGID = bgID := by
  obtain ⟨ipkey, j, node, rest, ds, hip, hgen, hnode, hf1, hf2, hb, hn, hw⟩ :=
    placeBlock_go env volID bgID allip i s b s1 h
  obtain ⟨g, hg, hd⟩ := inuseGet_mem s.nodes ipkey node (List.getElem?_mem hnode)
  have hnodeIp : node.Ip = ipkey := ((hok.2 _ hg).2 node hd).1
  have hnodeFree : 5 ≤ node.Free := hfree _ hg node hd hip.symm
  have hstore : kvGet (dnKey node.Ip node.Port) s.w.dn = some node := (hmem _ hg).2 node hd
  have hbIp : b.Ip = node.Ip := by rw [hb]
  have hbPort : b.Port = node.Port := by rw [hb]
  have hbId : b.BlkID = s.w.blkid + 1 := by rw [hb]
  have hkey : ipkey ++ ":" ++ fmtInt node.Port = dnKey node.Ip node.Port := by
    rw [hnodeIp]; rfl
  have hdn : s1.w.dn = kvSet (dnKey node.Ip node.Port) { node with Free := node.Free - 5 } s.w.dn := by
    rw [hw, DataNodeSet_dn, hkey]
    simp [hkv]
  have hblk : s1.w.blk = kvSet (blkKey b.Ip b.Port b.BlkID) b s.w.blk := by
    rw [hw, DataNodeSet_blk, hbIp, hbPort, hbId]
  have hblkid : s1.w.blkid = s.w.blkid + 1 := by
    rw [hw, DataNodeSet_blkid]
  refine ⟨?_, ⟨?_, ?_⟩, ?_, ?_⟩
  · rw [hn, hdn]
    exact MemOK_debit _ _ _ _ _ hmem hok hnode
  · rw [hblk]
    apply strip_kvSet _ _ _ _ hpend.1
    intro e he
    exact hfresh e he _ _ _ (by omega)
  · rw [hdn]
    have := DnRel_debit dn0 s.w.dn P b node hpend.2 h32 (by rw [hbIp, hbPort]; exact hstore) hnodeFree
    rw [hbIp, hbPort] at this
    exact this
  · omega
  · rw [hb]
/-- One written block group joins the pending blocks. -/
theorem placeGroup_pending (env : Env) (hkv : ∀ n, env.fault n = false) (volID : String)
    (allip : List String) (hip : allip.Nodup) (low : Int) (hlow : 0 ≤ low)
    (s : Alloc) (bg : BGP) (s1 : Alloc)
    (blk0 : KV Block) (dn0 : KV Datanode) (P : List Block) (blkid0 : Nat)
    (h : placeGroup env volID allip s = Flow.go bg s1)
    (hok : InuseOK (fun _ => True) s.nodes) (hmem : MemOK s.w.dn s.nodes)
    (hpend : Pending blk0 dn0 s.w P)
    (hfresh : ∀ e ∈ blk0, ∀ ip port id, blkid0 < id → e.1 ≠ blkKey ip port id)
    (hid : blkid0 ≤ s.w.blkid)
    (h32 : ∀ k d, kvGet k dn0 = some d → d.Free < 2147483648)
    (hfree : ∀ e ∈ s.nodes, ∀ d ∈ e.2, low + 5 ≤ d.Free) :
    InuseOK (fun _ => True) s1.nodes ∧ MemOK s1.w.dn s1.nodes ∧
      Pending blk0 dn0 s1.w (P ++ bg.Blocks) ∧ blkid0 ≤ s1.w.blkid ∧
      (∀ e ∈ s1.nodes, ∀ d ∈ e.2, low ≤ d.Free) ∧
      bg.Blocks.length = 3 ∧ (∀ b ∈ bg.Blocks, b.BGID = s.w.bgid + 1) ∧
      s1.w.bgid = s.w.bgid + 1 := by
  obtain ⟨idxs, ds, blocks, s0, hf, hgen, hlen, hpb, hf2, rfl, rfl⟩ :=
    placeGroup_go env volID allip s bg s1 h
  have hidx := generateRandomNumber_spec _ _ _ _ _ _ hgen
  have hnd : (idxs.map (fun i => allip[i]?)).Nodup := by
    apply List.Nodup.map_on _ hidx.1
    intro x hx y _ hxy
    exact List.getElem?_inj (by simpa using hidx.2.2 x hx) hip hxy
  have key := placeBlocks_inv env volID (s.w.bgid + 1) allip
    (fun is acc s1 => (is.map (fun i => allip[i]?)).Nodup ∧ InuseOK (fun _ => True) s1.nodes ∧
      FreeAbove allip low is s1.nodes ∧ MemOK s1.w.dn s1.nodes ∧
      Pending blk0 dn0 s1.w (P ++ acc) ∧ blkid0 ≤ s1.w.blkid ∧
      (∀ b ∈ acc, b.BGID = s.w.bgid + 1) ∧ acc.length + is.length = 3 ∧
      s1.w.bgid = s.w.bgid + 1)
    (fun _ _ => True) ?_ ?_ idxs [] (groupStart s ds)
    ⟨hnd, hok, fun e he d hd => ⟨by have := hfree e he d hd; omega, fun _ => hfree e he d hd⟩,
      hmem, by simpa using hpend, hid, by simp, by simpa using hlen, rfl⟩
  · have := key.1 blocks s0 hpb
    obtain ⟨_, h1, h2, h3, h4, h5, h6, h7, h8⟩ := this
    refine ⟨h1, h3, h4, h5, fun e he d hd => (h2 e he d hd).1, by simpa using h7, h6, h8⟩
  · intro i is acc s0 b s1 hI h
    obtain ⟨g1, g2, g3, g4, g5, g6, g7, g8, g9⟩ := hI
    have hA := (placeBlock_free env volID (s.w.bgid + 1) allip low hlow i is s0 g1 g2 g3).1 b s1 h
    have hB := placeBlock_pending env hkv volID (s.w.bgid + 1) allip i s0 b s1 blk0 dn0
      (P ++ acc) blkid0 h g2 g4 g5 hfresh g6 h32 (by
        intro e he d hd hk
        have := (g3 e he d hd).2 (by
          simp only [List.map_cons, List.mem_cons]
          exact Or.inl hk)
        omega)
    obtain ⟨ipkey, j, node, rest, ds1, _, _, _, _, _, _, _, hw⟩ :=
      placeBlock_go env volID (s.w.bgid + 1) allip i s0 b s1 h
    refine ⟨(List.nodup_cons.mp g1).2, hA.1, hA.2.1, hB.1, ?_, hB.2.2.1, ?_, ?_, ?_⟩
    · rw [← List.append_assoc]
      exact hB.2.1
    · intro b1 hb1
      rcases List.mem_append.mp hb1 with h1 | h1
      · exact g7 b1 h1
      · rw [List.mem_singleton.mp h1]
        exact hB.2.2.2
    · simp only [List.length_append, List.length_cons, List.length_nil] at g8 ⊢
      omega
    · rw [hw, DataNodeSet_bgid]
      exact g9
  · intro _ _ _ _ _ _ _ _
    trivial
theorem keyed_append (volID : String) (acc : List BGP) :
    ∀ (id : Nat) (bg : BGP),
      keyed volID id (acc ++ [bg]) = keyed volID id acc ++ [(bgKey volID (id + acc.length), bg)] := by
  induction acc with
  | nil =>
    intro id bg
    simp [keyed]
  | cons a l ih =>
    intro id bg
    have : id + 1 + l.length = id + (a :: l).length := by simp; omega
    rw [List.cons_append]
    unfold keyed
    rw [ih (id + 1) bg, this]
    rfl

theorem keyed_snd (volID : String) (bgs : List BGP) :
    ∀ (id : Nat), (keyed volID id bgs).map Prod.snd = bgs := by
  induction bgs with
  | nil =>
    intro id
    simp [keyed]
  | cons a l ih =>
    intro id
    simp [keyed, ih]

/-- The allocation loop of a volume: all blocks of the written groups are
pending, and each group is keyed by the BGID of its first block. -/
theorem placeGroups_pending (env : Env) (hkv : ∀ n, env.fault n = false) (volID : String)
    (allip : List String) (hip : allip.Nodup) (n : Nat) (s : Alloc)
    (blk0 : KV Block) (dn0 : KV Datanode)
    (hok : InuseOK (fun _ => True) s.nodes) (hmem : MemOK s.w.dn s.nodes)
    (hpend : Pending blk0 dn0 s.w [])
    (hfresh : ∀ e ∈ blk0, ∀ ip port id, s.w.blkid < id → e.1 ≠ blkKey ip port id)
    (h32 : ∀ k d, kvGet k dn0 = some d → d.Free < 2147483648)
    (hfree : ∀ e ∈ s.nodes, ∀ d ∈ e.2, 5 * (n : Int) ≤ d.Free) :
    ∀ bgs s1, placeGroups env volID allip n [] s = Flow.go bgs s1 →
      Pending blk0 dn0 s1.w (bgs.flatMap BGP.Blocks) ∧
      ∀ e ∈ keyed volID (s.w.bgid + 1) bgs,
        ∃ b0 rest, e.2.Blocks = b0 :: rest ∧ e.1 = bgKey volID b0.BGID := by
  have key := placeGroups_inv env volID allip
    (fun k acc s1 => InuseOK (fun _ => True) s1.nodes ∧ MemOK s1.w.dn s1.nodes ∧
      Pending blk0 dn0 s1.w (acc.flatMap BGP.Blocks) ∧ s.w.blkid ≤ s1.w.blkid ∧
      (∀ e ∈ s1.nodes, ∀ d ∈ e.2, 5 * (k : Int) ≤ d.Free) ∧
      s1.w.bgid = s.w.bgid + acc.length ∧
      ∀ e ∈ keyed volID (s.w.bgid + 1) acc,
        ∃ b0 rest, e.2.Blocks = b0 :: rest ∧ e.1 = bgKey volID b0.BGID)
    (fun _ _ => True) ?_ ?_ n [] s
    ⟨hok, hmem, by simpa using hpend, le_refl _, hfree, by simp, by simp [keyed]⟩
  · intro bgs s1 h
    have := key.1 bgs s1 h
    exact ⟨this.2.2.1, this.2.2.2.2.2.2⟩
  · intro k acc s0 bg s1 hI h
    obtain ⟨g1, g2, g3, g4, g5, g6, g7⟩ := hI
    have hB := placeGroup_pending env hkv volID allip hip (5 * (k : Int)) (by omega) s0 bg s1
      blk0 dn0 (acc.flatMap BGP.Blocks) s.w.blkid h g1 g2 g3 hfresh g4 h32 (by
        intro e he d hd
        have := g5 e he d hd
        push_cast at this
        omega)
    obtain ⟨h1, h2, h3, h4, h5, h6, h7, h8⟩ := hB
    refine ⟨h1, h2, ?_, h4, h5, ?_, ?_⟩
    · rw [List.flatMap_append]
      simpa using h3
    · rw [h8, g6, List.length_append]
      simp
      omega
    · intro e he
      rw [keyed_append] at he
      rcases List.mem_append.mp he with he1 | he1
      · exact g7 e he1
      · rw [List.mem_singleton.mp he1]
        cases hbl : bg.Blocks with
        | nil => rw [hbl] at h6; simp at h6
        | cons b0 rest =>
          refine ⟨b0, rest, rfl, ?_⟩
          have := h7 b0 (by rw [hbl]; exact List.mem_cons_self _ _)
          simp only
          rw [this, g6]
          congr 1
          omega
  · intro _ _ _ _ _ _ _
    trivial
theorem filter_kvSet_of_false {V : Type} (p : String → Bool) (k : String) (v : V) (m : KV V)
    (h : p k = false) :
    (kvSet k v m).filter (fun e => p e.1) = m.filter (fun e => p e.1) := by
  unfold kvSet
  rw [filter_kvIns_of_false _ _ _ _ h]
  unfold kvDel
  rw [List.filter_filter]
  apply List.filter_congr
  intro e _
  by_cases hk : e.1 = k
  · simp [hk, h]
  · simp [hk]

/-- The writes of a volume leave the entries of other volumes where they are. -/
theorem others_writeGroups (u : String) :
    ∀ (bgs : List BGP) (id : Nat) (m : KV BGP),
      (writeGroups u id bgs m).filter (fun e => !(u.data.isPrefixOf e.1.data)) =
        m.filter (fun e => !(u.data.isPrefixOf e.1.data)) := by
  intro bgs
  induction bgs with
  | nil =>
    intro id m
    rfl
  | cons bg rest ih =>
    intro id m
    simp only [writeGroups]
    rw [ih (id + 1)]
    exact filter_kvSet_of_false (fun k => !(u.data.isPrefixOf k.data)) _ _ _
      (by simp [begins_own_bgKey])

/-- The range of a new volume is the written groups under their keys, in some order. -/
theorem range_writeGroups (u : String) :
    ∀ (bgs : List BGP) (id : Nat) (m : KV BGP),
      (∀ e ∈ m, ∀ j, id ≤ j → e.1 ≠ bgKey u j) →
      (kvRange u (writeGroups u id bgs m)).Perm (kvRange u m ++ keyed u id bgs) := by
  intro bgs
  induction bgs with
  | nil =>
    intro id m _
    simp [writeGroups, keyed]
  | cons bg rest ih =>
    intro id m hm
    simp only [writeGroups, keyed]
    have hset : kvSet (bgKey u id) bg m = kvIns (bgKey u id) bg m := by
      unfold kvSet
      rw [kvDel_eq_self _ _ (fun e he => hm e he id (le_refl _))]
    have h1 := ih (id + 1) (kvSet (bgKey u id) bg m) (by
      intro e he j hj
      rcases (mem_kvSet _ _ _ _).mp he with h2 | h2
      · rw [h2]
        intro hk
        have := bgKey_injective u id j hk
        omega
      · exact hm e h2.1 j (by omega))
    refine h1.trans ?_
    have h2 : (kvRange u (kvSet (bgKey u id) bg m)).Perm ((bgKey u id, bg) :: kvRange u m) := by
      rw [hset]
      unfold kvRange
      have := (kvIns_perm (bgKey u id) bg m).filter
        (fun e => u.data.isPrefixOf e.1.data)
      rw [List.filter_cons_of_pos (by simpa using begins_own_bgKey u id)] at this
      exact this
    refine (List.Perm.append_right _ h2).trans ?_
    simp only [List.cons_append]
    exact List.perm_middle.symm

theorem filter_range_keys {V : Type} (u : String) (m : KV V) :
    m.filter (fun e => decide (e.1 ∉ (kvRange u m).map Prod.fst)) =
      m.filter (fun e => !(u.data.isPrefixOf e.1.data)) := by
  apply List.filter_congr
  intro e he
  by_cases hp : u.data.isPrefixOf e.1.data = true
  · have : e.1 ∈ (kvRange u m).map Prod.fst :=
      List.mem_map.mpr ⟨e, List.mem_filter.mpr ⟨he, hp⟩, rfl⟩
    simp [hp, this]
  · have : e.1 ∉ (kvRange u m).map Prod.fst := by
      intro hin
      obtain ⟨e1, he1, hk⟩ := List.mem_map.mp hin
      have := (List.mem_filter.mp he1).2
      rw [hk] at this
      exact hp this
    simp [hp, this]

/-- Dropping a pending block: its key leaves BLK and its node is refunded 5 GiB. -/
theorem dropBlock_pending (env : Env) (hkv : ∀ n, env.fault n = false)
    (blk0 : KV Block) (dn0 : KV Datanode) (w : World) (b : Block) (P : List Block)
    (h : Pending blk0 dn0 w (b :: P)) :
    ∃ w1, dropBlock env w b = (false, w1) ∧ Pending blk0 dn0 w1 P ∧ w1.bgp = w.bgp ∧
      w1.vol = w.vol := by
  obtain ⟨d, hd, hrel⟩ := DnRel_refund dn0 w.dn P b h.2
  have hstrip := strip_kvDel blk0 w.blk P b h.1
  have hrun : dropBlock env w b = (false,
      { w with tick := w.tick + 1 + 1 + 1, blk := kvDel (blkKey b.Ip b.Port b.BlkID) w.blk,
               dn := kvSet (dnKey b.Ip b.Port) { d with Free := wrap32 (d.Free + 5) } w.dn }) := by
    unfold dropBlock BlockDel DatanodeGet DataNodeSet
    simp only [hkv, World.step, Bool.false_eq_true, if_false, hd]
  exact ⟨_, hrun, ⟨hstrip, hrel⟩, rfl, rfl⟩

theorem dropBlocks_pending (env : Env) (hkv : ∀ n, env.fault n = false)
    (blk0 : KV Block) (dn0 : KV Datanode) (P : List Block) :
    ∀ (bs : List Block) (bad : Nat) (w : World), Pending blk0 dn0 w (bs ++ P) →
      ∃ w1, dropBlocks env bs bad w = (bad, w1) ∧ Pending blk0 dn0 w1 P ∧ w1.bgp = w.bgp ∧
        w1.vol = w.vol := by
  intro bs
  induction bs with
  | nil =>
    intro bad w h
    exact ⟨w, rfl, h, rfl, rfl⟩
  | cons b rest ih =>
    intro bad w h
    obtain ⟨w1, h1, h2, h3, h4⟩ := dropBlock_pending env hkv blk0 dn0 w b (rest ++ P) h
    obtain ⟨w2, g1, g2, g3, g4⟩ := ih bad w1 h2
    refine ⟨w2, ?_, g2, g3.trans h3, g4.trans h4⟩
    simp only [dropBlocks, h1]
    exact g1

theorem dropGroup_pending (env : Env) (hkv : ∀ n, env.fault n = false) (u : String)
    (blk0 : KV Block) (dn0 : KV Datanode) (P : List Block) (w : World) (bg : BGP)
    (b0 : Block) (rest : List Block) (hbg : bg.Blocks = b0 :: rest)
    (h : Pending blk0 dn0 w (bg.Blocks ++ P)) :
    ∃ w1, dropGroup env u w bg = (some false, w1) ∧ Pending blk0 dn0 w1 P ∧
      w1.bgp = kvDel (bgKey u b0.BGID) w.bgp ∧ w1.vol = w.vol := by
  obtain ⟨w1, h1, h2, h3, h4⟩ := dropBlocks_pending env hkv blk0 dn0 P bg.Blocks 0 w h
  refine ⟨{ w1.step with bgp := kvDel (bgKey u b0.BGID) w1.bgp }, ?_, h2, ?_, h4⟩
  · have h1a := h1
    rw [hbg] at h1a
    unfold dropGroup
    simp only [hbg, h1a, BGPDel, hkv, Bool.false_eq_true, if_false]
    simp
  · simp only [h3]

/-- The teardown loop over groups whose blocks are all pending: nothing is
counted as bad, every block is dropped and every group key is deleted. -/
theorem dropGroups_pending (env : Env) (hkv : ∀ n, env.fault n = false) (u : String)
    (blk0 : KV Block) (dn0 : KV Datanode) :
    ∀ (gs : KV BGP) (bad : Nat) (w : World),
      (∀ e ∈ gs, ∃ b0 rest, e.2.Blocks = b0 :: rest ∧ e.1 = bgKey u b0.BGID) →
      Pending blk0 dn0 w (gs.flatMap (fun e => e.2.Blocks)) →
      ∃ w1, dropGroups env u (gs.map Prod.snd) bad w = (some bad, w1) ∧
        Pending blk0 dn0 w1 [] ∧
        w1.bgp = w.bgp.filter (fun e => decide (e.1 ∉ gs.map Prod.fst)) ∧ w1.vol = w.vol := by
  intro gs
  induction gs with
  | nil =>
    intro bad w _ h
    exact ⟨w, rfl, h, by simp, rfl⟩
  | cons g rest ih =>
    intro bad w hk h
    obtain ⟨b0, r0, hb, hkey⟩ := hk g (List.mem_cons_self _ _)
    rw [List.flatMap_cons] at h
    obtain ⟨w1, h1, h2, h3, h4⟩ := dropGroup_pending env hkv u blk0 dn0 _ w g.2 b0 r0 hb h
    obtain ⟨w2, g1, g2, g3, g4⟩ := ih bad w1 (fun e he => hk e (List.mem_cons_of_mem _ he)) h2
    refine ⟨w2, ?_, g2, ?_, g4.trans h4⟩
    · simp only [List.map_cons, dropGroups, h1]
      exact g1
    · rw [g3, h3]
      unfold kvDel
      rw [List.filter_filter]
      apply List.filter_congr
      intro e _
      simp only [List.map_cons, List.mem_cons, not_or, ← hkey]
      by_cases hx : e.1 = g.1
      · simp [hx]
      · simp [hx]

theorem Pending_perm (blk0 : KV Block) (dn0 : KV Datanode) (w : World) (P Q : List Block)
    (hp : P.Perm Q) (h : Pending blk0 dn0 w P) : Pending blk0 dn0 w Q := by
  refine ⟨?_, DnRel_perm dn0 w.dn P Q hp h.2⟩
  rw [← h.1]
  apply List.filter_congr
  intro e _
  have : e.1 ∈ blkKeys Q ↔ e.1 ∈ blkKeys P := by
    unfold blkKeys
    exact (hp.map _).mem_iff.symm
  simp [this]

theorem tellPeers_uuid (ack : CreateVolAck) (peers : List Peer) :
    (tellPeers ack peers).2.UUID = ack.UUID := by
  induction peers with
  | nil => rfl
  | cons p ps ih =>
    cases p with
    | dialErr => rfl
    | callErr => rfl
    | ack r =>
      simp only [tellPeers]
      split
      · rfl
      · exact ih

/-- C6: `DeleteVol` undoes `CreateVol`.  Take a store in which every data node
is stored under its own key `ip:port` (one record per key, `free` an int32), no
block key carries an ID above the block-ID counter, and the generated UUID `u`
is new (no volume `u`, no block-group key beginning with `u`).  If no KV
operation fails and `CreateVol` returns `Ret = 0`, the returned UUID is `u`, and
a following `DeleteVol` of it, with no KV failure either, returns `Ret = 0` and
leaves the VOL, BGP and BLK keyspaces as they were before the `CreateVol`, and
the record of every data node, `free` included, as it was. -/
theorem C6_deletevol_undoes_createvol (env env2 : Env) (w : World) (req : CreateVolReq)
    (u : String) (hu : env.uuid = some u)
    (hkv : ∀ n, env.fault n = false) (hkv2 : ∀ n, env2.fault n = false)
    (hns2 : env2.nsRet = 0)
    (hkey : ∀ e ∈ w.dn, e.1 = dnKey e.2.Ip e.2.Port) (hnd : (w.dn.map Prod.fst).Nodup)
    (h32 : ∀ e ∈ w.dn, e.2.Free < 2147483648)
    (hblk : ∀ e ∈ w.blk, ∀ ip port id, w.blkid < id → e.1 ≠ blkKey ip port id)
    (hvol : ∀ e ∈ w.vol, e.1 ≠ u)
    (hbgp : ∀ e ∈ w.bgp, u.data.isPrefixOf e.1.data = false)
    (hret : (CreateVol env w req).1 = Exit.ret) (hRet : (CreateVol env w req).2.1.Ret = 0) :
    (CreateVol env w req).2.1.UUID = u ∧
    (DeleteVol env2 (CreateVol env w req).2.2 (CreateVol env w req).2.1.UUID).1 = Exit.ret ∧
    (DeleteVol env2 (CreateVol env w req).2.2 (CreateVol env w req).2.1.UUID).2.1 = 0 ∧
    (DeleteVol env2 (CreateVol env w req).2.2 (CreateVol env w req).2.1.UUID).2.2.vol = w.vol ∧
    (DeleteVol env2 (CreateVol env w req).2.2 (CreateVol env w req).2.1.UUID).2.2.bgp = w.bgp ∧
    (DeleteVol env2 (CreateVol env w req).2.2 (CreateVol env w req).2.1.UUID).2.2.blk = w.blk ∧
    ∀ k, kvGet k (DeleteVol env2 (CreateVol env w req).2.2
      (CreateVol env w req).2.1.UUID).2.2.dn = kvGet k w.dn := by
  rcases CreateVol_cases env w req with h | ⟨u1, hu1, _, _, _, h3, h⟩
  · exact absurd hRet (h.2.2.2.2 hret)
  have hu2 : u1 = u := by
    rw [hu] at hu1
    exact (Option.some.inj hu1).symm
  subst hu2
  have hs := start_ok env (skipCreate req.Tier) (w.dn.map Prod.snd)
  have hg := groupNodes_ok (skipCreate req.Tier) (w.dn.map Prod.snd)
  rcases h with ⟨a, w3, h1, h2⟩ | ⟨bgs, s, h1, h2, h4⟩
  · rw [h2] at hret hRet
    cases a <;> simp [Abort.exit, Abort.ret] at hret hRet
  have hnf := (placeGroups_nofault env hkv u1 _ hs.2 h3 (blkGrpNum req.SpaceQuota).1.toNat
    { w := { w with tick := w.tick + 2, rgid := w.rgid + 1 },
      nodes := groupNodes (skipCreate req.Tier) (w.dn.map Prod.snd) } (start_ready env _ _)).2
      bgs s h1
  have hpe := placeGroups_pending env hkv u1 _ hs.2 (blkGrpNum req.SpaceQuota).1.toNat
    { w := { w with tick := w.tick + 2, rgid := w.rgid + 1 },
      nodes := groupNodes (skipCreate req.Tier) (w.dn.map Prod.snd) } w.blk w.dn hs.1
    (MemOK_start w.dn _ hkey hnd) ⟨by simp [blkKeys], DnRel_nil w.dn⟩ hblk
    (fun k d hk => h32 (k, d) (kvGet_mem k w.dn d hk))
    (by
      intro e he d hd
      have h1 := ((hg.2 e he).2 d hd).2.2
      simp only [skipCreate, Bool.or_eq_false_iff, decide_eq_false_iff_not, not_lt] at h1
      have h2 := blkGrpNum_le req.SpaceQuota
      have h3 := h1.1.2
      omega)
    bgs s h1
  have hUUID : (CreateVol env w req).2.1.UUID = u1 := by
    have : (CreateVol env w req).2.1 = ((CreateVol env w req).1, (CreateVol env w req).2.1).2 := rfl
    rw [this, h4]
    split
    · rfl
    · exact tellPeers_uuid _ _
  -- the state after the creation
  have hbgp1 : (CreateVol env w req).2.2.bgp = writeGroups u1 (w.bgid + 1) bgs w.bgp := by
    rw [h2, VOLSet_bgp, hnf.2.2.1]
  have hvol1 : (CreateVol env w req).2.2.vol = kvSet u1
      { UUID := u1, Name := req.VolName, Tier := req.Tier,
        TotalSize := (blkGrpNum req.SpaceQuota).2,
        AllocatedSize := (blkGrpNum req.SpaceQuota).1 * 5, RGID := w.rgid + 1 } w.vol := by
    rw [h2, VOLSet_vol]
    simp only [hkv, Bool.false_eq_true, if_false]
    rw [hnf.2.2.2.1]
  have hpend1 : Pending w.blk w.dn (CreateVol env w req).2.2 (bgs.flatMap BGP.Blocks) := by
    rw [h2]
    exact ⟨by rw [VOLSet_blk]; exact hpe.1.1, by rw [VOLSet_dn]; exact hpe.1.2⟩
  obtain ⟨w1, hw1⟩ : ∃ w1, w1 = (CreateVol env w req).2.2 := ⟨_, rfl⟩
  rw [hUUID, ← hw1]
  rw [← hw1] at hbgp1 hvol1 hpend1
  -- the range read by DeleteVol
  have hrange := range_writeGroups u1 bgs (w.bgid + 1) w.bgp (by
    intro e he j _ hk
    have := hbgp e he
    rw [hk, begins_own_bgKey] at this
    exact Bool.noConfusion this)
  have hr0 : kvRange u1 w.bgp = [] := by
    unfold kvRange
    rw [List.filter_eq_nil_iff]
    intro e he
    simp [hbgp e he]
  rw [hr0, List.nil_append, ← hbgp1] at hrange
  have hkeys : ∀ e ∈ kvRange u1 w1.bgp,
      ∃ b0 rest, e.2.Blocks = b0 :: rest ∧ e.1 = bgKey u1 b0.BGID :=
    fun e he => hpe.2 e (hrange.mem_iff.mp he)
  have hpend2 : Pending w.blk w.dn w1 ((kvRange u1 w1.bgp).flatMap (fun e => e.2.Blocks)) := by
    apply Pending_perm _ _ _ _ _ _ hpend1
    have h5 := (hrange.symm.map Prod.snd).flatMap_right BGP.Blocks
    rw [keyed_snd, List.flatMap_map] at h5
    exact h5
  obtain ⟨w2, g1, g2, g3, g4⟩ := dropGroups_pending env2 hkv2 u1 w.blk w.dn (kvRange u1 w1.bgp) 0
    { w1 with tick := w1.tick + 1 + 1, vol := kvDel u1 w1.vol } hkeys hpend2
  have hrun : DeleteVol env2 w1 u1 = (Exit.ret, 0, w2) := by
    unfold DeleteVol VOLDel BGPGetRange
    simp only [hns2, hkv2, World.step, Bool.false_eq_true, if_false, ne_eq, not_true_eq_false]
    rw [g1]
    simp
  rw [hrun]
  refine ⟨rfl, rfl, rfl, ?_, ?_, ?_, ?_⟩
  · rw [g4]
    show kvDel u1 w1.vol = w.vol
    rw [hvol1]
    exact kvDel_kvSet _ _ _ hvol
  · rw [g3]
    show w1.bgp.filter _ = w.bgp
    rw [filter_range_keys, hbgp1, others_writeGroups]
    rw [List.filter_eq_self]
    intro e he
    simp [hbgp e he]
  · have := g2.1
    simpa [blkKeys] using this
  · exact DnRel_nil_eq _ _ g2.2
/-- C6 on scenario 1: `CreateVol(quota = 10)` on `a:1`, `b:1`, `c:1`, then
`DeleteVol` of the returned UUID. -/
theorem C6_deletevol_undoes_createvol_witness :
    (CreateVol envOk (cluster nodesABC (easyDraws 2)) ⟨"v1", 10, "hdd"⟩).1 = Exit.ret ∧
    (CreateVol envOk (cluster nodesABC (easyDraws 2)) ⟨"v1", 10, "hdd"⟩).2.1.Ret = 0 ∧
    (CreateVol envOk (cluster nodesABC (easyDraws 2)) ⟨"v1", 10, "hdd"⟩).2.1.UUID = "v1" ∧
    (DeleteVol envOk (CreateVol envOk (cluster nodesABC (easyDraws 2)) ⟨"v1", 10, "hdd"⟩).2.2
      (CreateVol envOk (cluster nodesABC (easyDraws 2)) ⟨"v1", 10, "hdd"⟩).2.1.UUID).1
        = Exit.ret ∧
    (DeleteVol envOk (CreateVol envOk (cluster nodesABC (easyDraws 2)) ⟨"v1", 10, "hdd"⟩).2.2
      (CreateVol envOk (cluster nodesABC (easyDraws 2)) ⟨"v1", 10, "hdd"⟩).2.1.UUID).2.1 = 0 ∧
    (DeleteVol envOk (CreateVol envOk (cluster nodesABC (easyDraws 2)) ⟨"v1", 10, "hdd"⟩).2.2
      (CreateVol envOk (cluster nodesABC (easyDraws 2)) ⟨"v1", 10, "hdd"⟩).2.1.UUID).2.2.vol
        = (cluster nodesABC (easyDraws 2)).vol ∧
    (DeleteVol envOk (CreateVol envOk (cluster nodesABC (easyDraws 2)) ⟨"v1", 10, "hdd"⟩).2.2
      (CreateVol envOk (cluster nodesABC (easyDraws 2)) ⟨"v1", 10, "hdd"⟩).2.1.UUID).2.2.bgp
        = (cluster nodesABC (easyDraws 2)).bgp ∧
    (DeleteVol envOk (CreateVol envOk (cluster nodesABC (easyDraws 2)) ⟨"v1", 10, "hdd"⟩).2.2
      (CreateVol envOk (cluster nodesABC (easyDraws 2)) ⟨"v1", 10, "hdd"⟩).2.1.UUID).2.2.blk
        = (cluster nodesABC (easyDraws 2)).blk ∧
    ∀ k, kvGet k (DeleteVol envOk
      (CreateVol envOk (cluster nodesABC (easyDraws 2)) ⟨"v1", 10, "hdd"⟩).2.2
      (CreateVol envOk (cluster nodesABC (easyDraws 2)) ⟨"v1", 10, "hdd"⟩).2.1.UUID).2.2.dn
        = kvGet k (cluster nodesABC (easyDraws 2)).dn :=
  ⟨by decide, by decide,
    C6_deletevol_undoes_createvol envOk envOk (cluster nodesABC (easyDraws 2))
      ⟨"v1", 10, "hdd"⟩ "v1" rfl (fun _ => rfl) (fun _ => rfl) rfl (by decide) (by decide)
      (by decide) (fun _ he => nomatch he) (fun _ he => nomatch he) (fun _ he => nomatch he)
      (by decide) (by decide)⟩

/-- Scenario 5 by evaluation: after `DeleteVol(v1)` on scenario 1 the VOL, BGP
and BLK keyspaces are empty and the three data nodes are back at 100 GiB free. -/
theorem DeleteVol_scenario5 :
    (DeleteVol envOk scenario1 "v1").1 = Exit.ret ∧ (DeleteVol envOk scenario1 "v1").2.1 = 0 ∧
    (DeleteVol envOk scenario1 "v1").2.2.vol = [] ∧
    (DeleteVol envOk scenario1 "v1").2.2.bgp = [] ∧
    (DeleteVol envOk scenario1 "v1").2.2.blk = [] ∧
    (DeleteVol envOk scenario1 "v1").2.2.dn = nodesABC ∧
    scenario1.dn.map (fun e => e.2.Free) = [90, 90, 90] ∧ scenario1.blk.length = 6 := by
  decide

/-! ## C11: `DeleteVol` of an unknown UUID -/

/-- C11, as stated, fails: on scenario 1 there is no volume "nope", and
`DeleteVol("nope")` returns `Ret = 0` with a nil error when no KV operation
fails, and `Ret = 0` with an error when the first KV operation (`VOLDel`) fails;
`Ret = -1` is not returned. -/
theorem C11_deletevol_unknown_uuid_counterexample :
    kvGet "nope" scenario1.vol = none ∧
    (DeleteVol envOk scenario1 "nope").1 = Exit.ret ∧
    (DeleteVol envOk scenario1 "nope").2.1 = 0 ∧
    (DeleteVol { envOk with fault := fun n => decide (n = scenario1.tick) } scenario1 "nope").1
      = Exit.err ∧
    (DeleteVol { envOk with fault := fun n => decide (n = scenario1.tick) } scenario1 "nope").2.1
      = 0 := by
  decide

/-- C11, amended: `DeleteVol` of a UUID with no VOL key and no block-group key
under it returns `Ret = 0` whenever the Cluster namespace is found, whatever KV
operation fails; when none fails it returns without error and leaves the four
keyspaces as they were. -/
theorem C11_deletevol_unknown_uuid_returns_zero (env : Env) (w : World) (u : String)
    (hns : env.nsRet = 0) (hvol : kvGet u w.vol = none)
    (hbgp : ∀ e ∈ w.bgp, u.data.isPrefixOf e.1.data = false) :
    (DeleteVol env w u).2.1 = 0 ∧
    ((∀ n, env.fault n = false) →
      (DeleteVol env w u).1 = Exit.ret ∧ (DeleteVol env w u).2.2.vol = w.vol ∧
      (DeleteVol env w u).2.2.bgp = w.bgp ∧ (DeleteVol env w u).2.2.blk = w.blk ∧
      (DeleteVol env w u).2.2.dn = w.dn) := by
  have hr0 : kvRange u w.bgp = [] := by
    unfold kvRange
    rw [List.filter_eq_nil_iff]
    intro e he
    simp [hbgp e he]
  have hdel : kvDel u w.vol = w.vol := kvDel_eq_self u w.vol (kvGet_eq_none u w.vol hvol)
  unfold DeleteVol VOLDel BGPGetRange
  simp only [hns, ne_eq, not_true_eq_false, if_false, World.step]
  by_cases hf1 : env.fault w.tick = true
  · simp only [hf1, if_true, true_and]
    intro hkv
    rw [hkv] at hf1
    exact Bool.noConfusion hf1
  simp only [Bool.not_eq_true] at hf1
  simp only [hf1, Bool.false_eq_true, if_false]
  by_cases hf2 : env.fault (w.tick + 1) = true
  · simp only [hf2, if_true, true_and]
    intro hkv
    rw [hkv] at hf2
    exact Bool.noConfusion hf2
  simp only [Bool.not_eq_true] at hf2
  simp only [hf2, Bool.false_eq_true, if_false, hr0, List.map_nil, dropGroups, hdel]
  simp

/-- C11, amended, on scenario 1 with the unknown UUID "nope". -/
theorem C11_deletevol_unknown_uuid_returns_zero_witness :
    (DeleteVol envOk scenario1 "nope").2.1 = 0 ∧
    ((∀ n, envOk.fault n = false) →
      (DeleteVol envOk scenario1 "nope").1 = Exit.ret ∧
      (DeleteVol envOk scenario1 "nope").2.2.vol = scenario1.vol ∧
      (DeleteVol envOk scenario1 "nope").2.2.bgp = scenario1.bgp ∧
      (DeleteVol envOk scenario1 "nope").2.2.blk = scenario1.blk ∧
      (DeleteVol envOk scenario1 "nope").2.2.dn = scenario1.dn) :=
  C11_deletevol_unknown_uuid_returns_zero envOk scenario1 "nope" rfl (by decide) (by decide)

/-! ## C12: `ExpandVolTS` twice -/

/-- One `ExpandVolTS` when no KV operation fails, on a stored volume whose sizes
stay within int32: `totalSize` grows by the quota rounded up to whole blocks. -/
theorem ExpandVolTS_run (env : Env) (w : World) (volID : String) (V : Volume) (e : Int)
    (hns : env.nsRet = 0) (hkv : ∀ n, env.fault n = false)
    (hV : kvGet volID w.vol = some V) (he : 0 ≤ e) (hT : 0 ≤ V.TotalSize)
    (hb : V.TotalSize + (e + 4) < 2147483648) :
    ExpandVolTS env w volID e = (Exit.ret, 0,
      { w with tick := w.tick + 1 + 1,
               vol := kvSet volID { V with TotalSize := V.TotalSize + 5 * ((e + 4) / 5) } w.vol }) := by
  have h1 : e.tdiv 5 = e / 5 := Int.tdiv_eq_ediv (by omega) (by omega)
  have h2 : e.tmod 5 = e % 5 := Int.tmod_eq_emod (by omega) (by omega)
  have hq : (if e.tmod BlkSizeG ≠ 0 then wrap32 ((e.tdiv BlkSizeG + 1) * BlkSizeG) else e)
      = 5 * ((e + 4) / 5) := by
    unfold BlkSizeG wrap32
    rw [h1, h2]
    split <;> omega
  have hs : wrap32 (V.TotalSize + 5 * ((e + 4) / 5)) = V.TotalSize + 5 * ((e + 4) / 5) := by
    unfold wrap32
    omega
  unfold ExpandVolTS VOLGet VOLSet
  simp only [hns, ne_eq, not_true_eq_false, if_false, hkv, Bool.false_eq_true, World.step, hV]
  rw [hq, hs]

/-- C12, as stated, fails: on scenario 1 (`totalSize = 10`) one `ExpandVolTS(v1,
10)` leaves `totalSize = 20` and a second one leaves `totalSize = 30`. -/
theorem C12_expandvolts_twice_counterexample :
    kvGet "v1" scenario1.vol = some (volV1 10 10) ∧
    kvGet "v1" (ExpandVolTS envOk scenario1 "v1" 10).2.2.vol = some (volV1 20 10) ∧
    kvGet "v1" (ExpandVolTS envOk (ExpandVolTS envOk scenario1 "v1" 10).2.2 "v1" 10).2.2.vol
      = some (volV1 30 10) ∧
    (ExpandVolTS envOk (ExpandVolTS envOk scenario1 "v1" 10).2.2 "v1" 10).2.2.vol
      ≠ (ExpandVolTS envOk scenario1 "v1" 10).2.2.vol := by
  decide

/-- C12, amended: `ExpandVolTS` is additive.  For a stored volume with
`totalSize = T` and a quota `e >= 0` (sizes within int32), when no KV operation
fails, one call returns `Ret = 0` and leaves `totalSize = T + 5 * ceil(e / 5)`, a
second call returns `Ret = 0` and leaves `totalSize = T + 10 * ceil(e / 5)`; the
two records are the same only for `e = 0`. -/
theorem C12_expandvolts_additive (env env2 : Env) (w : World) (volID : String) (V : Volume)
    (e : Int) (hns : env.nsRet = 0) (hkv : ∀ n, env.fault n = false)
    (hns2 : env2.nsRet = 0) (hkv2 : ∀ n, env2.fault n = false)
    (hV : kvGet volID w.vol = some V) (he : 0 ≤ e) (hT : 0 ≤ V.TotalSize)
    (hb : V.TotalSize + 2 * (e + 4) < 2147483648) :
    (ExpandVolTS env w volID e).1 = Exit.ret ∧ (ExpandVolTS env w volID e).2.1 = 0 ∧
    kvGet volID (ExpandVolTS env w volID e).2.2.vol
      = some { V with TotalSize := V.TotalSize + 5 * ((e + 4) / 5) } ∧
    (ExpandVolTS env2 (ExpandVolTS env w volID e).2.2 volID e).1 = Exit.ret ∧
    (ExpandVolTS env2 (ExpandVolTS env w volID e).2.2 volID e).2.1 = 0 ∧
    kvGet volID (ExpandVolTS env2 (ExpandVolTS env w volID e).2.2 volID e).2.2.vol
      = some { V with TotalSize := V.TotalSize + 10 * ((e + 4) / 5) } ∧
    (kvGet volID (ExpandVolTS env2 (ExpandVolTS env w volID e).2.2 volID e).2.2.vol
      = kvGet volID (ExpandVolTS env w volID e).2.2.vol ↔ e = 0) := by
  have h1 := ExpandVolTS_run env w volID V e hns hkv hV he hT (by omega)
  have hV1 : kvGet volID (ExpandVolTS env w volID e).2.2.vol
      = some { V with TotalSize := V.TotalSize + 5 * ((e + 4) / 5) } := by
    rw [h1]
    simp [kvGet_kvSet]
  have h2 := ExpandVolTS_run env2 (ExpandVolTS env w volID e).2.2 volID _ e hns2 hkv2 hV1 he
    (by simp only; omega) (by simp only; omega)
  have hV2 : kvGet volID (ExpandVolTS env2 (ExpandVolTS env w volID e).2.2 volID e).2.2.vol
      = some { V with TotalSize := V.TotalSize + 10 * ((e + 4) / 5) } := by
    rw [h2]
    simp only [kvGet_kvSet, if_true]
    congr 2
    omega
  refine ⟨by rw [h1], by rw [h1], hV1, by rw [h2], by rw [h2], hV2, ?_⟩
  rw [hV1, hV2]
  constructor
  · intro h
    have h3 := congrArg Volume.TotalSize (Option.some.inj h)
    simp only at h3
    omega
  · intro h
    subst h
    simp

/-- C12, amended, on scenario 1 with `ExpandVolTS(v1, 7)` twice. -/
theorem C12_expandvolts_additive_witness :
    (ExpandVolTS envOk scenario1 "v1" 7).1 = Exit.ret ∧
    (ExpandVolTS envOk scenario1 "v1" 7).2.1 = 0 ∧
    kvGet "v1" (ExpandVolTS envOk scenario1 "v1" 7).2.2.vol
      = some { volV1 10 10 with TotalSize := (volV1 10 10).TotalSize + 5 * ((7 + 4) / 5) } ∧
    (ExpandVolTS envOk (ExpandVolTS envOk scenario1 "v1" 7).2.2 "v1" 7).1 = Exit.ret ∧
    (ExpandVolTS envOk (ExpandVolTS envOk scenario1 "v1" 7).2.2 "v1" 7).2.1 = 0 ∧
    kvGet "v1" (ExpandVolTS envOk (ExpandVolTS envOk scenario1 "v1" 7).2.2 "v1" 7).2.2.vol
      = some { volV1 10 10 with TotalSize := (volV1 10 10).TotalSize + 10 * ((7 + 4) / 5) } ∧
    (kvGet "v1" (ExpandVolTS envOk (ExpandVolTS envOk scenario1 "v1" 7).2.2 "v1" 7).2.2.vol
      = kvGet "v1" (ExpandVolTS envOk scenario1 "v1" 7).2.2.vol ↔ (7 : Int) = 0) :=
  C12_expandvolts_additive envOk envOk scenario1 "v1" (volV1 10 10) 7 rfl (fun _ => rfl) rfl
    (fun _ => rfl) (by decide) (by decide) (by decide) (by decide)

/-! ## C13: the health probe of one data node -/

theorem SetDatanodeMap_vol (env : Env) (w : World) (v : Datanode) :
    (SetDatanodeMap env w v).2.vol = w.vol := by
  unfold SetDatanodeMap DataNodeSet
  split_ifs <;> rfl

theorem SetDatanodeMap_bgp (env : Env) (w : World) (v : Datanode) :
    (SetDatanodeMap env w v).2.bgp = w.bgp := by
  unfold SetDatanodeMap DataNodeSet
  split_ifs <;> rfl

theorem SetDatanodeMap_blk (env : Env) (w : World) (v : Datanode) :
    (SetDatanodeMap env w v).2.blk = w.blk := by
  unfold SetDatanodeMap DataNodeSet
  split_ifs <;> rfl

/-- The write of `SetDatanodeMap`: the DN keyspace is left as it was when the
namespace is not found or the KV operation fails, and holds `v` under its key
`ip:port` otherwise. -/
theorem SetDatanodeMap_dn (env : Env) (w : World) (v : Datanode) :
    (SetDatanodeMap env w v).2.dn =
      if env.nsRet = 0 ∧ env.fault w.tick = false then kvSet (dnKey v.Ip v.Port) v w.dn
      else w.dn := by
  unfold SetDatanodeMap DataNodeSet
  by_cases hns : env.nsRet = 0
  · by_cases hf : env.fault w.tick = true
    · simp [hns, hf, World.step]
    · simp [hns, hf, World.step]
  · simp [hns]

/-- A probe answered with `Status == 0`: the node is marked healthy, `used` is
refreshed and the record is written. -/
theorem DetectDatanode_good (env : Env) (w : World) (v : Datanode) (used : Int) :
    DetectDatanode env (Probe.ack 0 used) w v =
      ({ v with Status := 0, Used := used },
        (SetDatanodeMap env w { v with Status := 0, Used := used }).2) := by
  simp only [DetectDatanode, ne_eq, not_true_eq_false, if_false]
  by_cases hs : v.Status = 0
  · simp only [hs, not_true_eq_false, if_false]
  · simp only [hs, not_false_eq_true, if_true]

/-- A probe answered with `Status != 0` on a healthy node. -/
theorem DetectDatanode_bad (env : Env) (w : World) (v : Datanode) (st used : Int)
    (hst : st ≠ 0) (hs : v.Status = 0) :
    DetectDatanode env (Probe.ack st used) w v =
      ({ v with Status := st, Used := used },
        (SetDatanodeMap env w { v with Status := st, Used := used }).2) := by
  simp only [DetectDatanode, ne_eq, hst, not_false_eq_true, if_true, hs]

/-- A failed dial or call on a healthy node. -/
theorem DetectDatanode_failed (env : Env) (probe : Probe) (w : World) (v : Datanode)
    (hp : probe = Probe.dialErr ∨ probe = Probe.callErr) (hs : v.Status = 0) :
    DetectDatanode env probe w v =
      ({ v with Status := 1 }, (SetDatanodeMap env w { v with Status := 1 }).2) := by
  rcases hp with hp | hp <;> subst hp <;> simp only [DetectDatanode, hs, if_true]

/-- An unhealthy node that is not reported healthy: nothing is done. -/
theorem DetectDatanode_skip (env : Env) (probe : Probe) (w : World) (v : Datanode)
    (hp : ∀ used, probe ≠ Probe.ack 0 used) (hs : v.Status ≠ 0) :
    DetectDatanode env probe w v = (v, w) := by
  cases probe with
  | dialErr => simp only [DetectDatanode, hs, if_false]
  | callErr => simp only [DetectDatanode, hs, if_false]
  | ack status used =>
    have hst : status ≠ 0 := by
      intro h0
      subst h0
      exact hp used rfl
    simp only [DetectDatanode, ne_eq, hst, not_false_eq_true, if_true, hs, if_false]

/-- What the four cases of `DetectDatanode` have in common: the record returned
keeps the fields the probe does not report, and the store is left as it was or
holds the record under `ip:port`. -/
theorem DetectDatanode_frame (env : Env) (w : World) (v v1 : Datanode)
    (h1 : v1.Ip = v.Ip ∧ v1.Port = v.Port ∧ v1.MountPoint = v.MountPoint ∧ v1.Tier = v.Tier ∧
      v1.Capacity = v.Capacity ∧ v1.Free = v.Free) :
    (v1.Ip = v.Ip ∧ v1.Port = v.Port ∧ v1.MountPoint = v.MountPoint ∧ v1.Tier = v.Tier ∧
      v1.Capacity = v.Capacity ∧ v1.Free = v.Free) ∧
    ((SetDatanodeMap env w v1).2.dn = w.dn ∨
      (SetDatanodeMap env w v1).2.dn = kvSet (dnKey v.Ip v.Port) v1 w.dn) ∧
    (env.nsRet = 0 → env.fault w.tick = false →
      (SetDatanodeMap env w v1).2.dn = kvSet (dnKey v.Ip v.Port) v1 w.dn) ∧
    (SetDatanodeMap env w v1).2.vol = w.vol ∧ (SetDatanodeMap env w v1).2.bgp = w.bgp ∧
    (SetDatanodeMap env w v1).2.blk = w.blk := by
  refine ⟨h1, ?_, ?_, SetDatanodeMap_vol env w v1, SetDatanodeMap_bgp env w v1,
    SetDatanodeMap_blk env w v1⟩
  · rw [SetDatanodeMap_dn, h1.1, h1.2.1]
    split
    · exact Or.inr rfl
    · exact Or.inl rfl
  · intro hns hf
    rw [SetDatanodeMap_dn, h1.1, h1.2.1, if_pos ⟨hns, hf⟩]

/-- C13: the record of a data node after `DetectDatanode`.  Its status is 0 if
and only if the probe returned an ack with `Status == 0`; after a failed dial or
call on a healthy node it is 1; after an ack with `Status != 0` on a healthy node
it is that status; a node that was already unhealthy is left as it was and
nothing is written for it unless the probe returned `Status == 0`.  The IP, port,
mount point, tier, capacity and `free` of the record are never changed.  In the
store only the key `ip:port` of the node can change, and only to the record
returned; it does so whenever the namespace is found, the KV operation succeeds
and the node was healthy or the probe returned `Status == 0`. -/
theorem C13_detectdatanode (env : Env) (probe : Probe) (w : World) (v : Datanode) :
    ((DetectDatanode env probe w v).1.Status = 0 ↔ ∃ used, probe = Probe.ack 0 used) ∧
    (v.Status = 0 → probe = Probe.dialErr ∨ probe = Probe.callErr →
      (DetectDatanode env probe w v).1.Status = 1) ∧
    (∀ st used, v.Status = 0 → st ≠ 0 → probe = Probe.ack st used →
      (DetectDatanode env probe w v).1.Status = st) ∧
    (v.Status ≠ 0 → (¬ ∃ used, probe = Probe.ack 0 used) →
      DetectDatanode env probe w v = (v, w)) ∧
    ((DetectDatanode env probe w v).1.Ip = v.Ip ∧
      (DetectDatanode env probe w v).1.Port = v.Port ∧
      (DetectDatanode env probe w v).1.MountPoint = v.MountPoint ∧
      (DetectDatanode env probe w v).1.Tier = v.Tier ∧
      (DetectDatanode env probe w v).1.Capacity = v.Capacity ∧
      (DetectDatanode env probe w v).1.Free = v.Free) ∧
    ((DetectDatanode env probe w v).2.dn = w.dn ∨
      (DetectDatanode env probe w v).2.dn =
        kvSet (dnKey v.Ip v.Port) (DetectDatanode env probe w v).1 w.dn) ∧
    (env.nsRet = 0 → env.fault w.tick = false →
      (v.Status = 0 ∨ ∃ used, probe = Probe.ack 0 used) →
      (DetectDatanode env probe w v).2.dn =
        kvSet (dnKey v.Ip v.Port) (DetectDatanode env probe w v).1 w.dn) ∧
    (DetectDatanode env probe w v).2.vol = w.vol ∧
    (DetectDatanode env probe w v).2.bgp = w.bgp ∧
    (DetectDatanode env probe w v).2.blk = w.blk := by
  by_cases hgood : ∃ used, probe = Probe.ack 0 used
  · obtain ⟨used, rfl⟩ := hgood
    have hf := DetectDatanode_frame env w v { v with Status := 0, Used := used }
      ⟨rfl, rfl, rfl, rfl, rfl, rfl⟩
    rw [DetectDatanode_good]
    refine ⟨⟨fun _ => ⟨used, rfl⟩, fun _ => rfl⟩, ?_, ?_, ?_, hf.1, hf.2.1,
      fun h1 h2 _ => hf.2.2.1 h1 h2, hf.2.2.2⟩
    · intro _ hp
      rcases hp with hp | hp <;> cases hp
    · intro st used1 _ hne hp
      cases hp
      exact absurd rfl hne
    · intro _ hno
      exact absurd ⟨used, rfl⟩ hno
  · have hp : ∀ used, probe ≠ Probe.ack 0 used := fun used h => hgood ⟨used, h⟩
    by_cases hs : v.Status = 0
    · cases hprobe : probe with
      | ack st used =>
        have hst : st ≠ 0 := by
          intro h0
          subst h0
          exact hp used hprobe
        have hf := DetectDatanode_frame env w v { v with Status := st, Used := used }
          ⟨rfl, rfl, rfl, rfl, rfl, rfl⟩
        rw [DetectDatanode_bad env w v st used hst hs]
        refine ⟨⟨fun h0 => absurd h0 hst, ?_⟩, ?_, ?_, fun hne => absurd hs hne, hf.1, hf.2.1,
          fun h1 h2 _ => hf.2.2.1 h1 h2, hf.2.2.2⟩
        · rintro ⟨used1, h1⟩
          cases h1
          exact absurd rfl hst
        · intro _ h1
          rcases h1 with h1 | h1 <;> cases h1
        · intro st1 used1 _ _ h1
          cases h1
          rfl
      | dialErr =>
        have hf := DetectDatanode_frame env w v { v with Status := 1 }
          ⟨rfl, rfl, rfl, rfl, rfl, rfl⟩
        rw [DetectDatanode_failed env Probe.dialErr w v (Or.inl rfl) hs]
        refine ⟨⟨fun h0 => absurd h0 (show (1 : Int) ≠ 0 by decide), ?_⟩, fun _ _ => rfl, ?_,
          fun hne => absurd hs hne, hf.1, hf.2.1, fun h1 h2 _ => hf.2.2.1 h1 h2, hf.2.2.2⟩
        · rintro ⟨used1, h1⟩
          cases h1
        · intro st1 used1 _ _ h1
          cases h1
      | callErr =>
        have hf := DetectDatanode_frame env w v { v with Status := 1 }
          ⟨rfl, rfl, rfl, rfl, rfl, rfl⟩
        rw [DetectDatanode_failed env Probe.callErr w v (Or.inr rfl) hs]
        refine ⟨⟨fun h0 => absurd h0 (show (1 : Int) ≠ 0 by decide), ?_⟩, fun _ _ => rfl, ?_,
          fun hne => absurd hs hne, hf.1, hf.2.1, fun h1 h2 _ => hf.2.2.1 h1 h2, hf.2.2.2⟩
        · rintro ⟨used1, h1⟩
          cases h1
        · intro st1 used1 _ _ h1
          cases h1
    · rw [DetectDatanode_skip env probe w v hp hs]
      refine ⟨⟨fun h0 => absurd h0 hs, fun h0 => absurd h0 hgood⟩, fun h0 => absurd h0 hs,
        fun _ _ h0 => absurd h0 hs, fun _ _ => rfl, ⟨rfl, rfl, rfl, rfl, rfl, rfl⟩, Or.inl rfl,
        ?_, rfl, rfl, rfl⟩
      intro _ _ h3
      rcases h3 with h3 | h3
      · exact absurd h3 hs
      · exact absurd h3 hgood

/-- C13 on the node `a:1` of scenario 1 (healthy, 90 GiB free) with a failed call:
the record and the stored record get status 1 and keep `free = 90`. -/
theorem C13_detectdatanode_witness :
    (DetectDatanode envOk Probe.callErr scenario1 (node1 "a" 90 "hdd")).1.Status = 1 ∧
    (DetectDatanode envOk Probe.callErr scenario1 (node1 "a" 90 "hdd")).1.Free = 90 ∧
    (DetectDatanode envOk Probe.callErr scenario1 (node1 "a" 90 "hdd")).2.dn =
      kvSet (dnKey "a" 1) (DetectDatanode envOk Probe.callErr scenario1 (node1 "a" 90 "hdd")).1
        scenario1.dn :=
  have h := C13_detectdatanode envOk Probe.callErr scenario1 (node1 "a" 90 "hdd")
  ⟨h.2.1 rfl (Or.inr rfl), h.2.2.2.2.1.2.2.2.2.2, h.2.2.2.2.2.2.1 rfl rfl (Or.inl rfl)⟩

/-- The monitor on scenario 1 by evaluation: a failed call marks the stored node
`a:1` with status 1, a later ack with `Status == 0` clears it, and `free` stays
at 90 throughout. -/
theorem DetectDatanode_scenario :
    kvGet "a:1" scenario1.dn = some (node1 "a" 90 "hdd") ∧
    kvGet "a:1" (DetectDatanode envOk Probe.callErr scenario1 (node1 "a" 90 "hdd")).2.dn =
      some { node1 "a" 90 "hdd" with Status := 1 } ∧
    kvGet "a:1" (DetectDatanode envOk (Probe.ack 0 10)
        (DetectDatanode envOk Probe.callErr scenario1 (node1 "a" 90 "hdd")).2
        { node1 "a" 90 "hdd" with Status := 1 }).2.dn =
      some { node1 "a" 90 "hdd" with Used := 10 } := by
  decide

/-! ## C14: the blocks handed to `BeginMigrate` by the drain -/

theorem drainLoop_handed (env : Env) (tier : String) :
    ∀ (bs : List Block) (acc : List (Block × Int)) (w : World),
      ∀ x ∈ (drainLoop env tier bs acc w).2.1, x ∈ acc ∨ x.1 ∈ bs := by
  intro bs
  induction bs with
  | nil =>
    intro acc w x hx
    exact Or.inl hx
  | cons b rest ih =>
    intro acc w x hx
    unfold drainLoop at hx
    have hacc : ∀ r, x ∈ acc ++ [(b, r)] → x ∈ acc ∨ x.1 ∈ b :: rest := by
      intro r h
      rcases List.mem_append.mp h with h1 | h1
      · exact Or.inl h1
      · rw [List.mem_singleton.mp h1]
        exact Or.inr (List.mem_cons_self _ _)
    split at hx
    · rcases ih _ _ x hx with h1 | h1
      · exact hacc _ h1
      · exact Or.inr (List.mem_cons_of_mem _ h1)
    · exact hacc _ hx

/-- What the drain does hand over: every block handed to `BeginMigrate` is stored
in BLK under a key that begins with `ip:port`. -/
theorem Migrate_handed (env : Env) (w : World) (dnIP : String) (dnPort : Int) :
    ∀ x ∈ (Migrate env w dnIP dnPort).2.1,
      ∃ k, (k, x.1) ∈ w.blk ∧ (dnKey dnIP dnPort).data.isPrefixOf k.data = true := by
  intro x hx
  unfold Migrate DatanodeGet BlockGetRange at hx
  by_cases hns : env.nsRet = 0
  swap
  · simp [hns] at hx
  simp only [hns, ne_eq, not_true_eq_false, if_false, World.step] at hx
  by_cases hf1 : env.fault w.tick = true
  · simp [hf1] at hx
  simp only [hf1, Bool.false_eq_true, if_false] at hx
  cases hd : kvGet (dnKey dnIP dnPort) w.dn with
  | none => simp [hd] at hx
  | some d =>
    simp only [hd] at hx
    by_cases hf2 : env.fault (w.tick + 1) = true
    · simp [hf2] at hx
    simp only [hf2, Bool.false_eq_true, if_false] at hx
    rcases drainLoop_handed env d.Tier _ _ _ x hx with h1 | h1
    · cases h1
    · obtain ⟨e, he, hb⟩ := List.mem_map.mp h1
      have := List.mem_filter.mp he
      refine ⟨e.1, ?_, this.2⟩
      rw [← hb]
      exact this.1

/-- C14, as stated, fails.  A volume is created on the nodes `a:10`, `b:1`, `c:1`;
then `a:1` and `d:1` are registered, so `a:1` hosts no block and every BLK key
has the form `ip:port-blkID`.  The drain of `Migrate(a, 1)` hands the block
stored under `a:10-1` (port 10) to `BeginMigrate`, which returns 0 and moves it
to `d:1`. -/
theorem C14_drain_hands_other_node_evaluation :
    (∀ e ∈ (drainStore [2, 0]).blk, e.1 = blkKey e.2.Ip e.2.Port e.2.BlkID) ∧
    (drainStore [2, 0]).blk.map Prod.fst = ["a:10-1", "b:1-2", "c:1-3"] ∧
    kvGet "a:10-1" (drainStore [2, 0]).blk = some blockOnA10 ∧
    (Migrate envOk (drainStore [2, 0]) "a" 1).1 = Exit.ret ∧
    (Migrate envOk (drainStore [2, 0]) "a" 1).2.1 = [(blockOnA10, 0)] ∧
    blockOnA10.Ip = "a" ∧ blockOnA10.Port = 10 ∧ blockOnA10.Port ≠ 1 ∧
    (Migrate envOk (drainStore [2, 0]) "a" 1).2.2.blk.map Prod.fst
      = ["b:1-2", "c:1-3", "d:1-4"] ∧
    (Migrate envOk (drainStore [2, 0]) "a" 1).2.2.bgp.map
      (fun e => (e.1, e.2.Blocks.map (fun b => (b.Ip, b.Port))))
      = [("v1-1", [("b", 1), ("c", 1), ("d", 1)])] := by
  decide

end Metanode
